import Mathlib

/-!
# prastuvwxyz/argon2: the hash-string codec and the verifier

A shallow embedding of `argon2.go`.

* A Go `string` / `[]byte` is a `List Nat` of byte values; a nil slice is `none`.
* `uint32`, `uint8` and `int` fields are `Nat` / `Int`; conversions that can wrap are written
  with an explicit `%`.  `int` is 64 bits wide.
* Methods with a pointer receiver that mutate the receiver return the new `Config`.
* The library functions `argon2.go` calls (`strings.Split`, `strconv.FormatInt`,
  `strconv.FormatUint`, `fmt.Sscanf`, `base64.RawStdEncoding`, `subtle.ConstantTimeCompare`) are
  embedded from the Go standard library; the key-derivation functions of
  `golang.org/x/crypto/argon2` and `crypto/rand.Read` are parameters.
* `Config.generateKey`, `Config.Match` and `Config.CreateHash` give what the methods return
  when the key derivation returns.  The key derivation of `golang.org/x/crypto/argon2` panics
  on a time or a parallelism below 1 and on a key length of 0: `deriveKey`,
  `Config.generateKeyRun`, `Config.MatchRun` and `Config.CreateHashRun` embed the same methods
  with these panics as an outcome.  Exhaustion of memory is not part of the embedding.
-/

namespace Argon2

/-! ## Byte strings and errors -/

/-- Bytes of an ASCII string literal. -/
def str (s : String) : List Nat := s.toList.map Char.toNat

/-- Every element is a byte value. -/
def isBytes (l : List Nat) : Prop := ∀ b ∈ l, b < 256

instance (l : List Nat) : Decidable (isBytes l) := by
  unfold isBytes; infer_instance

/-- Error values that can come out of the package: its six sentinel errors and the errors of the
library calls it forwards unchanged. -/
inductive Error where
  /-- errors.New("salt not found") -/
  | ErrSaltNotFound
  /-- errors.New("key not found") -/
  | ErrKeyNotFound
  /-- errors.New("invalid hash format") -/
  | ErrInvalidHash
  /-- errors.New("argon version not supported") -/
  | ErrInvalidVersion
  /-- errors.New("argon mode not supported") -/
  | ErrInvalidMode
  /-- errors.New("invalid argon config") -/
  | ErrInvalidArgonConfig
  /-- an error made by `ss.errorString` in package fmt, with its message -/
  | scanError (msg : List Nat)
  /-- io.ErrUnexpectedEOF, message "unexpected EOF" -/
  | ErrUnexpectedEOF
  /-- io.EOF, message "EOF" -/
  | EOF
  /-- a `*strconv.NumError`: function name, offending text, and whether it wraps `ErrRange`
  (otherwise `ErrSyntax`) -/
  | NumError (fn : List Nat) (num : List Nat) (range : Bool)
  /-- base64.CorruptInputError(off), message "illegal base64 data at input byte off" -/
  | CorruptInputError (off : Nat)
  /-- an error returned by `crypto/rand.Read` -/
  | randError (code : Nat)
  deriving DecidableEq, Repr

open Error

deriving instance DecidableEq for Except

/-! ## Constants and the Config struct -/

def SegmentsLength : Nat := 6

def Argon2i : Int := 1

def Argon2id : Int := 2

/-- The map `Mode`; a missing key reads as the empty string. -/
def Mode (k : Int) : List Nat :=
  if k = Argon2i then str "argon2i" else if k = Argon2id then str "argon2id" else []

def Version13 : Nat := 0x13

/-- The map `Version`; a missing key reads as 0. -/
def Version (k : Nat) : Int := if k = Version13 then 13 else 0

structure Config where
  Time : Nat
  Memory : Nat
  Parallelism : Nat
  SaltLength : Nat
  KeyLength : Nat
  Mode : List Nat
  Version : Int
  Salt : Option (List Nat)
  Key : Option (List Nat)
  deriving DecidableEq, Repr

/-- Every field holds a value of its Go type. -/
def Config.wellTyped (c : Config) : Prop :=
  c.Time < 2 ^ 32 ∧ c.Memory < 2 ^ 32 ∧ c.Parallelism < 2 ^ 8 ∧ c.SaltLength < 2 ^ 32 ∧
  c.KeyLength < 2 ^ 32 ∧ isBytes c.Mode ∧ -(2 ^ 63 : Int) ≤ c.Version ∧ c.Version < 2 ^ 63 ∧
  (∀ s, c.Salt = some s → isBytes s) ∧ (∀ k, c.Key = some k → isBytes k)

/-- The zero value `&Config{}`. -/
def Config.zero : Config :=
  { Time := 0, Memory := 0, Parallelism := 0, SaltLength := 0, KeyLength := 0, Mode := [],
    Version := 0, Salt := none, Key := none }

def Default : Config :=
  { Time := 1, Memory := 64 * 1024, Parallelism := 2, SaltLength := 16, KeyLength := 32,
    Mode := Argon2.Mode Argon2id, Version := Argon2.Version Version13, Salt := none, Key := none }

def Config.SetTime (c : Config) (time : Nat) : Config := { c with Time := time }

def Config.SetMemory (c : Config) (memory : Nat) : Config := { c with Memory := memory }

def Config.SetParallelism (c : Config) (parallel : Nat) : Config :=
  { c with Parallelism := parallel }

def Config.SetSaltLength (c : Config) (saltLength : Nat) : Config :=
  { c with SaltLength := saltLength }

def Config.SetKeyLength (c : Config) (keyLength : Nat) : Config :=
  { c with KeyLength := keyLength }

def Config.SetMode (c : Config) (mode : List Nat) : Config := { c with Mode := mode }

def Config.SetVersion (c : Config) (version : Int) : Config := { c with Version := version }

/-! ## strconv: decimal formatting -/

/-- Decimal digits of `n`, most significant first, in front of `acc`. -/
def formatBits : Nat → Nat → List Nat → List Nat
  | 0, _, acc => acc
  | fuel + 1, n, acc =>
    if n < 10 then (48 + n) :: acc else formatBits fuel (n / 10) ((48 + n % 10) :: acc)

/-- strconv.FormatUint(n, 10). -/
def FormatUint (n : Nat) : List Nat := formatBits (n + 1) n []

/-- strconv.FormatInt(i, 10): a minus sign and the magnitude for a negative value. -/
def FormatInt (i : Int) : List Nat :=
  if i < 0 then 45 :: FormatUint i.natAbs else FormatUint i.natAbs

/-! ## encoding/base64: RawStdEncoding -/

/-- The standard alphabet. -/
def encodeStd : List Nat :=
  str "ABCDEFGHIJKLMNOPQRSTUVWXYZabcdefghijklmnopqrstuvwxyz0123456789+/"

/-- The table `enc.encode`. -/
def encodeMap (i : Nat) : Nat := encodeStd.getD i 0

/-- The table `enc.decodeMap`: the index of an alphabet byte, 0xff for every other byte. -/
def decodeMap (c : Nat) : Nat :=
  let i := encodeStd.indexOf c
  if i < 64 then i else 0xff

/-- RawStdEncoding.EncodeToString: three bytes give four characters; a remainder of one or two
bytes gives two or three characters and no padding. The 24-bit group `val` is
`src[0]<<16 | src[1]<<8 | src[2]`. -/
def EncodeToString : List Nat → List Nat
  | a :: b :: c :: rest =>
    let val := a * 65536 + b * 256 + c
    encodeMap (val / 262144 % 64) :: encodeMap (val / 4096 % 64) :: encodeMap (val / 64 % 64) ::
      encodeMap (val % 64) :: EncodeToString rest
  | [a, b] =>
    let val := a * 65536 + b * 256
    [encodeMap (val / 262144 % 64), encodeMap (val / 4096 % 64), encodeMap (val / 64 % 64)]
  | [a] =>
    let val := a * 65536
    [encodeMap (val / 262144 % 64), encodeMap (val / 4096 % 64)]
  | [] => []

/-- The tail of `decodeQuantum` for a quantum of `dbuf.length` sextets, in strict mode with no
padding character: `si` bytes of input have been consumed. A quantum of four sextets gives three
bytes; at the end of the input a quantum of three gives two bytes and one of two gives one byte,
provided the unused low bits are zero; a lone sextet is corrupt. -/
def quantumBytes (dbuf : List Nat) (si : Nat) : Except Error (List Nat) :=
  let val := dbuf.getD 0 0 * 262144 + dbuf.getD 1 0 * 4096 + dbuf.getD 2 0 * 64 + dbuf.getD 3 0
  let b0 := val / 65536 % 256
  let b1 := val / 256 % 256
  let b2 := val % 256
  match dbuf.length with
  | 0 => .ok []
  | 1 => .error (CorruptInputError (si - 1))
  | 2 => if b1 ≠ 0 ∨ b2 ≠ 0 then .error (CorruptInputError (si - 2)) else .ok [b0]
  | 3 => if b2 ≠ 0 then .error (CorruptInputError (si - 1)) else .ok [b0, b1]
  | _ => .ok [b0, b1, b2]

/-- The loops of `Encoding.Decode` and `decodeQuantum` as one pass over the input: `si` is the
index of the next input byte and `dbuf` the sextets of the quantum being collected. An alphabet
byte is added to the quantum, a full quantum is emitted, CR and LF are skipped, and any other
byte is corrupt input at its index. -/
def decodeLoop : List Nat → Nat → List Nat → Except Error (List Nat)
  | [], si, dbuf => quantumBytes dbuf si
  | inb :: rest, si, dbuf =>
    let out := decodeMap inb
    if out ≠ 0xff then
      if dbuf.length = 3 then
        match quantumBytes (dbuf ++ [out]) (si + 1), decodeLoop rest (si + 1) [] with
        | .ok bs, .ok more => .ok (bs ++ more)
        | .error e, _ => .error e
        | _, .error e => .error e
      else decodeLoop rest (si + 1) (dbuf ++ [out])
    else if inb = 10 ∨ inb = 13 then decodeLoop rest (si + 1) dbuf
    else .error (CorruptInputError si)

/-- RawStdEncoding.Strict().DecodeString. -/
def DecodeString (s : List Nat) : Except Error (List Nat) := decodeLoop s 0 []

/-! ## strings.Split -/

/-- strings.Split(s, sep) for a one-byte separator: the pieces between the occurrences of `sep`,
in order; there is always one piece more than there are separators. -/
def Split (sep : Nat) : List Nat → List (List Nat)
  | [] => [[]]
  | c :: cs =>
    if c = sep then [] :: Split sep cs
    else
      match Split sep cs with
      | seg :: segs => (c :: seg) :: segs
      | [] => [[c]]

/-! ## unicode/utf8: the runes of a byte string -/

def RuneError : Nat := 0xFFFD

/-- The table `first` with `acceptRanges`: for a leading byte of a multi-byte sequence, the
length of the sequence and the accepted range of the second byte; `none` for an invalid leading
byte. -/
def first (s0 : Nat) : Option (Nat × Nat × Nat) :=
  if 0xC2 ≤ s0 ∧ s0 ≤ 0xDF then some (2, 0x80, 0xBF)
  else if s0 = 0xE0 then some (3, 0xA0, 0xBF)
  else if 0xE1 ≤ s0 ∧ s0 ≤ 0xEC then some (3, 0x80, 0xBF)
  else if s0 = 0xED then some (3, 0x80, 0x9F)
  else if 0xEE ≤ s0 ∧ s0 ≤ 0xEF then some (3, 0x80, 0xBF)
  else if s0 = 0xF0 then some (4, 0x90, 0xBF)
  else if 0xF1 ≤ s0 ∧ s0 ≤ 0xF3 then some (4, 0x80, 0xBF)
  else if s0 = 0xF4 then some (4, 0x80, 0x8F)
  else none

/-- utf8.DecodeRune: the first rune of a byte string and its width in bytes. An ASCII byte is
itself, a well-formed multi-byte sequence is its code point, and a byte that starts no
well-formed sequence is `RuneError` of width 1. -/
def DecodeRune : List Nat → Nat × Nat
  | [] => (RuneError, 0)
  | s0 :: rest =>
    if s0 < 0x80 then (s0, 1)
    else
      match first s0 with
      | none => (RuneError, 1)
      | some (sz, lo, hi) =>
        match rest with
        | [] => (RuneError, 1)
        | s1 :: rest1 =>
          if s1 < lo ∨ hi < s1 then (RuneError, 1)
          else if sz ≤ 2 then (s0 % 32 * 64 + s1 % 64, 2)
          else
            match rest1 with
            | [] => (RuneError, 1)
            | s2 :: rest2 =>
              if s2 < 0x80 ∨ 0xBF < s2 then (RuneError, 1)
              else if sz ≤ 3 then (s0 % 16 * 4096 + s1 % 64 * 64 + s2 % 64, 3)
              else
                match rest2 with
                | [] => (RuneError, 1)
                | s3 :: _ =>
                  if s3 < 0x80 ∨ 0xBF < s3 then (RuneError, 1)
                  else (s0 % 8 * 262144 + s1 % 64 * 4096 + s2 % 64 * 64 + s3 % 64, 4)

/-- The runes of a byte string from its start, after `skip` bytes that belong to the rune
decoded last. -/
def runesFrom : List Nat → Nat → List Nat
  | [], _ => []
  | _ :: p, skip + 1 => runesFrom p skip
  | b :: p, 0 => (DecodeRune (b :: p)).1 :: runesFrom p ((DecodeRune (b :: p)).2 - 1)

/-- The sequence of runes that repeated `utf8.DecodeRune` reads from a byte string: what the
rune reader of package fmt delivers. -/
def utf8Runes (p : List Nat) : List Nat := runesFrom p 0

/-! ## strconv: parsing -/

/-- The result of the digit loop of `strconv.ParseUint(s, 10, 64)`. -/
inductive ParseResult where
  | value (n : Nat)
  | syntaxErr
  | rangeErr
  deriving DecidableEq, Repr

/-- The digit loop of ParseUint in base 10 with 64 bits: `n` is the value so far. -/
def parseUintLoop : List Nat → Nat → ParseResult
  | [], n => .value n
  | c :: cs, n =>
    if 48 ≤ c ∧ c ≤ 57 then
      if n ≥ (2 ^ 64 - 1) / 10 + 1 then .rangeErr
      else
        let n1 := n * 10 + (c - 48)
        if n1 > 2 ^ 64 - 1 then .rangeErr else parseUintLoop cs n1
    else .syntaxErr

/-- strconv.ParseUint(s, 10, 64). -/
def ParseUint (s : List Nat) : Except Error Nat :=
  if s = [] then .error (NumError (str "ParseUint") s false)
  else
    match parseUintLoop s 0 with
    | .value n => .ok n
    | .syntaxErr => .error (NumError (str "ParseUint") s false)
    | .rangeErr => .error (NumError (str "ParseUint") s true)

/-- strconv.ParseInt(s, 10, 64): an optional sign, then the magnitude, which must fit. When
ParseUint reports a range error the magnitude it returns is 2^64 - 1, which fails the cutoff
check for either sign. -/
def ParseInt (s : List Nat) : Except Error Int :=
  match s with
  | [] => .error (NumError (str "ParseInt") s false)
  | c :: cs =>
    let s1 := if c = 43 ∨ c = 45 then cs else c :: cs
    if s1 = [] then .error (NumError (str "ParseInt") s false)
    else
      match parseUintLoop s1 0 with
      | .syntaxErr => .error (NumError (str "ParseInt") s false)
      | .rangeErr => .error (NumError (str "ParseInt") s true)
      | .value un =>
        if c ≠ 45 ∧ un ≥ 2 ^ 63 then .error (NumError (str "ParseInt") s true)
        else if c = 45 ∧ un > 2 ^ 63 then .error (NumError (str "ParseInt") s true)
        else .ok (if c = 45 then -(un : Int) else (un : Int))

/-! ## fmt.Sscanf

The scanner state is the list of runes not yet read and `count`, the number of runes read so
far; a read reports end of input when the runes are used up or `count` has reached the limit
`hugeWid`. -/

def hugeWid : Nat := 2 ^ 30

/-- The table `space` of package fmt. -/
def space : List (Nat × Nat) :=
  [(0x0009, 0x000d), (0x0020, 0x0020), (0x0085, 0x0085), (0x00a0, 0x00a0), (0x1680, 0x1680),
   (0x2000, 0x200a), (0x2028, 0x2029), (0x202f, 0x202f), (0x205f, 0x205f), (0x3000, 0x3000)]

def isSpaceLoop : List (Nat × Nat) → Nat → Bool
  | [], _ => false
  | (lo, hi) :: rest, rx => if rx < lo then false else if rx ≤ hi then true else isSpaceLoop rest rx

/-- fmt.isSpace. -/
def isSpace (r : Nat) : Bool := if r ≥ 65536 then false else isSpaceLoop space r

/-- The method `ss.getRune`: `none` is eof. -/
def getRune (rs : List Nat) (count : Nat) : Option (Nat × List Nat × Nat) :=
  if count ≥ hugeWid then none
  else
    match rs with
    | [] => none
    | r :: rest => some (r, rest, count + 1)

/-- The method `ss.peek`. -/
def peek (ok : List Nat) (rs : List Nat) (count : Nat) : Bool :=
  match getRune rs count with
  | none => false
  | some (r, _, _) => decide (r ∈ ok)

/-- The method `ss.SkipSpace` with `nlIsSpace` false: reads runes while they are spaces, puts
the first other rune back, and fails on a newline. -/
def SkipSpace : List Nat → Nat → Except Error (List Nat × Nat)
  | [], count => .ok ([], count)
  | r :: rest, count =>
    if count ≥ hugeWid then .ok (r :: rest, count)
    else if r = 13 ∧ peek [10] rest (count + 1) = true then SkipSpace rest (count + 1)
    else if r = 10 then .error (scanError (str "unexpected newline"))
    else if isSpace r = false then .ok (r :: rest, count)
    else SkipSpace rest (count + 1)

/-- The method `ss.notEOF`: panics with io.EOF when no rune can be read. -/
def notEOF (rs : List Nat) (count : Nat) : Except Error Unit :=
  match getRune rs count with
  | none => .error EOF
  | some _ => .ok ()

/-- The method `ss.accept`: reads one rune into the token buffer if it is in `ok`. -/
def accept (ok : List Nat) (rs : List Nat) (count : Nat) (buf : List Nat) :
    Bool × List Nat × Nat × List Nat :=
  match getRune rs count with
  | none => (false, rs, count, buf)
  | some (r, rest, count1) => if r ∈ ok then (true, rest, count1, buf ++ [r]) else (false, rs, count, buf)

/-- The loop `for s.accept(digits) {}`. -/
def acceptLoop (ok : List Nat) : List Nat → Nat → List Nat → List Nat × Nat × List Nat
  | [], count, buf => ([], count, buf)
  | r :: rest, count, buf =>
    if count ≥ hugeWid then (r :: rest, count, buf)
    else if r ∈ ok then acceptLoop ok rest (count + 1) (buf ++ [r])
    else (r :: rest, count, buf)

def decimalDigits : List Nat := str "0123456789"

def sign : List Nat := str "+-"

/-- The method `ss.scanNumber(digits, false)`: the token buffer after reading one or more
digits. -/
def scanNumber (rs : List Nat) (count : Nat) (buf : List Nat) :
    Except Error (List Nat × Nat × List Nat) :=
  match notEOF rs count with
  | .error e => .error e
  | .ok _ =>
    match accept decimalDigits rs count buf with
    | (false, _, _, _) => .error (scanError (str "expected integer"))
    | (true, rs1, count1, buf1) => .ok (acceptLoop decimalDigits rs1 count1 buf1)

/-- The method `ss.scanInt` for the verb d and 64 bits. -/
def scanInt (rs : List Nat) (count : Nat) : Except Error (Int × List Nat × Nat) :=
  match SkipSpace rs count with
  | .error e => .error e
  | .ok (rs1, count1) =>
    match notEOF rs1 count1 with
    | .error e => .error e
    | .ok _ =>
      match accept sign rs1 count1 [] with
      | (_, rs2, count2, buf2) =>
        match scanNumber rs2 count2 buf2 with
        | .error e => .error e
        | .ok (rs3, count3, tok) =>
          match ParseInt tok with
          | .error e => .error e
          | .ok i => .ok (i, rs3, count3)

/-- The method `ss.scanUint` for the verb d and `bitSize` bits. -/
def scanUint (bitSize : Nat) (rs : List Nat) (count : Nat) : Except Error (Int × List Nat × Nat) :=
  match SkipSpace rs count with
  | .error e => .error e
  | .ok (rs1, count1) =>
    match notEOF rs1 count1 with
    | .error e => .error e
    | .ok _ =>
      match scanNumber rs1 count1 [] with
      | .error e => .error e
      | .ok (rs3, count3, tok) =>
        match ParseUint tok with
        | .error e => .error e
        | .ok i =>
          if i % 2 ^ bitSize ≠ i then
            .error (scanError (str "unsigned integer overflow on token " ++ tok))
          else .ok ((i : Int), rs3, count3)

/-- The type of the pointer passed for a verb. -/
inductive Arg where
  | int
  | uint32
  | uint8
  deriving DecidableEq, Repr

/-- The method `ss.scanOne` for the verb d. -/
def scanOne (arg : Arg) (rs : List Nat) (count : Nat) : Except Error (Int × List Nat × Nat) :=
  match arg with
  | .int => scanInt rs count
  | .uint32 => scanUint 32 rs count
  | .uint8 => scanUint 8 rs count

/-- The method `ss.doScanf` for a format made of literal characters other than spaces and of the
verb `%d`: a literal must be the next rune of the input (end of input there is
io.ErrUnexpectedEOF, another rune is a format mismatch); a verb skips spaces and scans one
number into the next operand. Input left over after the format is used up is ignored. The
result lists the scanned values in order. -/
def doScanf : List Nat → List Arg → List Nat → Nat → Except Error (List Int)
  | [], a, _, _ => if a = [] then .ok [] else .error (scanError (str "too many operands"))
  | 37 :: 100 :: format, a, rs, count =>
    match SkipSpace rs count with
    | .error e => .error e
    | .ok (rs1, count1) =>
      match a with
      | [] => .error (scanError (str "too few operands for format '%d" ++ format ++ str "'"))
      | arg :: a1 =>
        match scanOne arg rs1 count1 with
        | .error e => .error e
        | .ok (v, rs2, count2) =>
          match doScanf format a1 rs2 count2 with
          | .error e => .error e
          | .ok vs => .ok (v :: vs)
  | fmtc :: format, a, rs, count =>
    match getRune rs count with
    | none => .error ErrUnexpectedEOF
    | some (inputc, rs1, count1) =>
      if fmtc ≠ inputc then .error (scanError (str "input does not match format"))
      else doScanf format a rs1 count1

/-- fmt.Sscanf(s, format, a...): the scanned values or the error. -/
def Sscanf (s : List Nat) (format : List Nat) (a : List Arg) : Except Error (List Int) :=
  doScanf format a (utf8Runes s) 0

/-! ## The codec of argon2.go -/

def argFirst : List Nat := str "$"

def argVersion : List Nat := str "$v="

def argMemory : List Nat := str "$m="

def argTime : List Nat := str ",t="

def argParallelism : List Nat := str ",p="

/-- The methods Write and WriteString of bytes.Buffer. -/
def Buffer.Write (buff : List Nat) (p : List Nat) : List Nat := buff ++ p

/-- The method WriteByte of bytes.Buffer. -/
def Buffer.WriteByte (buff : List Nat) (c : Nat) : List Nat := buff ++ [c]

def Config.encode (c : Config) : Except Error (List Nat) :=
  match c.Salt with
  | none => .error ErrSaltNotFound
  | some saltBytes =>
    match c.Key with
    | none => .error ErrKeyNotFound
    | some keyBytes =>
      let salt := EncodeToString saltBytes
      let key := EncodeToString keyBytes
      let buff : List Nat := []
      let buff := Buffer.Write buff argFirst
      let buff := Buffer.Write buff c.Mode
      let buff := Buffer.Write buff argVersion
      let buff := Buffer.Write buff (FormatInt c.Version)
      let buff := Buffer.Write buff argMemory
      let buff := Buffer.Write buff (FormatUint c.Memory)
      let buff := Buffer.Write buff argTime
      let buff := Buffer.Write buff (FormatUint c.Time)
      let buff := Buffer.Write buff argParallelism
      let buff := Buffer.Write buff (FormatUint c.Parallelism)
      let buff := Buffer.WriteByte buff 36
      let buff := Buffer.Write buff salt
      let buff := Buffer.WriteByte buff 36
      let buff := Buffer.Write buff key
      .ok buff

def Config.decode (c : Config) (hash : List Nat) : Except Error Config :=
  let segments := Split 36 hash
  if segments.length ≠ SegmentsLength then .error ErrInvalidHash
  else
    let c := c.SetMode (segments.getD 1 [])
    if ¬ (c.Mode = Argon2.Mode Argon2i ∨ c.Mode = Argon2.Mode Argon2id) then .error ErrInvalidMode
    else
      match Sscanf (segments.getD 2 []) (str "v=%d") [Arg.int] with
      | .error err => .error err
      | .ok vs =>
        let c := { c with Version := vs.getD 0 0 }
        if c.Version ≠ Argon2.Version Version13 then .error ErrInvalidVersion
        else
          match Sscanf (segments.getD 3 []) (str "m=%d,t=%d,p=%d")
              [Arg.uint32, Arg.uint32, Arg.uint8] with
          | .error err => .error err
          | .ok ws =>
            let c := { c with Memory := (ws.getD 0 0).toNat, Time := (ws.getD 1 0).toNat,
                              Parallelism := (ws.getD 2 0).toNat }
            match DecodeString (segments.getD 4 []) with
            | .error err => .error err
            | .ok salt =>
              let c := { c with Salt := some salt }
              let c := c.SetSaltLength (salt.length % 2 ^ 32)
              match DecodeString (segments.getD 5 []) with
              | .error err => .error err
              | .ok key =>
                let c := { c with Key := some key }
                let c := c.SetKeyLength (key.length % 2 ^ 32)
                .ok c

def NewWithHash (hash : List Nat) : Except Error Config := Config.zero.decode hash

/-! ## Key derivation, hash creation and matching -/

/-- The two key-derivation functions of golang.org/x/crypto/argon2, with arguments password,
salt, time, memory, threads and keyLen: the bytes they return on the arguments on which they
return.  Their panics are embedded in `deriveKey`. -/
structure KDF where
  IDKey : List Nat → List Nat → Nat → Nat → Nat → Nat → List Nat
  Key : List Nat → List Nat → Nat → Nat → Nat → Nat → List Nat

/-- The function crypto/rand.Read on a state `σ` of the random source: from the state and the
buffer it is given, the contents of the buffer after the call, the error it returns, and the
next state. -/
structure Rand (σ : Type) where
  Read : σ → List Nat → (List Nat × Option Error) × σ

def Config.generateSalt {σ : Type} (c : Config) (rand : Rand σ) (st : σ) :
    (List Nat × Option Error) × σ :=
  let salt := List.replicate c.SaltLength 0
  rand.Read st salt

def Config.generateKey (c : Config) (argon2 : KDF) (password : List Nat) : List Nat :=
  if c.Mode = Argon2.Mode Argon2id then
    argon2.IDKey password (c.Salt.getD []) c.Time c.Memory c.Parallelism c.KeyLength
  else
    argon2.Key password (c.Salt.getD []) c.Time c.Memory c.Parallelism c.KeyLength

/-- The method CreateHash: the returned hash or error, the Config after the call, and the state
of the random source after the call. -/
def Config.CreateHash {σ : Type} (c : Config) (argon2 : KDF) (rand : Rand σ) (password : List Nat)
    (st : σ) : Except Error (List Nat) × Config × σ :=
  match c.Salt with
  | none =>
    match c.generateSalt rand st with
    | ((salt, err), st1) =>
      let c := { c with Salt := some salt }
      match err with
      | some e => (.error e, c, st1)
      | none =>
        let c := { c with Key := some (c.generateKey argon2 password) }
        (c.encode, c, st1)
  | some _ =>
    let c := { c with Key := some (c.generateKey argon2 password) }
    (c.encode, c, st)

/-- subtle.ConstantTimeByteEq on two bytes: `int((uint32(x^y) - 1) >> 31)`. -/
def ConstantTimeByteEq (x y : Nat) : Nat := ((x ^^^ y) + 2 ^ 32 - 1) % 2 ^ 32 / 2 ^ 31

/-- The loop `v |= x[i] ^ y[i]` of ConstantTimeCompare over slices of equal length. -/
def xorFold : List Nat → List Nat → Nat → Nat
  | a :: x, b :: y, v => xorFold x y (v ||| (a ^^^ b))
  | _, _, v => v

/-- subtle.ConstantTimeCompare. -/
def ConstantTimeCompare (x y : List Nat) : Nat :=
  if x.length ≠ y.length then 0 else ConstantTimeByteEq (xorFold x y 0) 0

/-- The method Match: the boolean and the error. -/
def Config.Match (c : Config) (argon2 : KDF) (password : List Nat) : Bool × Option Error :=
  if c.Salt = none ∨ c.Key = none then (false, some ErrInvalidArgonConfig)
  else
    let key := c.generateKey argon2 password
    (decide (ConstantTimeCompare (c.Key.getD []) key = 1), none)

/-! ## The panics of the key derivation -/

/-- The panics of golang.org/x/crypto/argon2: "argon2: number of rounds too small",
"argon2: parallelism degree too low", and the nil pointer dereference of blake2bHash on an
output of length 0, where blake2b.New(0, nil) returns no hash. -/
inductive Panic where
  | roundsTooSmall
  | parallelismTooLow
  | nilHash
  deriving DecidableEq, Repr

/-- The function deriveKey of golang.org/x/crypto/argon2, which IDKey and Key call with their
mode: it panics when `time < 1`, then when `threads < 1`; with `keyLen` 0 the last step,
extractKey, panics in blake2bHash; otherwise it returns the derived bytes `f`. -/
def deriveKey (f : List Nat → List Nat → Nat → Nat → Nat → Nat → List Nat)
    (password salt : List Nat) (time memory threads keyLen : Nat) : Except Panic (List Nat) :=
  if time < 1 then .error Panic.roundsTooSmall
  else if threads < 1 then .error Panic.parallelismTooLow
  else if keyLen = 0 then .error Panic.nilHash
  else .ok (f password salt time memory threads keyLen)

/-- The method generateKey with the panics of the library. -/
def Config.generateKeyRun (c : Config) (argon2 : KDF) (password : List Nat) :
    Except Panic (List Nat) :=
  if c.Mode = Argon2.Mode Argon2id then
    deriveKey argon2.IDKey password (c.Salt.getD []) c.Time c.Memory c.Parallelism c.KeyLength
  else
    deriveKey argon2.Key password (c.Salt.getD []) c.Time c.Memory c.Parallelism c.KeyLength

/-- The method Match with the panics of the library: a panic, or the boolean and the error. -/
def Config.MatchRun (c : Config) (argon2 : KDF) (password : List Nat) :
    Except Panic (Bool × Option Error) :=
  if c.Salt = none ∨ c.Key = none then .ok (false, some ErrInvalidArgonConfig)
  else
    match c.generateKeyRun argon2 password with
    | .error p => .error p
    | .ok key => .ok (decide (ConstantTimeCompare (c.Key.getD []) key = 1), none)

/-- The method CreateHash with the panics of the library: a panic or the returned hash or
error, the Config after the call, and the state of the random source after the call. -/
def Config.CreateHashRun {σ : Type} (c : Config) (argon2 : KDF) (rand : Rand σ)
    (password : List Nat) (st : σ) : Except Panic (Except Error (List Nat)) × Config × σ :=
  match c.Salt with
  | none =>
    match c.generateSalt rand st with
    | ((salt, err), st1) =>
      let c := { c with Salt := some salt }
      match err with
      | some e => (.ok (.error e), c, st1)
      | none =>
        match c.generateKeyRun argon2 password with
        | .error p => (.error p, c, st1)
        | .ok key =>
          let c := { c with Key := some key }
          (.ok c.encode, c, st1)
  | some _ =>
    match c.generateKeyRun argon2 password with
    | .error p => (.error p, c, st)
    | .ok key =>
      let c := { c with Key := some key }
      (.ok c.encode, c, st)

/-- The library errors that decode forwards: none of them is a sentinel of the package. -/
def isLibraryError : Error → Prop
  | .scanError _ => True
  | .ErrUnexpectedEOF => True
  | .EOF => True
  | .NumError _ _ _ => True
  | .CorruptInputError _ => True
  | _ => False

/-- The error of a format mismatch, whose message is "input does not match format". -/
def formatMismatch : Error := scanError (str "input does not match format")

/-! ## Closed examples -/

/-- A stand-in key-derivation function for closed examples: `keyLen` bytes that depend on every
argument. -/
def toyKey (tag : Nat) (password salt : List Nat) (time memory threads keyLen : Nat) : List Nat :=
  (List.range keyLen).map
    (fun i => (tag + password.sum + salt.sum + time + memory + threads + i) % 256)

def toyKDF : KDF := { IDKey := toyKey 1, Key := toyKey 2 }

/-- A stand-in random source for closed examples: the state is a counter, a read fills the
buffer with the counter and never fails. -/
def toyRand : Rand Nat := { Read := fun st buf => ((buf.map (fun _ => st % 256), none), st + 1) }

/-- The runes after a number end it: there is none, or the first is not a decimal digit. -/
def endsNumber (rest : List Nat) : Prop := ∀ r rs, rest = r :: rs → ¬ (48 ≤ r ∧ r ≤ 57)

/-- A byte string without its CR and LF bytes. -/
def stripNewlines (s : List Nat) : List Nat := s.filter (fun c => decide (c ≠ 10 ∧ c ≠ 13))

/-! ## The format of the spec -/

/-- The decimal text of an integer, as Lean prints it. -/
def decimal (i : Int) : List Nat := str (toString i)

/-- The canonical hash string as the spec writes it:
`$<variant>$v=<version>$m=<memoryCost>,t=<timeCost>,p=<parallelism>$<salt-b64>$<key-b64>`,
with the numbers in decimal and salt and key in unpadded standard base64. -/
def canonicalHash (variant : List Nat) (version : Int) (memoryCost timeCost parallelism : Nat)
    (salt key : List Nat) : List Nat :=
  str "$" ++ variant ++ str "$v=" ++ decimal version ++ str "$m=" ++ decimal memoryCost ++
    str ",t=" ++ decimal timeCost ++ str ",p=" ++ decimal parallelism ++ str "$" ++
    EncodeToString salt ++ str "$" ++ EncodeToString key

/-- The text `s` departs from the literal text `lit`: after a common start, a byte of `s`
stands where `lit` has another one. -/
def literalMismatch : List Nat → List Nat → Bool
  | c :: lit, b :: s => if b = c then literalMismatch lit s else true
  | _, _ => false

/-! ## Sequences of calls on one instance -/

/-- A call on a Config: one of the seven setters, CreateHash or Match. -/
inductive Op where
  | SetTime (time : Nat)
  | SetMemory (memory : Nat)
  | SetParallelism (parallel : Nat)
  | SetSaltLength (saltLength : Nat)
  | SetKeyLength (keyLength : Nat)
  | SetMode (mode : List Nat)
  | SetVersion (version : Int)
  | CreateHash (password : List Nat)
  | Match (password : List Nat)
  deriving DecidableEq, Repr

/-- The Config and the state of the random source after one call; the value the call returns is
dropped. -/
def step {σ : Type} (argon2 : KDF) (rand : Rand σ) (op : Op) (s : Config × σ) : Config × σ :=
  match op with
  | .SetTime time => (s.1.SetTime time, s.2)
  | .SetMemory memory => (s.1.SetMemory memory, s.2)
  | .SetParallelism parallel => (s.1.SetParallelism parallel, s.2)
  | .SetSaltLength saltLength => (s.1.SetSaltLength saltLength, s.2)
  | .SetKeyLength keyLength => (s.1.SetKeyLength keyLength, s.2)
  | .SetMode mode => (s.1.SetMode mode, s.2)
  | .SetVersion version => (s.1.SetVersion version, s.2)
  | .CreateHash password => (s.1.CreateHash argon2 rand password s.2).2
  | .Match _ => s

/-- The Config and the state of the random source after a sequence of calls. -/
def run {σ : Type} (argon2 : KDF) (rand : Rand σ) : List Op → Config × σ → Config × σ
  | [], s => s
  | op :: ops, s => run argon2 rand ops (step argon2 rand op s)

/-- A present Salt has length SaltLength and a present Key has length KeyLength. -/
def lengthsAgree (c : Config) : Prop :=
  (∀ s, c.Salt = some s → s.length = c.SaltLength) ∧
  (∀ k, c.Key = some k → k.length = c.KeyLength)

/-- The call sets a length field only while the slice it describes is absent. -/
def keepsLengths (op : Op) (c : Config) : Prop :=
  match op with
  | .SetSaltLength _ => c.Salt = none
  | .SetKeyLength _ => c.Key = none
  | _ => True

/-- Every call of the sequence sets a length field only while the slice it describes is
absent. -/
def runKeepsLengths {σ : Type} (argon2 : KDF) (rand : Rand σ) : List Op → Config × σ → Prop
  | [], _ => True
  | op :: ops, s => keepsLengths op s.1 ∧ runKeepsLengths argon2 rand ops (step argon2 rand op s)

/-- A stand-in random source for closed examples whose first read fails and leaves the buffer
as it was, and whose later reads fill the buffer with the counter. -/
def flakyRand : Rand Nat :=
  { Read := fun st buf =>
      if st = 0 then ((buf, some (randError 1)), 1)
      else ((buf.map (fun _ => st % 256), none), st + 1) }

/-- A Config for closed examples whose salt has 2^32 bytes. -/
def bigSaltConfig : Config :=
  { Time := 1, Memory := 1, Parallelism := 1, SaltLength := 0, KeyLength := 0,
    Mode := str "argon2id", Version := 13, Salt := some (List.replicate (2 ^ 32) 0),
    Key := some [] }

/-! ## Errors forwarded from the library calls -/

theorem SkipSpace_error (rs : List Nat) (count : Nat) (e : Error)
    (h : SkipSpace rs count = .error e) : e = scanError (str "unexpected newline") := by
  induction rs generalizing count with
  | nil => simp [SkipSpace] at h
  | cons r rest ih =>
    unfold SkipSpace at h
    split_ifs at h with h1 h2 h3 h4
    · exact ih _ h
    · simpa using h.symm
    · exact ih _ h

theorem notEOF_error (rs : List Nat) (count : Nat) (e : Error)
    (h : notEOF rs count = .error e) : e = EOF := by
  unfold notEOF at h
  split at h <;> simp at h
  exact h.symm

theorem scanNumber_error (rs : List Nat) (count : Nat) (buf : List Nat) (e : Error)
    (h : scanNumber rs count buf = .error e) :
    e = EOF ∨ e = scanError (str "expected integer") := by
  unfold scanNumber at h
  split at h
  · rename_i e1 h1
    simp at h
    exact Or.inl (h ▸ notEOF_error _ _ _ h1)
  · split at h <;> simp at h
    exact Or.inr h.symm

theorem ParseInt_error (s : List Nat) (e : Error) (h : ParseInt s = .error e) :
    ∃ r, e = NumError (str "ParseInt") s r := by
  unfold ParseInt at h
  cases s with
  | nil => exact ⟨false, by simpa using h.symm⟩
  | cons c cs =>
    simp only at h
    generalize (if c = 43 ∨ c = 45 then cs else c :: cs) = s1 at h
    by_cases hs : s1 = []
    · rw [if_pos hs] at h
      exact ⟨false, by simpa using h.symm⟩
    · rw [if_neg hs] at h
      cases hp : parseUintLoop s1 0 with
      | syntaxErr =>
        rw [hp] at h
        exact ⟨false, by simpa using h.symm⟩
      | rangeErr =>
        rw [hp] at h
        exact ⟨true, by simpa using h.symm⟩
      | value n =>
        rw [hp] at h
        simp only at h
        by_cases h1 : c ≠ 45 ∧ n ≥ 2 ^ 63
        · rw [if_pos h1] at h
          exact ⟨true, by simpa using h.symm⟩
        · rw [if_neg h1] at h
          by_cases h2 : c = 45 ∧ n > 2 ^ 63
          · rw [if_pos h2] at h
            exact ⟨true, by simpa using h.symm⟩
          · rw [if_neg h2] at h
            simp at h

theorem ParseUint_error (s : List Nat) (e : Error) (h : ParseUint s = .error e) :
    ∃ r, e = NumError (str "ParseUint") s r := by
  unfold ParseUint at h
  split_ifs at h
  · exact ⟨false, by simpa using h.symm⟩
  · split at h
    · simp at h
    · exact ⟨false, by simpa using h.symm⟩
    · exact ⟨true, by simpa using h.symm⟩

theorem scanInt_error (rs : List Nat) (count : Nat) (e : Error)
    (h : scanInt rs count = .error e) :
    e = scanError (str "unexpected newline") ∨ e = EOF ∨
      e = scanError (str "expected integer") ∨ ∃ tok r, e = NumError (str "ParseInt") tok r := by
  unfold scanInt at h
  split at h
  · rename_i e1 h1
    simp at h
    exact Or.inl (h ▸ SkipSpace_error _ _ _ h1)
  · split at h
    · rename_i e1 h1
      simp at h
      exact Or.inr (Or.inl (h ▸ notEOF_error _ _ _ h1))
    · split at h
      split at h
      · rename_i e1 h1
        simp at h
        rcases scanNumber_error _ _ _ _ h1 with h2 | h2
        · exact Or.inr (Or.inl (h ▸ h2))
        · exact Or.inr (Or.inr (Or.inl (h ▸ h2)))
      · split at h
        · rename_i e1 h1
          simp at h
          obtain ⟨r, hr⟩ := ParseInt_error _ _ h1
          exact Or.inr (Or.inr (Or.inr ⟨_, r, h ▸ hr⟩))
        · simp at h

theorem scanUint_error (bitSize : Nat) (rs : List Nat) (count : Nat) (e : Error)
    (h : scanUint bitSize rs count = .error e) :
    e = scanError (str "unexpected newline") ∨ e = EOF ∨
      e = scanError (str "expected integer") ∨ (∃ tok r, e = NumError (str "ParseUint") tok r) ∨
      ∃ tok, e = scanError (str "unsigned integer overflow on token " ++ tok) := by
  unfold scanUint at h
  split at h
  · rename_i e1 h1
    simp at h
    exact Or.inl (h ▸ SkipSpace_error _ _ _ h1)
  · split at h
    · rename_i e1 h1
      simp at h
      exact Or.inr (Or.inl (h ▸ notEOF_error _ _ _ h1))
    · split at h
      · rename_i e1 h1
        simp at h
        rcases scanNumber_error _ _ _ _ h1 with h2 | h2
        · exact Or.inr (Or.inl (h ▸ h2))
        · exact Or.inr (Or.inr (Or.inl (h ▸ h2)))
      · split at h
        · rename_i e1 h1
          simp at h
          obtain ⟨r, hr⟩ := ParseUint_error _ _ h1
          exact Or.inr (Or.inr (Or.inr (Or.inl ⟨_, r, h ▸ hr⟩)))
        · split_ifs at h
          exact Or.inr (Or.inr (Or.inr (Or.inr ⟨_, by simpa using h.symm⟩)))

theorem scanOne_error (arg : Arg) (rs : List Nat) (count : Nat) (e : Error)
    (h : scanOne arg rs count = .error e) : isLibraryError e ∧ e ≠ formatMismatch := by
  have hne1 : scanError (str "unexpected newline") ≠ formatMismatch := by decide
  have hne2 : scanError (str "expected integer") ≠ formatMismatch := by decide
  have hov : ∀ tok, scanError (str "unsigned integer overflow on token " ++ tok) ≠
      formatMismatch := by
    intro tok hh
    have h1 : str "unsigned integer overflow on token " =
        117 :: str "nsigned integer overflow on token " := by decide
    have h2 : str "input does not match format" = 105 :: str "nput does not match format" := by
      decide
    unfold formatMismatch at hh
    rw [h1, h2] at hh
    simp at hh
  cases arg with
  | int =>
    rcases scanInt_error _ _ _ h with h1 | h1 | h1 | ⟨tok, r, h1⟩ <;> subst h1
    · exact ⟨trivial, hne1⟩
    · exact ⟨trivial, by decide⟩
    · exact ⟨trivial, hne2⟩
    · exact ⟨trivial, by simp [formatMismatch]⟩
  | uint32 =>
    rcases scanUint_error _ _ _ _ h with h1 | h1 | h1 | ⟨tok, r, h1⟩ | ⟨tok, h1⟩ <;> subst h1
    · exact ⟨trivial, hne1⟩
    · exact ⟨trivial, by decide⟩
    · exact ⟨trivial, hne2⟩
    · exact ⟨trivial, by simp [formatMismatch]⟩
    · exact ⟨trivial, hov tok⟩
  | uint8 =>
    rcases scanUint_error _ _ _ _ h with h1 | h1 | h1 | ⟨tok, r, h1⟩ | ⟨tok, h1⟩ <;> subst h1
    · exact ⟨trivial, hne1⟩
    · exact ⟨trivial, by decide⟩
    · exact ⟨trivial, hne2⟩
    · exact ⟨trivial, by simp [formatMismatch]⟩
    · exact ⟨trivial, hov tok⟩

theorem doScanf_error (format : List Nat) (a : List Arg) (rs : List Nat) (count : Nat)
    (e : Error) (h : doScanf format a rs count = .error e) : isLibraryError e := by
  induction format, a, rs, count using doScanf.induct with
  | case1 => simp [doScanf] at h
  | case2 a x x1 ha =>
    simp [doScanf, ha] at h
    subst h; trivial
  | case3 format a rs count e1 h1 =>
    simp [doScanf, h1] at h
    subst h
    rw [SkipSpace_error _ _ _ h1]; trivial
  | case4 format rs count rs1 count1 h1 =>
    simp [doScanf, h1] at h
    subst h; trivial
  | case5 format rs count rs1 count1 h1 arg a1 e1 h2 =>
    simp [doScanf, h1, h2] at h
    subst h
    exact (scanOne_error _ _ _ _ h2).1
  | case6 format rs count rs1 count1 h1 arg a1 v rs2 count2 h2 e1 h3 ih =>
    simp [doScanf, h1, h2, h3] at h
    subst h
    exact ih h3
  | case7 format rs count rs1 count1 h1 arg a1 v rs2 count2 h2 vs h3 ih =>
    simp [doScanf, h1, h2, h3] at h
  | case8 fmtc format a rs count hf h1 =>
    rw [doScanf] at h
    · simp [h1] at h
      subst h; trivial
    · exact hf
  | case9 fmtc format a rs count hf r fst snd h1 h2 =>
    rw [doScanf] at h
    · simp [h1, h2] at h
      subst h; trivial
    · exact hf
  | case10 fmtc format a rs count hf r fst snd h1 h2 ih =>
    rw [doScanf] at h
    · simp only [ne_eq, not_not] at h2
      subst h2
      simp [h1] at h
      exact ih h
    · exact hf

theorem Sscanf_error (s format : List Nat) (a : List Arg) (e : Error)
    (h : Sscanf s format a = .error e) : isLibraryError e :=
  doScanf_error _ _ _ _ _ h

theorem quantumBytes_error (dbuf : List Nat) (si : Nat) (e : Error)
    (h : quantumBytes dbuf si = .error e) : ∃ off, e = CorruptInputError off := by
  unfold quantumBytes at h
  simp only at h
  split at h
  · simp at h
  · exact ⟨_, by simpa using h.symm⟩
  · split_ifs at h
    · exact ⟨_, by simpa using h.symm⟩
  · split_ifs at h
    · exact ⟨_, by simpa using h.symm⟩
  · simp at h

theorem decodeLoop_error (src : List Nat) (si : Nat) (dbuf : List Nat) (e : Error)
    (h : decodeLoop src si dbuf = .error e) : ∃ off, e = CorruptInputError off := by
  induction src generalizing si dbuf with
  | nil => exact quantumBytes_error _ _ _ (by simpa [decodeLoop] using h)
  | cons inb rest ih =>
    unfold decodeLoop at h
    simp only at h
    split_ifs at h with h1 h2 h3
    · split at h
      · simp at h
      · rename_i e1 hq
        simp at h
        exact h ▸ quantumBytes_error _ _ _ hq
      · rename_i e1 hd hq
        simp at h
        subst h
        exact ih _ _ hd
    · exact ih _ _ h
    · exact ih _ _ h
    · exact ⟨_, by simpa using h.symm⟩

theorem DecodeString_error (s : List Nat) (e : Error) (h : DecodeString s = .error e) :
    ∃ off, e = CorruptInputError off :=
  decodeLoop_error _ _ _ _ h

/-! ## The split into segments and the shape of decode -/

theorem Split_length (sep : Nat) (s : List Nat) : (Split sep s).length = s.count sep + 1 := by
  induction s with
  | nil => simp [Split]
  | cons c cs ih =>
    unfold Split
    by_cases h : c = sep
    · subst h
      simp [ih]
    · rw [if_neg h]
      have hc : List.count sep (c :: cs) = List.count sep cs := by
        rw [List.count_cons]
        simp [h]
      rw [hc, ← ih]
      split
      · rename_i seg segs hseg
        simp [hseg]
      · rename_i hnil
        rw [hnil] at ih
        simp at ih

theorem length_six {α : Type} (l : List α) (h : l.length = 6) :
    ∃ a b c d e f, l = [a, b, c, d, e, f] := by
  match l, h with
  | [a, b, c, d, e, f], _ => exact ⟨a, b, c, d, e, f, rfl⟩

/-- What decode computes from the six segments of its input. -/
theorem NewWithHash_six (hash s0 s1 s2 s3 s4 s5 : List Nat)
    (hs : Split 36 hash = [s0, s1, s2, s3, s4, s5]) :
    NewWithHash hash =
      if ¬ (s1 = str "argon2i" ∨ s1 = str "argon2id") then .error ErrInvalidMode
      else
        match Sscanf s2 (str "v=%d") [Arg.int] with
        | .error err => .error err
        | .ok vs =>
          if vs.getD 0 0 ≠ 13 then .error ErrInvalidVersion
          else
            match Sscanf s3 (str "m=%d,t=%d,p=%d") [Arg.uint32, Arg.uint32, Arg.uint8] with
            | .error err => .error err
            | .ok ws =>
              match DecodeString s4 with
              | .error err => .error err
              | .ok salt =>
                match DecodeString s5 with
                | .error err => .error err
                | .ok key =>
                  .ok { Time := (ws.getD 1 0).toNat, Memory := (ws.getD 0 0).toNat,
                        Parallelism := (ws.getD 2 0).toNat, SaltLength := salt.length % 2 ^ 32,
                        KeyLength := key.length % 2 ^ 32, Mode := s1, Version := vs.getD 0 0,
                        Salt := some salt, Key := some key } := by
  have hm1 : Argon2.Mode Argon2i = str "argon2i" := by decide
  have hm2 : Argon2.Mode Argon2id = str "argon2id" := by decide
  have hv : Argon2.Version Version13 = 13 := by decide
  unfold NewWithHash Config.decode
  simp only [hs, SegmentsLength, Config.SetMode, Config.SetSaltLength, Config.SetKeyLength,
    Config.zero, hm1, hm2, hv, List.length_cons, List.length_nil, List.getD_cons_succ,
    List.getD_cons_zero]
  simp only [ne_eq, not_true_eq_false, if_false, Nat.reduceAdd]

/-- The errors NewWithHash can return on an input of six segments. -/
theorem NewWithHash_six_error (hash s0 s1 s2 s3 s4 s5 : List Nat)
    (hs : Split 36 hash = [s0, s1, s2, s3, s4, s5]) (e : Error)
    (h : NewWithHash hash = .error e) :
    (e = ErrInvalidMode ∧ ¬ (s1 = str "argon2i" ∨ s1 = str "argon2id")) ∨
      ((s1 = str "argon2i" ∨ s1 = str "argon2id") ∧ (e = ErrInvalidVersion ∨ isLibraryError e)) := by
  rw [NewWithHash_six hash s0 s1 s2 s3 s4 s5 hs] at h
  by_cases hm : s1 = str "argon2i" ∨ s1 = str "argon2id"
  · right
    refine ⟨hm, ?_⟩
    rw [if_neg (not_not.mpr hm)] at h
    cases h2 : Sscanf s2 (str "v=%d") [Arg.int] with
    | error e2 =>
      rw [h2] at h
      simp only [Except.error.injEq] at h
      exact Or.inr (h ▸ Sscanf_error _ _ _ _ h2)
    | ok vs =>
      rw [h2] at h
      simp only at h
      by_cases hv : vs.getD 0 0 ≠ 13
      · rw [if_pos hv] at h
        simp only [Except.error.injEq] at h
        exact Or.inl h.symm
      · rw [if_neg hv] at h
        cases h3 : Sscanf s3 (str "m=%d,t=%d,p=%d") [Arg.uint32, Arg.uint32, Arg.uint8] with
        | error e3 =>
          rw [h3] at h
          simp only [Except.error.injEq] at h
          exact Or.inr (h ▸ Sscanf_error _ _ _ _ h3)
        | ok ws =>
          rw [h3] at h
          simp only at h
          cases h4 : DecodeString s4 with
          | error e4 =>
            rw [h4] at h
            simp only [Except.error.injEq] at h
            obtain ⟨off, hoff⟩ := DecodeString_error _ _ h4
            subst h
            subst hoff
            exact Or.inr trivial
          | ok salt =>
            rw [h4] at h
            simp only at h
            cases h5 : DecodeString s5 with
            | error e5 =>
              rw [h5] at h
              simp only [Except.error.injEq] at h
              obtain ⟨off, hoff⟩ := DecodeString_error _ _ h5
              subst h
              subst hoff
              exact Or.inr trivial
            | ok key =>
              rw [h5] at h
              simp at h
  · left
    rw [if_pos hm] at h
    simp only [Except.error.injEq] at h
    exact ⟨h.symm, hm⟩

/-! ## Constant-time comparison -/

theorem or_eq_zero (a b : Nat) : a ||| b = 0 ↔ a = 0 ∧ b = 0 := by
  constructor
  · intro h
    constructor
    · apply Nat.eq_of_testBit_eq
      intro i
      have := congrArg (fun n => Nat.testBit n i) h
      simp only [Nat.testBit_or, Nat.zero_testBit, Bool.or_eq_false_iff] at this
      simp [this.1]
    · apply Nat.eq_of_testBit_eq
      intro i
      have := congrArg (fun n => Nat.testBit n i) h
      simp only [Nat.testBit_or, Nat.zero_testBit, Bool.or_eq_false_iff] at this
      simp [this.2]
  · rintro ⟨rfl, rfl⟩
    simp

theorem xorFold_eq_zero (x y : List Nat) (v : Nat) (h : x.length = y.length) :
    xorFold x y v = 0 ↔ v = 0 ∧ x = y := by
  induction x generalizing y v with
  | nil =>
    cases y with
    | nil => simp [xorFold]
    | cons b y => simp at h
  | cons a x ih =>
    cases y with
    | nil => simp at h
    | cons b y =>
      simp only [List.length_cons, Nat.add_right_cancel_iff] at h
      rw [xorFold, ih y _ h, or_eq_zero, Nat.xor_eq_zero]
      simp [and_assoc]

theorem xorFold_lt (x y : List Nat) (v : Nat) (hx : isBytes x) (hy : isBytes y) (hv : v < 256) :
    xorFold x y v < 256 := by
  induction x generalizing y v with
  | nil => cases y <;> simpa [xorFold] using hv
  | cons a x ih =>
    cases y with
    | nil => simpa [xorFold] using hv
    | cons b y =>
      rw [xorFold]
      apply ih
      · exact fun c hc => hx c (List.mem_cons_of_mem _ hc)
      · exact fun c hc => hy c (List.mem_cons_of_mem _ hc)
      · have ha : a < 2 ^ 8 := hx a (List.mem_cons_self _ _)
        have hb : b < 2 ^ 8 := hy b (List.mem_cons_self _ _)
        have hv8 : v < 2 ^ 8 := hv
        exact Nat.or_lt_two_pow hv8 (Nat.xor_lt_two_pow ha hb)

theorem ConstantTimeByteEq_zero (v : Nat) (hv : v < 256) :
    ConstantTimeByteEq v 0 = 1 ↔ v = 0 := by
  unfold ConstantTimeByteEq
  rw [Nat.xor_zero]
  constructor
  · intro h
    by_contra hne
    have h1 : (v + 2 ^ 32 - 1) % 2 ^ 32 = v - 1 := by omega
    rw [h1] at h
    have h2 : (v - 1) / 2 ^ 31 = 0 := Nat.div_eq_of_lt (by omega)
    omega
  · rintro rfl
    decide

theorem ConstantTimeCompare_eq_one (x y : List Nat) (hx : isBytes x) (hy : isBytes y) :
    ConstantTimeCompare x y = 1 ↔ x = y := by
  unfold ConstantTimeCompare
  by_cases h : x.length = y.length
  · rw [if_neg (by simpa using h), ConstantTimeByteEq_zero _ (xorFold_lt x y 0 hx hy (by decide)),
      xorFold_eq_zero x y 0 h]
    simp
  · rw [if_pos h]
    constructor
    · intro h0
      simp at h0
    · intro hxy
      exact absurd (congrArg List.length hxy) h

theorem formatBits_fuel (f f' n : Nat) (acc : List Nat) (h : n < f) (h' : n < f') :
    formatBits f n acc = formatBits f' n acc := by
  induction f generalizing f' n acc with
  | zero => omega
  | succ k ih =>
    cases f' with
    | zero => omega
    | succ k' =>
      unfold formatBits
      split_ifs with h10
      · rfl
      · exact ih k' (n / 10) _ (by omega) (by omega)

theorem formatBits_acc (f n : Nat) (acc : List Nat) :
    formatBits f n acc = formatBits f n [] ++ acc := by
  induction f generalizing n acc with
  | zero => simp [formatBits]
  | succ k ih =>
    unfold formatBits
    split_ifs with h10
    · simp
    · rw [ih (n / 10) ((48 + n % 10) :: acc), ih (n / 10) [48 + n % 10]]
      simp

theorem FormatUint_small (n : Nat) (h : n < 10) : FormatUint n = [48 + n] := by
  unfold FormatUint formatBits
  rw [if_pos h]

theorem FormatUint_step (n : Nat) (h : ¬ n < 10) :
    FormatUint n = FormatUint (n / 10) ++ [48 + n % 10] := by
  unfold FormatUint
  rw [formatBits, if_neg h, formatBits_acc, formatBits_fuel n (n / 10 + 1) (n / 10) [] (by omega) (by omega)]

/-- Induction along the decimal digits of a number. -/
theorem decimal_induction (P : Nat → Prop) (small : ∀ n, n < 10 → P n)
    (step : ∀ n, ¬ n < 10 → P (n / 10) → P n) (n : Nat) : P n := by
  induction n using Nat.strong_induction_on with
  | _ n ih =>
    by_cases h : n < 10
    · exact small n h
    · exact step n h (ih (n / 10) (by omega))

theorem FormatUint_digits (n : Nat) : ∀ c ∈ FormatUint n, 48 ≤ c ∧ c ≤ 57 := by
  induction n using decimal_induction with
  | small n h =>
    rw [FormatUint_small n h]
    intro c hc
    simp at hc
    omega
  | step n h ih =>
    rw [FormatUint_step n h]
    intro c hc
    simp only [List.mem_append, List.mem_singleton] at hc
    rcases hc with hc | hc
    · exact ih c hc
    · omega

theorem FormatUint_ne_nil (n : Nat) : FormatUint n ≠ [] := by
  by_cases h : n < 10
  · rw [FormatUint_small n h]; simp
  · rw [FormatUint_step n h]; simp

theorem FormatUint_length (k n : Nat) (h : n < 10 ^ (k + 1)) : (FormatUint n).length ≤ k + 1 := by
  induction k generalizing n with
  | zero =>
    rw [FormatUint_small n (by simpa using h)]
    simp
  | succ k ih =>
    by_cases h10 : n < 10
    · rw [FormatUint_small n h10]; simp
    · rw [FormatUint_step n h10]
      simp only [List.length_append, List.length_singleton, Nat.add_le_add_iff_right]
      apply ih
      rw [pow_succ] at h
      omega

theorem parseUintLoop_append (a b : List Nat) (v : Nat) :
    parseUintLoop (a ++ b) v =
      match parseUintLoop a v with
      | .value w => parseUintLoop b w
      | r => r := by
  induction a generalizing v with
  | nil => simp [parseUintLoop]
  | cons c cs ih =>
    simp only [List.cons_append, parseUintLoop]
    split_ifs
    · rfl
    · rfl
    · exact ih _
    · rfl

theorem parseUintLoop_FormatUint (n : Nat) (h : n < 2 ^ 64) :
    parseUintLoop (FormatUint n) 0 = .value n := by
  induction n using decimal_induction with
  | small n h10 =>
    rw [FormatUint_small n h10]
    simp only [parseUintLoop]
    rw [if_pos (by omega), if_neg (by omega), if_neg (by omega)]
    congr 1
    omega
  | step n h10 ih =>
    rw [FormatUint_step n h10, parseUintLoop_append, ih (by omega)]
    simp only [parseUintLoop]
    rw [if_pos (by omega), if_neg (by omega), if_neg (by omega)]
    congr 1
    omega

/-! ## The scanner on canonical text -/

theorem utf8Runes_ascii_append (a rest : List Nat) (h : ∀ b ∈ a, b < 128) :
    utf8Runes (a ++ rest) = a ++ utf8Runes rest := by
  unfold utf8Runes
  induction a with
  | nil => rfl
  | cons b bs ih =>
    have hb : b < 128 := h b (List.mem_cons_self _ _)
    rw [List.cons_append, runesFrom, DecodeRune, if_pos hb]
    show b :: runesFrom (bs ++ rest) 0 = _
    rw [ih (fun c hc => h c (List.mem_cons_of_mem _ hc))]
    rfl

theorem utf8Runes_ascii (s : List Nat) (h : ∀ b ∈ s, b < 128) : utf8Runes s = s := by
  have := utf8Runes_ascii_append s [] h
  rw [List.append_nil] at this
  rw [this]
  have hnil : utf8Runes [] = [] := rfl
  rw [hnil, List.append_nil]

theorem isSpace_digit (c : Nat) (h1 : 48 ≤ c) (h2 : c ≤ 57) : isSpace c = false := by
  interval_cases c <;> decide

theorem SkipSpace_of_not_space (r : Nat) (rest : List Nat) (count : Nat)
    (h : isSpace r = false) : SkipSpace (r :: rest) count = .ok (r :: rest, count) := by
  unfold SkipSpace
  split_ifs with h1 h2 h3
  · rfl
  · exfalso
    rw [h2.1] at h
    revert h
    decide
  · exfalso
    rw [h3] at h
    revert h
    decide
  · rfl

theorem acceptLoop_run (ok ds rest : List Nat) (count : Nat) (buf : List Nat)
    (hds : ∀ c ∈ ds, c ∈ ok) (hrest : ∀ r rs, rest = r :: rs → r ∉ ok)
    (hcount : count + ds.length ≤ hugeWid) :
    acceptLoop ok (ds ++ rest) count buf = (rest, count + ds.length, buf ++ ds) := by
  induction ds generalizing count buf with
  | nil =>
    cases rest with
    | nil => simp [acceptLoop]
    | cons r rs =>
      simp only [List.nil_append, acceptLoop, List.length_nil, Nat.add_zero, List.append_nil]
      split_ifs with h1 h2
      · rfl
      · exact absurd h2 (hrest r rs rfl)
      · rfl
  | cons d ds ih =>
    simp only [List.length_cons] at hcount
    rw [List.cons_append, acceptLoop, List.length_cons]
    rw [if_neg (by omega), if_pos (hds d (List.mem_cons_self _ _)),
      ih (count + 1) (buf ++ [d]) (fun c hc => hds c (List.mem_cons_of_mem _ hc)) (by omega)]
    simp only [List.append_assoc, List.singleton_append, Prod.mk.injEq, and_true, true_and]
    omega

theorem mem_decimalDigits (c : Nat) : c ∈ decimalDigits ↔ 48 ≤ c ∧ c ≤ 57 := by
  have h : decimalDigits = [48, 49, 50, 51, 52, 53, 54, 55, 56, 57] := by decide
  rw [h]
  simp only [List.mem_cons, List.mem_singleton, List.not_mem_nil, or_false]
  omega

theorem scanNumber_digits (d : Nat) (ds rest : List Nat) (count : Nat) (buf : List Nat)
    (hd : ∀ c ∈ d :: ds, 48 ≤ c ∧ c ≤ 57) (hrest : endsNumber rest)
    (hcount : count + (d :: ds).length ≤ hugeWid) :
    scanNumber (d :: ds ++ rest) count buf =
      .ok (rest, count + (d :: ds).length, buf ++ d :: ds) := by
  simp only [List.length_cons] at hcount
  have hc : ¬ count ≥ hugeWid := by omega
  have hdd : d ∈ decimalDigits := (mem_decimalDigits d).mpr (hd d (List.mem_cons_self _ _))
  unfold scanNumber notEOF accept getRune
  simp only [List.cons_append, if_neg hc, if_pos hdd]
  rw [acceptLoop_run decimalDigits ds rest (count + 1) (buf ++ [d])
    (fun c hc => (mem_decimalDigits c).mpr (hd c (List.mem_cons_of_mem _ hc)))
    (fun r rs hr hm => hrest r rs hr ((mem_decimalDigits r).mp hm)) (by omega)]
  simp only [List.append_assoc, List.singleton_append, List.length_cons, Except.ok.injEq,
    Prod.mk.injEq, and_true, true_and]
  omega

theorem FormatUint_length_64 (n : Nat) (h : n < 2 ^ 64) : (FormatUint n).length ≤ 20 :=
  FormatUint_length 19 n (by omega)

theorem ParseUint_FormatUint (n : Nat) (h : n < 2 ^ 64) : ParseUint (FormatUint n) = .ok n := by
  unfold ParseUint
  rw [if_neg (FormatUint_ne_nil n), parseUintLoop_FormatUint n h]

theorem scanUint_FormatUint (bitSize n : Nat) (rest : List Nat) (count : Nat)
    (hn : n < 2 ^ bitSize) (hb : bitSize ≤ 64) (hrest : endsNumber rest)
    (hcount : count + 20 ≤ hugeWid) :
    scanUint bitSize (FormatUint n ++ rest) count =
      .ok ((n : Int), rest, count + (FormatUint n).length) := by
  have h64 : n < 2 ^ 64 := lt_of_lt_of_le hn (Nat.pow_le_pow_right (by decide) hb)
  have hlen := FormatUint_length_64 n h64
  have hdig := FormatUint_digits n
  have hne := FormatUint_ne_nil n
  cases hf : FormatUint n with
  | nil => exact absurd hf hne
  | cons d ds =>
    rw [hf] at hlen hdig
    have hsp : isSpace d = false :=
      isSpace_digit d (hdig d (List.mem_cons_self _ _)).1 (hdig d (List.mem_cons_self _ _)).2
    have hc : ¬ count ≥ hugeWid := by omega
    unfold scanUint
    rw [List.cons_append, SkipSpace_of_not_space d _ count hsp]
    simp only [notEOF, getRune, if_neg hc]
    rw [← List.cons_append, scanNumber_digits d ds rest count [] hdig hrest (by omega)]
    simp only [List.nil_append]
    rw [← hf, ParseUint_FormatUint n h64]
    simp only [Nat.mod_eq_of_lt hn, ne_eq, not_true_eq_false, if_false]

theorem ParseInt_FormatInt (i : Int) (h1 : -(2 ^ 63 : Int) ≤ i) (h2 : i < 2 ^ 63) :
    ParseInt (FormatInt i) = .ok i := by
  have hn : i.natAbs < 2 ^ 64 := by omega
  have hp := parseUintLoop_FormatUint i.natAbs hn
  have hne := FormatUint_ne_nil i.natAbs
  unfold FormatInt
  by_cases hneg : i < 0
  · have hb : ¬ ((45 : Nat) = 45 ∧ i.natAbs > 2 ^ 63) := by omega
    rw [if_pos hneg]
    unfold ParseInt
    simp only [or_true, if_true, if_neg hne, hp, ne_eq, not_true_eq_false, false_and, if_false,
      if_neg hb, Except.ok.injEq]
    have habs : (i.natAbs : Int) = -i := by
      rw [Int.natCast_natAbs]
      exact abs_of_neg hneg
    have hb2 : ¬ (True ∧ i.natAbs > 2 ^ 63) := by omega
    rw [if_neg hb2, habs]
    simp
  · rw [if_neg hneg]
    cases hf : FormatUint i.natAbs with
    | nil => exact absurd hf hne
    | cons d ds =>
      have hd := FormatUint_digits i.natAbs d (by rw [hf]; exact List.mem_cons_self _ _)
      rw [hf] at hp
      have hsign : ¬ (d = 43 ∨ d = 45) := by omega
      have h45 : ¬ d = 45 := by omega
      have ha : ¬ (d ≠ 45 ∧ i.natAbs ≥ 2 ^ 63) := by omega
      have hb : ¬ (d = 45 ∧ i.natAbs > 2 ^ 63) := by omega
      unfold ParseInt
      simp only [if_neg hsign, hp, if_neg ha, if_neg hb, if_neg h45, Except.ok.injEq]
      rw [if_neg (by simp)]
      simp only [Except.ok.injEq]
      rw [Int.natCast_natAbs]
      exact abs_of_nonneg (by omega)

theorem FormatInt_length (i : Int) (h1 : -(2 ^ 63 : Int) ≤ i) (h2 : i < 2 ^ 63) :
    (FormatInt i).length ≤ 21 := by
  have hn : i.natAbs < 2 ^ 64 := by omega
  have := FormatUint_length_64 i.natAbs hn
  unfold FormatInt
  split_ifs
  · simp only [List.length_cons]; omega
  · omega

theorem scanInt_FormatInt (i : Int) (rest : List Nat) (count : Nat)
    (h1 : -(2 ^ 63 : Int) ≤ i) (h2 : i < 2 ^ 63) (hrest : endsNumber rest)
    (hcount : count + 21 ≤ hugeWid) :
    scanInt (FormatInt i ++ rest) count = .ok (i, rest, count + (FormatInt i).length) := by
  have hn : i.natAbs < 2 ^ 64 := by omega
  have hlen := FormatUint_length_64 i.natAbs hn
  have hdig := FormatUint_digits i.natAbs
  have hne := FormatUint_ne_nil i.natAbs
  have hparse := ParseInt_FormatInt i h1 h2
  have hc : ¬ count ≥ hugeWid := by omega
  have hsign : sign = [43, 45] := by decide
  cases hf : FormatUint i.natAbs with
  | nil => exact absurd hf hne
  | cons d ds =>
    rw [hf] at hlen hdig
    have hd := hdig d (List.mem_cons_self _ _)
    simp only [List.length_cons] at hlen
    unfold FormatInt at hparse ⊢
    by_cases hneg : i < 0
    · rw [if_pos hneg] at hparse ⊢
      rw [hf] at hparse ⊢
      unfold scanInt
      rw [List.cons_append, SkipSpace_of_not_space 45 _ count (by decide)]
      have hacc : accept sign (45 :: (d :: ds ++ rest)) count [] =
          (true, d :: ds ++ rest, count + 1, [45]) := by
        unfold accept getRune
        rw [if_neg hc, hsign]
        simp
      simp only [notEOF, getRune, if_neg hc, hacc]
      rw [scanNumber_digits d ds rest (count + 1) _ hdig hrest
        (by simp only [List.length_cons]; omega)]
      simp only [List.singleton_append, hparse, List.length_cons, Except.ok.injEq,
        Prod.mk.injEq, true_and]
      omega
    · rw [if_neg hneg] at hparse ⊢
      rw [hf] at hparse ⊢
      unfold scanInt
      rw [List.cons_append, SkipSpace_of_not_space d _ count (isSpace_digit d hd.1 hd.2)]
      have hacc : accept sign (d :: (ds ++ rest)) count [] =
          (false, d :: (ds ++ rest), count, []) := by
        unfold accept getRune
        rw [if_neg hc, hsign]
        have : ¬ d ∈ [43, 45] := by
          simp only [List.mem_cons, List.mem_singleton, List.not_mem_nil, or_false]
          omega
        simp only [if_neg this]
      simp only [notEOF, getRune, if_neg hc, hacc]
      rw [← List.cons_append, scanNumber_digits d ds rest count _ hdig hrest
        (by simp only [List.length_cons]; omega)]
      simp only [List.nil_append, hparse]

/-! ## Steps of doScanf -/

theorem doScanf_literal (fmtc : Nat) (format : List Nat) (a : List Arg) (r : Nat)
    (rs : List Nat) (count : Nat) (hf : fmtc ≠ 37) (hc : count < hugeWid) :
    doScanf (fmtc :: format) a (r :: rs) count =
      if fmtc ≠ r then .error formatMismatch else doScanf format a rs (count + 1) := by
  rw [doScanf]
  · simp only [getRune, if_neg (by omega : ¬ count ≥ hugeWid)]
    rfl
  · intro f h37 _
    exact hf h37

theorem doScanf_literal_eof (fmtc : Nat) (format : List Nat) (a : List Arg) (count : Nat)
    (hf : fmtc ≠ 37) : doScanf (fmtc :: format) a [] count = .error ErrUnexpectedEOF := by
  rw [doScanf]
  · simp only [getRune]
    split_ifs <;> rfl
  · intro f h37 _
    exact hf h37

theorem doScanf_verb_of_scanOne (format : List Nat) (arg : Arg) (a : List Arg) (r : Nat)
    (rs : List Nat) (count : Nat) (v : Int) (rs2 : List Nat) (count2 : Nat)
    (hsp : isSpace r = false) (hscan : scanOne arg (r :: rs) count = .ok (v, rs2, count2)) :
    doScanf (37 :: 100 :: format) (arg :: a) (r :: rs) count =
      match doScanf format a rs2 count2 with
      | .error e => .error e
      | .ok vs => .ok (v :: vs) := by
  rw [doScanf, SkipSpace_of_not_space r rs count hsp]
  simp only [hscan]

theorem FormatUint_head (n : Nat) :
    ∃ r rs, FormatUint n = r :: rs ∧ isSpace r = false := by
  cases hf : FormatUint n with
  | nil => exact absurd hf (FormatUint_ne_nil n)
  | cons d ds =>
    have hd := FormatUint_digits n d (by rw [hf]; exact List.mem_cons_self _ _)
    exact ⟨d, ds, rfl, isSpace_digit d hd.1 hd.2⟩

theorem FormatInt_head (i : Int) : ∃ r rs, FormatInt i = r :: rs ∧ isSpace r = false := by
  unfold FormatInt
  split_ifs
  · exact ⟨45, _, rfl, by decide⟩
  · exact FormatUint_head _

theorem FormatUint_ascii (n : Nat) : ∀ c ∈ FormatUint n, c < 128 := by
  intro c hc
  have := FormatUint_digits n c hc
  omega

theorem FormatInt_ascii (i : Int) : ∀ c ∈ FormatInt i, c < 128 := by
  unfold FormatInt
  split_ifs
  · intro c hc
    rcases List.mem_cons.mp hc with h | h
    · omega
    · exact FormatUint_ascii _ c h
  · exact FormatUint_ascii _

/-- The verb `%d` on the decimal text of an unsigned number that fits the operand. -/
theorem doScanf_verb_FormatUint (format : List Nat) (arg : Arg) (bitSize : Nat) (a : List Arg)
    (n : Nat) (rest : List Nat) (count : Nat)
    (harg : scanOne arg = scanUint bitSize) (hn : n < 2 ^ bitSize) (hb : bitSize ≤ 64)
    (hrest : endsNumber rest) (hcount : count + 20 ≤ hugeWid) :
    doScanf (37 :: 100 :: format) (arg :: a) (FormatUint n ++ rest) count =
      match doScanf format a rest (count + (FormatUint n).length) with
      | .error e => .error e
      | .ok vs => .ok ((n : Int) :: vs) := by
  obtain ⟨r, rs, hf, hsp⟩ := FormatUint_head n
  have hscan := scanUint_FormatUint bitSize n rest count hn hb hrest hcount
  rw [hf] at hscan ⊢
  exact doScanf_verb_of_scanOne format arg a r (rs ++ rest) count n rest _ hsp
    (by rw [harg]; exact hscan)

/-- The verb `%d` on the decimal text of a signed number of 64 bits. -/
theorem doScanf_verb_FormatInt (format : List Nat) (a : List Arg) (i : Int)
    (rest : List Nat) (count : Nat) (h1 : -(2 ^ 63 : Int) ≤ i) (h2 : i < 2 ^ 63)
    (hrest : endsNumber rest) (hcount : count + 21 ≤ hugeWid) :
    doScanf (37 :: 100 :: format) (Arg.int :: a) (FormatInt i ++ rest) count =
      match doScanf format a rest (count + (FormatInt i).length) with
      | .error e => .error e
      | .ok vs => .ok (i :: vs) := by
  obtain ⟨r, rs, hf, hsp⟩ := FormatInt_head i
  have hscan := scanInt_FormatInt i rest count h1 h2 hrest hcount
  rw [hf] at hscan ⊢
  exact doScanf_verb_of_scanOne format Arg.int a r (rs ++ rest) count i rest _ hsp hscan

theorem endsNumber_nil : endsNumber [] := by
  intro r rs h
  cases h

theorem endsNumber_cons (r : Nat) (rs : List Nat) (h : ¬ (48 ≤ r ∧ r ≤ 57)) :
    endsNumber (r :: rs) := by
  intro r1 rs1 h1
  cases h1
  exact h

theorem Sscanf_version (i : Int) (h1 : -(2 ^ 63 : Int) ≤ i) (h2 : i < 2 ^ 63) :
    Sscanf (str "v=" ++ FormatInt i) (str "v=%d") [Arg.int] = .ok [i] := by
  have hfmt : str "v=%d" = [118, 61, 37, 100] := by decide
  have hv : str "v=" = [118, 61] := by decide
  have hascii : ∀ b ∈ str "v=" ++ FormatInt i, b < 128 := by
    intro b hb
    rcases List.mem_append.mp hb with h | h
    · rw [hv] at h
      simp only [List.mem_cons, List.mem_singleton, List.not_mem_nil, or_false] at h
      omega
    · exact FormatInt_ascii i b h
  unfold Sscanf
  rw [utf8Runes_ascii _ hascii, hfmt, hv]
  simp only [List.cons_append, List.nil_append]
  rw [doScanf_literal 118 _ _ 118 _ 0 (by decide) (by decide), if_neg (by simp),
    doScanf_literal 61 _ _ 61 _ 1 (by decide) (by decide), if_neg (by simp)]
  have := doScanf_verb_FormatInt [] [] i [] (0 + 1 + 1) h1 h2 endsNumber_nil (by decide)
  rw [List.append_nil] at this
  rw [this]
  simp [doScanf]

theorem Sscanf_params (m t p : Nat) (hm : m < 2 ^ 32) (ht : t < 2 ^ 32) (hp : p < 2 ^ 8) :
    Sscanf (str "m=" ++ FormatUint m ++ str ",t=" ++ FormatUint t ++ str ",p=" ++ FormatUint p)
        (str "m=%d,t=%d,p=%d") [Arg.uint32, Arg.uint32, Arg.uint8] =
      .ok [(m : Int), (t : Int), (p : Int)] := by
  have hfmt : str "m=%d,t=%d,p=%d" =
      [109, 61, 37, 100, 44, 116, 61, 37, 100, 44, 112, 61, 37, 100] := by decide
  have h1 : str "m=" = [109, 61] := by decide
  have h2 : str ",t=" = [44, 116, 61] := by decide
  have h3 : str ",p=" = [44, 112, 61] := by decide
  have hlm := FormatUint_length_64 m (by omega)
  have hlt := FormatUint_length_64 t (by omega)
  have hhw : hugeWid = 1073741824 := by decide
  have hascii : ∀ b ∈ str "m=" ++ FormatUint m ++ str ",t=" ++ FormatUint t ++ str ",p=" ++
      FormatUint p, b < 128 := by
    intro b hb
    rw [h1, h2, h3] at hb
    simp only [List.mem_append, List.mem_cons, List.mem_singleton, List.not_mem_nil,
      or_false] at hb
    rcases hb with ((((h | h) | h) | h) | h) | h
    · omega
    · exact FormatUint_ascii m b h
    · omega
    · exact FormatUint_ascii t b h
    · omega
    · exact FormatUint_ascii p b h
  unfold Sscanf
  rw [utf8Runes_ascii _ hascii, hfmt, h1, h2, h3]
  simp only [List.cons_append, List.nil_append, List.append_assoc]
  rw [doScanf_literal 109 _ _ 109 _ 0 (by decide) (by decide), if_neg (by simp),
    doScanf_literal 61 _ _ 61 _ _ (by decide) (by decide), if_neg (by simp),
    doScanf_verb_FormatUint _ Arg.uint32 32 _ m _ _ rfl hm (by decide)
      (endsNumber_cons 44 _ (by decide)) (by decide),
    doScanf_literal 44 _ _ 44 _ _ (by decide) (by omega), if_neg (by simp),
    doScanf_literal 116 _ _ 116 _ _ (by decide) (by omega), if_neg (by simp),
    doScanf_literal 61 _ _ 61 _ _ (by decide) (by omega), if_neg (by simp),
    doScanf_verb_FormatUint _ Arg.uint32 32 _ t _ _ rfl ht (by decide)
      (endsNumber_cons 44 _ (by decide)) (by omega),
    doScanf_literal 44 _ _ 44 _ _ (by decide) (by omega), if_neg (by simp),
    doScanf_literal 112 _ _ 112 _ _ (by decide) (by omega), if_neg (by simp),
    doScanf_literal 61 _ _ 61 _ _ (by decide) (by omega), if_neg (by simp)]
  have := doScanf_verb_FormatUint [] Arg.uint8 8 [] p []
    (0 + 1 + 1 + (FormatUint m).length + 1 + 1 + 1 + (FormatUint t).length + 1 + 1 + 1)
    rfl hp (by decide) endsNumber_nil (by omega)
  rw [List.append_nil] at this
  rw [this]
  simp [doScanf]

/-! ## Base64: the tables -/

theorem encodeStd_length : encodeStd.length = 64 := by decide

theorem encodeStd_chars : ∀ c ∈ encodeStd, c ≠ 10 ∧ c ≠ 13 ∧ c ≠ 36 ∧ c < 128 := by decide

theorem decodeMap_encodeMap : ∀ i, i < 64 → decodeMap (encodeMap i) = i := by decide

theorem encodeMap_mem (i : Nat) (h : i < 64) : encodeMap i ∈ encodeStd := by
  unfold encodeMap
  rw [List.getD_eq_getElem _ _ (by rw [encodeStd_length]; exact h)]
  exact List.getElem_mem _

theorem decodeMap_valid (c : Nat) (h : decodeMap c ≠ 0xff) :
    decodeMap c < 64 ∧ encodeMap (decodeMap c) = c ∧ c ∈ encodeStd := by
  unfold decodeMap at h ⊢
  simp only at h ⊢
  by_cases hi : List.indexOf c encodeStd < 64
  · rw [if_pos hi]
    have hlen : List.indexOf c encodeStd < encodeStd.length := by rw [encodeStd_length]; exact hi
    refine ⟨hi, ?_, List.indexOf_lt_length.mp hlen⟩
    unfold encodeMap
    rw [List.getD_eq_getElem _ _ hlen]
    exact List.getElem_indexOf hlen
  · rw [if_neg hi] at h
    exact absurd rfl h

theorem decodeMap_encodeMap_ne (i : Nat) (h : i < 64) : decodeMap (encodeMap i) ≠ 0xff := by
  rw [decodeMap_encodeMap i h]
  omega

/-! ## Base64: steps of the decoder -/

theorem decodeLoop_alpha (c : Nat) (rest : List Nat) (si : Nat) (dbuf : List Nat)
    (hc : decodeMap c ≠ 0xff) (hlen : dbuf.length ≠ 3) :
    decodeLoop (c :: rest) si dbuf = decodeLoop rest (si + 1) (dbuf ++ [decodeMap c]) := by
  rw [decodeLoop]
  simp only [if_pos hc, if_neg hlen]

theorem decodeLoop_alpha_full (c : Nat) (rest : List Nat) (si : Nat) (dbuf bs : List Nat)
    (hc : decodeMap c ≠ 0xff) (hlen : dbuf.length = 3)
    (hq : quantumBytes (dbuf ++ [decodeMap c]) (si + 1) = .ok bs) :
    decodeLoop (c :: rest) si dbuf =
      match decodeLoop rest (si + 1) [] with
      | .ok more => .ok (bs ++ more)
      | .error e => .error e := by
  rw [decodeLoop]
  simp only [if_pos hc, if_pos hlen, hq]
  cases decodeLoop rest (si + 1) [] <;> rfl

theorem decodeLoop_newline (c : Nat) (rest : List Nat) (si : Nat) (dbuf : List Nat)
    (hc : c = 10 ∨ c = 13) : decodeLoop (c :: rest) si dbuf = decodeLoop rest (si + 1) dbuf := by
  have h255 : ¬ decodeMap c ≠ 0xff := by
    rcases hc with rfl | rfl <;> decide
  rw [decodeLoop]
  simp only [if_neg h255, if_pos hc]

theorem quantumBytes_four (v0 v1 v2 v3 si : Nat) :
    quantumBytes [v0, v1, v2, v3] si =
      .ok [(v0 * 262144 + v1 * 4096 + v2 * 64 + v3) / 65536 % 256,
           (v0 * 262144 + v1 * 4096 + v2 * 64 + v3) / 256 % 256,
           (v0 * 262144 + v1 * 4096 + v2 * 64 + v3) % 256] := by
  rfl

theorem quantumBytes_three (v0 v1 v2 si : Nat) :
    quantumBytes [v0, v1, v2] si =
      if (v0 * 262144 + v1 * 4096 + v2 * 64 + 0) % 256 ≠ 0 then .error (CorruptInputError (si - 1))
      else .ok [(v0 * 262144 + v1 * 4096 + v2 * 64 + 0) / 65536 % 256,
                (v0 * 262144 + v1 * 4096 + v2 * 64 + 0) / 256 % 256] := by
  rfl

theorem quantumBytes_two (v0 v1 si : Nat) :
    quantumBytes [v0, v1] si =
      if (v0 * 262144 + v1 * 4096 + 0 * 64 + 0) / 256 % 256 ≠ 0 ∨
          (v0 * 262144 + v1 * 4096 + 0 * 64 + 0) % 256 ≠ 0 then
        .error (CorruptInputError (si - 2))
      else .ok [(v0 * 262144 + v1 * 4096 + 0 * 64 + 0) / 65536 % 256] := by
  rfl

/-! ## Base64: decoding an encoding gives the bytes back -/

theorem decodeLoop_EncodeToString (bs : List Nat) (hb : isBytes bs) (si : Nat) :
    decodeLoop (EncodeToString bs) si [] = .ok bs := by
  induction bs using EncodeToString.induct generalizing si with
  | case1 a b c rest ih =>
    have ha : a < 256 := hb a (by simp)
    have hb' : b < 256 := hb b (by simp)
    have hc : c < 256 := hb c (by simp)
    have hrest : isBytes rest := fun x hx => hb x (by simp [hx])
    rw [EncodeToString]
    rw [decodeLoop_alpha _ _ _ _ (decodeMap_encodeMap_ne _ (Nat.mod_lt _ (by decide))) (by simp),
      decodeLoop_alpha _ _ _ _ (decodeMap_encodeMap_ne _ (Nat.mod_lt _ (by decide))) (by simp),
      decodeLoop_alpha _ _ _ _ (decodeMap_encodeMap_ne _ (Nat.mod_lt _ (by decide))) (by simp)]
    simp only [List.nil_append, List.cons_append, decodeMap_encodeMap _ (Nat.mod_lt _ (by decide : 0 < 64))]
    rw [decodeLoop_alpha_full _ _ _ _ [a, b, c]
      (decodeMap_encodeMap_ne _ (Nat.mod_lt _ (by decide))) (by simp)
      (by
        simp only [List.nil_append, List.cons_append,
          decodeMap_encodeMap _ (Nat.mod_lt _ (by decide : 0 < 64)), quantumBytes_four]
        congr 1
        congr 1
        · omega
        · congr 1
          · omega
          · congr 1
            omega)]
    rw [ih hrest]
    rfl
  | case2 a b =>
    have ha : a < 256 := hb a (by simp)
    have hb' : b < 256 := hb b (by simp)
    rw [EncodeToString]
    rw [decodeLoop_alpha _ _ _ _ (decodeMap_encodeMap_ne _ (Nat.mod_lt _ (by decide))) (by simp),
      decodeLoop_alpha _ _ _ _ (decodeMap_encodeMap_ne _ (Nat.mod_lt _ (by decide))) (by simp),
      decodeLoop_alpha _ _ _ _ (decodeMap_encodeMap_ne _ (Nat.mod_lt _ (by decide))) (by simp)]
    simp only [List.nil_append, List.cons_append, decodeMap_encodeMap _ (Nat.mod_lt _ (by decide : 0 < 64)),
      decodeLoop, quantumBytes_three]
    rw [if_neg (by omega)]
    congr 1
    congr 1
    · omega
    · congr 1
      omega
  | case3 a =>
    have ha : a < 256 := hb a (by simp)
    rw [EncodeToString]
    rw [decodeLoop_alpha _ _ _ _ (decodeMap_encodeMap_ne _ (Nat.mod_lt _ (by decide))) (by simp),
      decodeLoop_alpha _ _ _ _ (decodeMap_encodeMap_ne _ (Nat.mod_lt _ (by decide))) (by simp)]
    simp only [List.nil_append, List.cons_append, decodeMap_encodeMap _ (Nat.mod_lt _ (by decide : 0 < 64)),
      decodeLoop, quantumBytes_two]
    rw [if_neg (by omega)]
    congr 1
    congr 1
    omega
  | case4 =>
    rfl

theorem DecodeString_EncodeToString (bs : List Nat) (hb : isBytes bs) :
    DecodeString (EncodeToString bs) = .ok bs :=
  decodeLoop_EncodeToString bs hb 0

/-! ## Base64: what the decoder accepts is canonical up to CR and LF -/

theorem stripNewlines_cons_keep (c : Nat) (rest : List Nat) (h : c ≠ 10 ∧ c ≠ 13) :
    stripNewlines (c :: rest) = c :: stripNewlines rest := by
  unfold stripNewlines
  rw [List.filter_cons_of_pos (by simpa using h)]

theorem stripNewlines_cons_drop (c : Nat) (rest : List Nat) (h : c = 10 ∨ c = 13) :
    stripNewlines (c :: rest) = stripNewlines rest := by
  unfold stripNewlines
  rw [List.filter_cons_of_neg]
  rcases h with rfl | rfl <;> simp

theorem quantumBytes_sound (dbuf : List Nat) (si : Nat) (bs : List Nat)
    (hlen : dbuf.length ≤ 3) (hv : ∀ v ∈ dbuf, v < 64) (h : quantumBytes dbuf si = .ok bs) :
    dbuf.map encodeMap = EncodeToString bs ∧ isBytes bs := by
  match dbuf, hlen, hv, h with
  | [], _, _, h =>
    have : bs = [] := by
      have h2 : quantumBytes [] si = .ok [] := rfl
      rw [h2] at h
      simpa using h.symm
    subst this
    exact ⟨rfl, by intro b hb; cases hb⟩
  | [v0], _, _, h =>
    have h2 : quantumBytes [v0] si = .error (CorruptInputError (si - 1)) := rfl
    rw [h2] at h
    cases h
  | [v0, v1], _, hv, h =>
    have h0 : v0 < 64 := hv v0 (by simp)
    have h1 : v1 < 64 := hv v1 (by simp)
    rw [quantumBytes_two] at h
    split_ifs at h with hc
    simp only [Except.ok.injEq] at h
    subst h
    constructor
    · rw [EncodeToString]
      simp only [List.map_cons, List.map_nil]
      congr 1
      · congr 1
        omega
      · congr 1
        congr 1
        omega
    · intro b hb
      simp only [List.mem_singleton] at hb
      omega
  | [v0, v1, v2], _, hv, h =>
    have h0 : v0 < 64 := hv v0 (by simp)
    have h1 : v1 < 64 := hv v1 (by simp)
    have h2 : v2 < 64 := hv v2 (by simp)
    rw [quantumBytes_three] at h
    split_ifs at h with hc
    simp only [Except.ok.injEq] at h
    subst h
    constructor
    · rw [EncodeToString]
      simp only [List.map_cons, List.map_nil]
      congr 1
      · congr 1
        omega
      · congr 1
        · congr 1
          omega
        · congr 1
          congr 1
          omega
    · intro b hb
      simp only [List.mem_cons, List.mem_singleton, List.not_mem_nil, or_false] at hb
      omega

theorem decodeLoop_sound (src : List Nat) (si : Nat) (dbuf bs : List Nat)
    (hlen : dbuf.length ≤ 3) (hv : ∀ v ∈ dbuf, v < 64) (h : decodeLoop src si dbuf = .ok bs) :
    dbuf.map encodeMap ++ stripNewlines src = EncodeToString bs ∧ isBytes bs := by
  induction src generalizing si dbuf bs with
  | nil =>
    rw [decodeLoop] at h
    have := quantumBytes_sound dbuf si bs hlen hv h
    exact ⟨by simpa [stripNewlines] using this.1, this.2⟩
  | cons c rest ih =>
    by_cases hc : decodeMap c ≠ 0xff
    · obtain ⟨hlt, henc, hmem⟩ := decodeMap_valid c hc
      have hch := encodeStd_chars c hmem
      rw [stripNewlines_cons_keep c rest ⟨hch.1, hch.2.1⟩]
      by_cases h3 : dbuf.length = 3
      · match dbuf, h3, hv with
        | [d0, d1, d2], _, hv =>
          have h0 : d0 < 64 := hv d0 (by simp)
          have h1 : d1 < 64 := hv d1 (by simp)
          have h2 : d2 < 64 := hv d2 (by simp)
          rw [decodeLoop_alpha_full c rest si [d0, d1, d2] _ hc rfl
            (quantumBytes_four d0 d1 d2 (decodeMap c) (si + 1))] at h
          generalize decodeMap c = v at h hlt henc
          cases hrest : decodeLoop rest (si + 1) [] with
          | error e =>
            rw [hrest] at h
            cases h
          | ok more =>
            rw [hrest] at h
            simp only [Except.ok.injEq] at h
            subst h
            have ihr := ih (si + 1) [] more (by simp) (by simp) hrest
            simp only [List.map_nil, List.nil_append] at ihr
            constructor
            · simp only [List.cons_append, List.nil_append, List.map_cons, List.map_nil]
              rw [EncodeToString, ← ihr.1]
              congr 1
              · congr 1
                omega
              · congr 1
                · congr 1
                  omega
                · congr 1
                  · congr 1
                    omega
                  · congr 1
                    rw [← henc]
                    congr 1
                    omega
            · intro b hb
              simp only [List.cons_append, List.nil_append, List.mem_cons] at hb
              rcases hb with hb | hb | hb | hb
              · omega
              · omega
              · omega
              · exact ihr.2 b hb
      · rw [decodeLoop_alpha c rest si dbuf hc h3] at h
        have ihr := ih (si + 1) (dbuf ++ [decodeMap c]) bs
          (by simp only [List.length_append, List.length_singleton]; omega)
          (by
            intro v hv'
            rcases List.mem_append.mp hv' with hv' | hv'
            · exact hv v hv'
            · simp only [List.mem_singleton] at hv'
              omega)
          h
        refine ⟨?_, ihr.2⟩
        rw [← ihr.1]
        simp only [List.map_append, List.map_cons, List.map_nil, henc, List.append_assoc,
          List.singleton_append]
    · by_cases hnl : c = 10 ∨ c = 13
      · rw [decodeLoop_newline c rest si dbuf hnl] at h
        rw [stripNewlines_cons_drop c rest hnl]
        exact ih si.succ dbuf bs hlen hv h
      · rw [decodeLoop] at h
        simp only [if_neg hc, if_neg hnl] at h
        cases h

theorem DecodeString_sound (s bs : List Nat) (h : DecodeString s = .ok bs) :
    stripNewlines s = EncodeToString bs ∧ isBytes bs := by
  have := decodeLoop_sound s 0 [] bs (by simp) (by simp) h
  simpa using this

/-! ## Decimal text -/

theorem digitChar_toNat : ∀ d, d < 10 → (Nat.digitChar d).toNat = 48 + d := by decide

theorem toDigitsCore_formatBits (fuel n : Nat) (ds : List Char) :
    (Nat.toDigitsCore 10 fuel n ds).map Char.toNat = formatBits fuel n (ds.map Char.toNat) := by
  induction fuel generalizing n ds with
  | zero => rfl
  | succ k ih =>
    rw [Nat.toDigitsCore, formatBits]
    by_cases h : n < 10
    · have h0 : n / 10 = 0 := Nat.div_eq_of_lt h
      rw [if_pos h0, if_pos h, List.map_cons, digitChar_toNat _ (Nat.mod_lt _ (by decide)),
        Nat.mod_eq_of_lt h]
    · have h0 : ¬ n / 10 = 0 := by omega
      rw [if_neg h0, if_neg h, ih, List.map_cons, digitChar_toNat _ (Nat.mod_lt _ (by decide))]

theorem FormatUint_eq_decimal (n : Nat) : FormatUint n = decimal (n : Int) := by
  unfold FormatUint decimal str
  show _ = (String.toList (toString n)).map Char.toNat
  have : String.toList (toString n) = Nat.toDigits 10 n := rfl
  rw [this, Nat.toDigits, toDigitsCore_formatBits]
  rfl

theorem FormatInt_eq_decimal (i : Int) : FormatInt i = decimal i := by
  cases i with
  | ofNat m =>
    unfold FormatInt
    rw [if_neg (by simp)]
    exact FormatUint_eq_decimal m
  | negSucc m =>
    unfold FormatInt
    rw [if_pos (Int.negSucc_lt_zero m)]
    have h1 : (Int.negSucc m).natAbs = m + 1 := rfl
    rw [h1, FormatUint_eq_decimal]
    unfold decimal str
    show _ = (String.toList ("-" ++ toString (m + 1))).map Char.toNat
    have happ : String.toList ("-" ++ toString (m + 1)) =
        String.toList "-" ++ String.toList (toString (m + 1)) := String.data_append _ _
    rw [happ, List.map_append]
    rfl

/-! ## Splitting canonical text -/

theorem Split_no_sep (sep : Nat) (a : List Nat) (h : sep ∉ a) : Split sep a = [a] := by
  induction a with
  | nil => rfl
  | cons c cs ih =>
    have hc : c ≠ sep := fun hh => h (hh ▸ List.mem_cons_self _ _)
    rw [Split, if_neg hc, ih (fun hh => h (List.mem_cons_of_mem _ hh))]

theorem Split_append_sep (sep : Nat) (a rest : List Nat) (h : sep ∉ a) :
    Split sep (a ++ sep :: rest) = a :: Split sep rest := by
  induction a with
  | nil =>
    rw [List.nil_append, Split, if_pos rfl]
  | cons c cs ih =>
    have hc : c ≠ sep := fun hh => h (hh ▸ List.mem_cons_self _ _)
    rw [List.cons_append, Split, if_neg hc, ih (fun hh => h (List.mem_cons_of_mem _ hh))]

theorem EncodeToString_mem (bs : List Nat) : ∀ c ∈ EncodeToString bs, c ∈ encodeStd := by
  induction bs using EncodeToString.induct with
  | case1 a b c rest ih =>
    rw [EncodeToString]
    intro x hx
    simp only [List.mem_cons] at hx
    rcases hx with hx | hx | hx | hx | hx
    · exact hx ▸ encodeMap_mem _ (Nat.mod_lt _ (by decide))
    · exact hx ▸ encodeMap_mem _ (Nat.mod_lt _ (by decide))
    · exact hx ▸ encodeMap_mem _ (Nat.mod_lt _ (by decide))
    · exact hx ▸ encodeMap_mem _ (Nat.mod_lt _ (by decide))
    · exact ih x hx
  | case2 a b =>
    rw [EncodeToString]
    intro x hx
    simp only [List.mem_cons, List.mem_singleton, List.not_mem_nil, or_false] at hx
    rcases hx with hx | hx | hx
    · exact hx ▸ encodeMap_mem _ (Nat.mod_lt _ (by decide))
    · exact hx ▸ encodeMap_mem _ (Nat.mod_lt _ (by decide))
    · exact hx ▸ encodeMap_mem _ (Nat.mod_lt _ (by decide))
  | case3 a =>
    rw [EncodeToString]
    intro x hx
    simp only [List.mem_cons, List.mem_singleton, List.not_mem_nil, or_false] at hx
    rcases hx with hx | hx
    · exact hx ▸ encodeMap_mem _ (Nat.mod_lt _ (by decide))
    · exact hx ▸ encodeMap_mem _ (Nat.mod_lt _ (by decide))
  | case4 =>
    intro x hx
    cases hx

theorem EncodeToString_length (bs : List Nat) :
    (EncodeToString bs).length = (4 * bs.length + 2) / 3 := by
  induction bs using EncodeToString.induct with
  | case1 a b c rest ih =>
    rw [EncodeToString]
    simp only [List.length_cons, ih]
    omega
  | case2 a b => rw [EncodeToString]; simp
  | case3 a => rw [EncodeToString]; simp
  | case4 => rfl

theorem EncodeToString_no_dollar (bs : List Nat) : 36 ∉ EncodeToString bs := fun h =>
  (encodeStd_chars 36 (EncodeToString_mem bs 36 h)).2.2.1 rfl

theorem FormatUint_no_dollar (n : Nat) : 36 ∉ FormatUint n := fun h => by
  have := FormatUint_digits n 36 h
  omega

theorem FormatInt_no_dollar (i : Int) : 36 ∉ FormatInt i := fun h => by
  have := FormatInt_ascii i
  unfold FormatInt at h
  split_ifs at h
  · rcases List.mem_cons.mp h with h | h
    · omega
    · exact FormatUint_no_dollar _ h
  · exact FormatUint_no_dollar _ h

/-! ## The encoded string and its segments -/

/-- The segment that encode writes for the version. -/
theorem encode_eq (c : Config) (salt key : List Nat) (hs : c.Salt = some salt)
    (hk : c.Key = some key) :
    c.encode = .ok (str "$" ++ c.Mode ++ str "$v=" ++ FormatInt c.Version ++ str "$m=" ++
      FormatUint c.Memory ++ str ",t=" ++ FormatUint c.Time ++ str ",p=" ++
      FormatUint c.Parallelism ++ str "$" ++ EncodeToString salt ++ str "$" ++
      EncodeToString key) := by
  have h36 : str "$" = [36] := by decide
  unfold Config.encode
  simp only [hs, hk, Buffer.Write, Buffer.WriteByte, argFirst, argVersion, argMemory, argTime,
    argParallelism, List.nil_append, h36]

theorem encoded_segments (mode ver params salt key : List Nat) :
    str "$" ++ mode ++ str "$v=" ++ ver ++ str "$m=" ++ params ++ str "$" ++ salt ++ str "$" ++
        key =
      [] ++ 36 :: (mode ++ 36 :: ((str "v=" ++ ver) ++ 36 :: ((str "m=" ++ params) ++
        36 :: (salt ++ 36 :: key)))) := by
  have h1 : str "$" = [36] := by decide
  have h2 : str "$v=" = 36 :: str "v=" := by decide
  have h3 : str "$m=" = 36 :: str "m=" := by decide
  rw [h1, h2, h3]
  simp only [List.append_assoc, List.cons_append, List.nil_append, List.singleton_append]

theorem Split_encoded (mode ver params salt key : List Nat) (hmode : 36 ∉ mode)
    (hver : 36 ∉ ver) (hparams : 36 ∉ params) (hsalt : 36 ∉ salt) (hkey : 36 ∉ key) :
    Split 36 (str "$" ++ mode ++ str "$v=" ++ ver ++ str "$m=" ++ params ++ str "$" ++ salt ++
        str "$" ++ key) =
      [[], mode, str "v=" ++ ver, str "m=" ++ params, salt, key] := by
  have hv : str "v=" = [118, 61] := by decide
  have hm : str "m=" = [109, 61] := by decide
  have h2 : 36 ∉ str "v=" ++ ver := by
    rw [hv]
    simp only [List.cons_append, List.nil_append, List.mem_cons, not_or]
    exact ⟨by decide, by decide, hver⟩
  have h3 : 36 ∉ str "m=" ++ params := by
    rw [hm]
    simp only [List.cons_append, List.nil_append, List.mem_cons, not_or]
    exact ⟨by decide, by decide, hparams⟩
  rw [encoded_segments, Split_append_sep 36 [] _ (by simp), Split_append_sep 36 mode _ hmode,
    Split_append_sep 36 _ _ h2, Split_append_sep 36 _ _ h3, Split_append_sep 36 salt _ hsalt,
    Split_no_sep 36 key hkey]

theorem params_no_dollar (m t p : Nat) :
    36 ∉ FormatUint m ++ str ",t=" ++ FormatUint t ++ str ",p=" ++ FormatUint p := by
  have h2 : str ",t=" = [44, 116, 61] := by decide
  have h3 : str ",p=" = [44, 112, 61] := by decide
  rw [h2, h3]
  simp only [List.mem_append, List.mem_cons, List.mem_singleton, List.not_mem_nil, or_false,
    not_or]
  exact ⟨⟨⟨⟨FormatUint_no_dollar m, by decide, by decide, by decide⟩, FormatUint_no_dollar t⟩,
    by decide, by decide, by decide⟩, FormatUint_no_dollar p⟩

theorem supported_mode_chars (mode : List Nat)
    (h : mode = str "argon2i" ∨ mode = str "argon2id") : 36 ∉ mode ∧ ∀ b ∈ mode, b < 128 := by
  rcases h with rfl | rfl <;> decide

/-- What encode writes, and the segments it splits into when the mode holds no dollar sign. -/
theorem encode_Split (c : Config) (salt key : List Nat) (hs : c.Salt = some salt)
    (hk : c.Key = some key) (hmode : 36 ∉ c.Mode) :
    ∃ hash, c.encode = .ok hash ∧
      Split 36 hash =
        [[], c.Mode, str "v=" ++ FormatInt c.Version,
         str "m=" ++ FormatUint c.Memory ++ str ",t=" ++ FormatUint c.Time ++ str ",p=" ++
           FormatUint c.Parallelism,
         EncodeToString salt, EncodeToString key] := by
  refine ⟨_, encode_eq c salt key hs hk, ?_⟩
  have := Split_encoded c.Mode (FormatInt c.Version)
    (FormatUint c.Memory ++ str ",t=" ++ FormatUint c.Time ++ str ",p=" ++
      FormatUint c.Parallelism)
    (EncodeToString salt) (EncodeToString key) hmode (FormatInt_no_dollar _)
    (params_no_dollar _ _ _) (EncodeToString_no_dollar _) (EncodeToString_no_dollar _)
  simp only [List.append_assoc] at this ⊢
  exact this

/-- Decoding what encode wrote. -/
theorem NewWithHash_encode (c : Config) (salt key : List Nat)
    (hmode : c.Mode = str "argon2i" ∨ c.Mode = str "argon2id") (hver : c.Version = 13)
    (hs : c.Salt = some salt) (hk : c.Key = some key) (hsb : isBytes salt) (hkb : isBytes key)
    (ht : c.Time < 2 ^ 32) (hm : c.Memory < 2 ^ 32) (hp : c.Parallelism < 2 ^ 8) :
    ∃ hash, c.encode = .ok hash ∧
      NewWithHash hash =
        .ok { Time := c.Time, Memory := c.Memory, Parallelism := c.Parallelism,
              SaltLength := salt.length % 2 ^ 32, KeyLength := key.length % 2 ^ 32,
              Mode := c.Mode, Version := 13, Salt := some salt, Key := some key } := by
  obtain ⟨hash, henc, hsplit⟩ := encode_Split c salt key hs hk (supported_mode_chars _ hmode).1
  refine ⟨hash, henc, ?_⟩
  rw [NewWithHash_six hash _ _ _ _ _ _ hsplit, if_neg (not_not.mpr hmode), hver,
    Sscanf_version 13 (by decide) (by decide)]
  simp only [List.getD_cons_zero, ne_eq, not_true_eq_false, if_false]
  rw [Sscanf_params c.Memory c.Time c.Parallelism hm ht hp]
  simp only [DecodeString_EncodeToString salt hsb, DecodeString_EncodeToString key hkb,
    List.getD_cons_zero, List.getD_cons_succ, Int.toNat_ofNat]

/-! ## Matching -/

theorem Match_present (c : Config) (argon2 : KDF) (password salt key : List Nat)
    (hs : c.Salt = some salt) (hk : c.Key = some key) (hkey : isBytes key)
    (hkdf : isBytes (c.generateKey argon2 password)) :
    c.Match argon2 password = (decide (c.generateKey argon2 password = key), none) := by
  unfold Config.Match
  rw [if_neg (by simp [hs, hk])]
  simp only [hk, Option.getD_some, Prod.mk.injEq, and_true]
  rw [decide_eq_decide, ConstantTimeCompare_eq_one _ _ hkey hkdf]
  exact eq_comm

theorem generateKey_length (c : Config) (argon2 : KDF) (p : List Nat)
    (hlen : ∀ pw s t m th n,
      (argon2.IDKey pw s t m th n).length = n ∧ (argon2.Key pw s t m th n).length = n) :
    (c.generateKey argon2 p).length = c.KeyLength := by
  unfold Config.generateKey
  split_ifs
  · exact (hlen _ _ _ _ _ _).1
  · exact (hlen _ _ _ _ _ _).2

theorem generateKey_bytes (c : Config) (argon2 : KDF) (p : List Nat)
    (hbytes : ∀ pw s t m th n,
      isBytes (argon2.IDKey pw s t m th n) ∧ isBytes (argon2.Key pw s t m th n)) :
    isBytes (c.generateKey argon2 p) := by
  unfold Config.generateKey
  split_ifs
  · exact (hbytes _ _ _ _ _ _).1
  · exact (hbytes _ _ _ _ _ _).2

/-- A Config whose key was derived from the password encodes to a hash that decodes to a Config
matching the password. -/
theorem derived_hash_matches (argon2 : KDF) (c : Config) (p salt h : List Nat)
    (hlen : ∀ pw s t m th n,
      (argon2.IDKey pw s t m th n).length = n ∧ (argon2.Key pw s t m th n).length = n)
    (hbytes : ∀ pw s t m th n,
      isBytes (argon2.IDKey pw s t m th n) ∧ isBytes (argon2.Key pw s t m th n))
    (hmode : c.Mode = str "argon2i" ∨ c.Mode = str "argon2id") (hver : c.Version = 13)
    (hs : c.Salt = some salt) (hk : c.Key = some (c.generateKey argon2 p))
    (hsb : isBytes salt) (ht : c.Time < 2 ^ 32) (hm : c.Memory < 2 ^ 32)
    (hp : c.Parallelism < 2 ^ 8) (hkl : c.KeyLength < 2 ^ 32) (henc : c.encode = .ok h) :
    ∃ d, NewWithHash h = .ok d ∧ d.Match argon2 p = (true, none) := by
  obtain ⟨hash, henc2, hdec⟩ := NewWithHash_encode c salt (c.generateKey argon2 p) hmode hver hs
    hk hsb (generateKey_bytes c argon2 p hbytes) ht hm hp
  rw [henc] at henc2
  simp only [Except.ok.injEq] at henc2
  subst henc2
  refine ⟨_, hdec, ?_⟩
  have hkeylen : (c.generateKey argon2 p).length % 2 ^ 32 = c.KeyLength := by
    rw [generateKey_length c argon2 p hlen]
    exact Nat.mod_eq_of_lt hkl
  have hgen : Config.generateKey
      { Time := c.Time, Memory := c.Memory, Parallelism := c.Parallelism,
        SaltLength := salt.length % 2 ^ 32,
        KeyLength := (c.generateKey argon2 p).length % 2 ^ 32,
        Mode := c.Mode, Version := 13, Salt := some salt,
        Key := some (c.generateKey argon2 p) } argon2 p = c.generateKey argon2 p := by
    show (if c.Mode = Argon2.Mode Argon2id then
        argon2.IDKey p ((some salt).getD []) c.Time c.Memory c.Parallelism
          ((c.generateKey argon2 p).length % 2 ^ 32)
      else
        argon2.Key p ((some salt).getD []) c.Time c.Memory c.Parallelism
          ((c.generateKey argon2 p).length % 2 ^ 32)) = _
    rw [hkeylen]
    unfold Config.generateKey
    rw [hs]
  rw [Match_present _ argon2 p salt (c.generateKey argon2 p) rfl rfl
    (generateKey_bytes c argon2 p hbytes) (by rw [hgen]; exact generateKey_bytes c argon2 p hbytes),
    hgen]
  simp

theorem toyKey_length (tag : Nat) (pw s : List Nat) (t m th n : Nat) :
    (toyKey tag pw s t m th n).length = n := by
  simp [toyKey]

theorem toyKey_bytes (tag : Nat) (pw s : List Nat) (t m th n : Nat) :
    isBytes (toyKey tag pw s t m th n) := by
  intro b hb
  simp only [toyKey, List.mem_map] at hb
  obtain ⟨i, -, rfl⟩ := hb
  exact Nat.mod_lt _ (by decide)

theorem toyRand_bytes (st : Nat) (buf : List Nat) : isBytes (toyRand.Read st buf).1.1 := by
  intro b hb
  simp only [toyRand, List.mem_map] at hb
  obtain ⟨i, -, rfl⟩ := hb
  exact Nat.mod_lt _ (by decide)

theorem Default_wellTyped : Default.wellTyped := by
  refine ⟨by decide, by decide, by decide, by decide, by decide, by decide, by decide,
    by decide, ?_, ?_⟩
  · intro s hs
    cases hs
  · intro k hk
    cases hk

theorem canonicalHash_eq (mode : List Nat) (version : Int) (m t p : Nat) (salt key : List Nat) :
    canonicalHash mode version m t p salt key =
      str "$" ++ mode ++ str "$v=" ++ FormatInt version ++ str "$m=" ++
        (FormatUint m ++ str ",t=" ++ FormatUint t ++ str ",p=" ++ FormatUint p) ++ str "$" ++
        EncodeToString salt ++ str "$" ++ EncodeToString key := by
  unfold canonicalHash
  rw [FormatInt_eq_decimal, FormatUint_eq_decimal, FormatUint_eq_decimal, FormatUint_eq_decimal]
  simp only [List.append_assoc]

theorem canonicalHash_ascii (mode : List Nat) (version : Int) (m t p : Nat) (salt key : List Nat)
    (hmode : ∀ b ∈ mode, b < 128) :
    ∀ b ∈ canonicalHash mode version m t p salt key, b < 128 := by
  have h1 : str "$" = [36] := by decide
  have h2 : str "$v=" = [36, 118, 61] := by decide
  have h3 : str "$m=" = [36, 109, 61] := by decide
  have h4 : str ",t=" = [44, 116, 61] := by decide
  have h5 : str ",p=" = [44, 112, 61] := by decide
  have hb64 : ∀ bs b, b ∈ EncodeToString bs → b < 128 := fun bs b hb =>
    (encodeStd_chars b (EncodeToString_mem bs b hb)).2.2.2
  intro b hb
  rw [canonicalHash_eq, h1, h2, h3, h4, h5] at hb
  simp only [List.mem_append, List.mem_cons, List.mem_singleton, List.not_mem_nil,
    or_false] at hb
  rcases hb with ((((((((h | h) | h) | h) | h) | h) | h) | h) | h) | h
  · omega
  · exact hmode b h
  · omega
  · exact FormatInt_ascii _ b h
  · omega
  · rcases h with (((h | h) | h) | h) | h
    · exact FormatUint_ascii _ b h
    · omega
    · exact FormatUint_ascii _ b h
    · omega
    · exact FormatUint_ascii _ b h
  · omega
  · exact hb64 _ b h
  · omega
  · exact hb64 _ b h

/-! ## What a successful decode tells -/

theorem NewWithHash_ok (hash : List Nat) (d : Config) (h : NewWithHash hash = .ok d) :
    ∃ s0 s1 s2 s3 s4 s5 vs ws salt key,
      Split 36 hash = [s0, s1, s2, s3, s4, s5] ∧
      (s1 = str "argon2i" ∨ s1 = str "argon2id") ∧
      Sscanf s2 (str "v=%d") [Arg.int] = .ok vs ∧ vs.getD 0 0 = 13 ∧
      Sscanf s3 (str "m=%d,t=%d,p=%d") [Arg.uint32, Arg.uint32, Arg.uint8] = .ok ws ∧
      DecodeString s4 = .ok salt ∧ DecodeString s5 = .ok key ∧
      d = { Time := (ws.getD 1 0).toNat, Memory := (ws.getD 0 0).toNat,
            Parallelism := (ws.getD 2 0).toNat, SaltLength := salt.length % 2 ^ 32,
            KeyLength := key.length % 2 ^ 32, Mode := s1, Version := 13,
            Salt := some salt, Key := some key } := by
  by_cases h6 : (Split 36 hash).length = 6
  · obtain ⟨s0, s1, s2, s3, s4, s5, hs⟩ := length_six _ h6
    rw [NewWithHash_six hash s0 s1 s2 s3 s4 s5 hs] at h
    by_cases hm : s1 = str "argon2i" ∨ s1 = str "argon2id"
    · rw [if_neg (not_not.mpr hm)] at h
      cases h2 : Sscanf s2 (str "v=%d") [Arg.int] with
      | error e2 =>
        rw [h2] at h
        cases h
      | ok vs =>
        rw [h2] at h
        simp only at h
        by_cases hv : vs.getD 0 0 ≠ 13
        · rw [if_pos hv] at h
          cases h
        · rw [if_neg hv] at h
          cases h3 : Sscanf s3 (str "m=%d,t=%d,p=%d") [Arg.uint32, Arg.uint32, Arg.uint8] with
          | error e3 =>
            rw [h3] at h
            cases h
          | ok ws =>
            rw [h3] at h
            simp only at h
            cases h4 : DecodeString s4 with
            | error e4 =>
              rw [h4] at h
              cases h
            | ok salt =>
              rw [h4] at h
              simp only at h
              cases h5 : DecodeString s5 with
              | error e5 =>
                rw [h5] at h
                cases h
              | ok key =>
                rw [h5] at h
                simp only [Except.ok.injEq] at h
                have hv13 : vs.getD 0 0 = 13 := not_not.mp hv
                refine ⟨s0, s1, s2, s3, s4, s5, vs, ws, salt, key, hs, hm, h2, hv13, h3,
                  h4, h5, ?_⟩
                rw [← h, hv13]
    · rw [if_pos hm] at h
      cases h
  · unfold NewWithHash Config.decode at h
    simp only [SegmentsLength] at h
    rw [if_pos h6] at h
    cases h

/-! ## The first rune of a byte string -/

theorem first_some (s0 sz lo hi : Nat) (h : first s0 = some (sz, lo, hi)) :
    (sz = 2 ∧ 0xC2 ≤ s0 ∧ s0 ≤ 0xDF ∧ lo = 0x80 ∧ hi = 0xBF) ∨
    (sz = 3 ∧ s0 = 0xE0 ∧ lo = 0xA0 ∧ hi = 0xBF) ∨
    (sz = 3 ∧ 0xE1 ≤ s0 ∧ s0 ≤ 0xEF ∧ 0x80 ≤ lo ∧ hi ≤ 0xBF) ∨
    (sz = 4 ∧ s0 = 0xF0 ∧ lo = 0x90 ∧ hi = 0xBF) ∨
    (sz = 4 ∧ 0xF1 ≤ s0 ∧ s0 ≤ 0xF4 ∧ 0x80 ≤ lo ∧ hi ≤ 0xBF) := by
  unfold first at h
  split_ifs at h <;> simp only [Option.some.injEq, Prod.mk.injEq] at h <;>
    obtain ⟨rfl, rfl, rfl⟩ := h <;> omega

theorem DecodeRune_ascii (b : Nat) (rest : List Nat) (h : b < 128) :
    DecodeRune (b :: rest) = (b, 1) := by
  rw [DecodeRune, if_pos h]

theorem DecodeRune_high (b : Nat) (rest : List Nat) (h : 128 ≤ b) :
    128 ≤ (DecodeRune (b :: rest)).1 := by
  have hre : 128 ≤ RuneError := by decide
  rw [DecodeRune, if_neg (by omega)]
  cases hf : first b with
  | none => exact hre
  | some t =>
    obtain ⟨sz, lo, hi⟩ := t
    have hfs := first_some b sz lo hi hf
    simp only
    cases rest with
    | nil => exact hre
    | cons s1 rest1 =>
      simp only
      by_cases h1 : s1 < lo ∨ hi < s1
      · rw [if_pos h1]
        exact hre
      · rw [if_neg h1]
        by_cases h2 : sz ≤ 2
        · rw [if_pos h2]
          simp only
          omega
        · rw [if_neg h2]
          cases rest1 with
          | nil => exact hre
          | cons s2 rest2 =>
            simp only
            by_cases h3 : s2 < 0x80 ∨ 0xBF < s2
            · rw [if_pos h3]
              exact hre
            · rw [if_neg h3]
              by_cases h4 : sz ≤ 3
              · rw [if_pos h4]
                simp only
                omega
              · rw [if_neg h4]
                cases rest2 with
                | nil => exact hre
                | cons s3 rest3 =>
                  simp only
                  by_cases h5 : s3 < 0x80 ∨ 0xBF < s3
                  · rw [if_pos h5]
                    exact hre
                  · rw [if_neg h5]
                    simp only
                    omega

/-- The first rune read from a non-empty byte string: an ASCII byte is read as itself, any other
byte gives a rune that is not ASCII. -/
theorem utf8Runes_cons (b : Nat) (rest : List Nat) :
    ∃ r rs, utf8Runes (b :: rest) = r :: rs ∧ (b < 128 → r = b ∧ rs = utf8Runes rest) ∧
      (128 ≤ b → 128 ≤ r) := by
  refine ⟨(DecodeRune (b :: rest)).1, runesFrom rest ((DecodeRune (b :: rest)).2 - 1), rfl, ?_,
    DecodeRune_high b rest⟩
  intro h
  rw [DecodeRune_ascii b rest h]
  exact ⟨rfl, rfl⟩

/-! ## Literal text of a format -/

theorem doScanf_literals (lit format : List Nat) (a : List Arg) (rs : List Nat) (count : Nat)
    (hlit : ∀ c ∈ lit, c ≠ 37) (hcount : count + lit.length ≤ hugeWid) :
    doScanf (lit ++ format) a (lit ++ rs) count = doScanf format a rs (count + lit.length) := by
  induction lit generalizing count with
  | nil => rfl
  | cons c lit ih =>
    simp only [List.length_cons] at hcount
    rw [List.cons_append, List.cons_append,
      doScanf_literal c _ a c _ count (hlit c (List.mem_cons_self _ _)) (by omega),
      if_neg (by simp), ih (count + 1) (fun x hx => hlit x (List.mem_cons_of_mem _ hx)) (by omega)]
    simp only [List.length_cons]
    congr 1
    omega

/-- A byte string that departs from the literal text of the format is a format mismatch. -/
theorem doScanf_literalMismatch (lit format : List Nat) (a : List Arg) (s : List Nat)
    (count : Nat) (hlit : ∀ c ∈ lit, c ≠ 37 ∧ c < 128) (hcount : count + lit.length ≤ hugeWid)
    (h : literalMismatch lit s = true) :
    doScanf (lit ++ format) a (utf8Runes s) count = .error formatMismatch := by
  induction lit generalizing s count with
  | nil => simp [literalMismatch] at h
  | cons c lit ih =>
    cases s with
    | nil => simp [literalMismatch] at h
    | cons b s =>
      simp only [List.length_cons] at hcount
      obtain ⟨hc37, hc128⟩ := hlit c (List.mem_cons_self _ _)
      obtain ⟨r, rs, hr, hlow, hhigh⟩ := utf8Runes_cons b s
      rw [hr, List.cons_append, doScanf_literal c _ a r rs count hc37 (by omega)]
      rw [literalMismatch] at h
      by_cases hbc : b = c
      · rw [if_pos hbc] at h
        obtain ⟨hrb, hrs⟩ := hlow (by omega)
        rw [if_neg (by simp; omega), hrs]
        exact ih s (count + 1) (fun x hx => hlit x (List.mem_cons_of_mem _ hx)) (by omega) h
      · have hne : c ≠ r := by
          by_cases hb : b < 128
          · rw [(hlow hb).1]
            exact fun hh => hbc hh.symm
          · have := hhigh (by omega)
            omega
        rw [if_pos hne]

theorem endsNumber_utf8Runes (tail : List Nat) (h : endsNumber tail) :
    endsNumber (utf8Runes tail) := by
  cases tail with
  | nil => exact endsNumber_nil
  | cons b rest =>
    obtain ⟨r, rs, hr, hlow, hhigh⟩ := utf8Runes_cons b rest
    rw [hr]
    apply endsNumber_cons
    have hb := h b rest rfl
    by_cases hb128 : b < 128
    · rw [(hlow hb128).1]
      exact hb
    · have := hhigh (by omega)
      omega

/-- The version segment: text after the number is not read. -/
theorem Sscanf_version_tail (i : Int) (tail : List Nat) (h1 : -(2 ^ 63 : Int) ≤ i)
    (h2 : i < 2 ^ 63) (htail : endsNumber tail) :
    Sscanf (str "v=" ++ FormatInt i ++ tail) (str "v=%d") [Arg.int] = .ok [i] := by
  have hfmt : str "v=%d" = [118, 61] ++ [37, 100] := by decide
  have hv : str "v=" = [118, 61] := by decide
  have hascii : ∀ b ∈ str "v=" ++ FormatInt i, b < 128 := by
    intro b hb
    rcases List.mem_append.mp hb with h | h
    · rw [hv] at h
      simp only [List.mem_cons, List.mem_singleton, List.not_mem_nil, or_false] at h
      omega
    · exact FormatInt_ascii i b h
  unfold Sscanf
  rw [utf8Runes_ascii_append _ _ hascii, hfmt, hv, List.append_assoc,
    doScanf_literals [118, 61] _ _ _ 0 (by decide) (by decide),
    doScanf_verb_FormatInt [] [] i _ _ h1 h2 (endsNumber_utf8Runes tail htail) (by decide)]
  simp [doScanf]

theorem Sscanf_version_mismatch (s2 : List Nat) (h : literalMismatch (str "v=") s2 = true) :
    Sscanf s2 (str "v=%d") [Arg.int] = .error formatMismatch := by
  have hfmt : str "v=%d" = str "v=" ++ [37, 100] := by decide
  unfold Sscanf
  rw [hfmt]
  exact doScanf_literalMismatch (str "v=") _ _ s2 0 (by decide) (by decide) h

theorem Sscanf_version_short (s2 : List Nat) (h : s2 = [] ∨ s2 = str "v") :
    Sscanf s2 (str "v=%d") [Arg.int] = .error ErrUnexpectedEOF := by
  rcases h with rfl | rfl <;> decide

/-- An error of the version segment is the result of NewWithHash. -/
theorem NewWithHash_version_error (hash s0 s1 s2 s3 s4 s5 : List Nat) (e : Error)
    (hs : Split 36 hash = [s0, s1, s2, s3, s4, s5])
    (hm : s1 = str "argon2i" ∨ s1 = str "argon2id")
    (h : Sscanf s2 (str "v=%d") [Arg.int] = .error e) : NewWithHash hash = .error e := by
  rw [NewWithHash_six hash _ _ _ _ _ _ hs, if_neg (not_not.mpr hm), h]

theorem paramsFormat_eq :
    str "m=%d,t=%d,p=%d" = str "m=" ++ (37 :: 100 :: (str ",t=" ++ (37 :: 100 :: (str ",p=" ++
      [37, 100])))) := by
  decide

theorem Sscanf_params_mismatch_m (s3 : List Nat) (h : literalMismatch (str "m=") s3 = true) :
    Sscanf s3 (str "m=%d,t=%d,p=%d") [Arg.uint32, Arg.uint32, Arg.uint8] =
      .error formatMismatch := by
  unfold Sscanf
  rw [paramsFormat_eq]
  exact doScanf_literalMismatch (str "m=") _ _ s3 0 (by decide) (by decide) h

theorem Sscanf_params_mismatch_t (m : Nat) (tail : List Nat) (hm : m < 2 ^ 32)
    (htail : endsNumber tail) (h : literalMismatch (str ",t=") tail = true) :
    Sscanf (str "m=" ++ FormatUint m ++ tail) (str "m=%d,t=%d,p=%d")
        [Arg.uint32, Arg.uint32, Arg.uint8] = .error formatMismatch := by
  have h1 : str "m=" = [109, 61] := by decide
  have hascii : ∀ b ∈ str "m=" ++ FormatUint m, b < 128 := by
    intro b hb
    rcases List.mem_append.mp hb with h | h
    · rw [h1] at h
      simp only [List.mem_cons, List.mem_singleton, List.not_mem_nil, or_false] at h
      omega
    · exact FormatUint_ascii m b h
  have hlm := FormatUint_length_64 m (by omega)
  have hhw : hugeWid = 1073741824 := by decide
  unfold Sscanf
  rw [utf8Runes_ascii_append _ _ hascii, paramsFormat_eq, List.append_assoc,
    doScanf_literals (str "m=") _ _ _ 0 (by decide) (by decide),
    doScanf_verb_FormatUint _ Arg.uint32 32 _ m _ _ rfl hm (by decide)
      (endsNumber_utf8Runes tail htail) (by decide),
    doScanf_literalMismatch (str ",t=") _ _ tail _ (by decide)
      (by
        have : (str ",t=").length = 3 := by decide
        have : (str "m=").length = 2 := by decide
        omega) h]

theorem Sscanf_params_mismatch_p (m t : Nat) (tail : List Nat) (hm : m < 2 ^ 32)
    (ht : t < 2 ^ 32) (htail : endsNumber tail) (h : literalMismatch (str ",p=") tail = true) :
    Sscanf (str "m=" ++ FormatUint m ++ str ",t=" ++ FormatUint t ++ tail)
        (str "m=%d,t=%d,p=%d") [Arg.uint32, Arg.uint32, Arg.uint8] = .error formatMismatch := by
  have h1 : str "m=" = [109, 61] := by decide
  have h2 : str ",t=" = [44, 116, 61] := by decide
  have hascii : ∀ b ∈ str "m=" ++ FormatUint m ++ str ",t=" ++ FormatUint t, b < 128 := by
    intro b hb
    rw [h1, h2] at hb
    simp only [List.mem_append, List.mem_cons, List.mem_singleton, List.not_mem_nil,
      or_false] at hb
    rcases hb with ((h | h) | h) | h
    · omega
    · exact FormatUint_ascii m b h
    · omega
    · exact FormatUint_ascii t b h
  have hlm := FormatUint_length_64 m (by omega)
  have hlt := FormatUint_length_64 t (by omega)
  have hhw : hugeWid = 1073741824 := by decide
  have hl1 : (str "m=").length = 2 := by decide
  have hl2 : (str ",t=").length = 3 := by decide
  have hl3 : (str ",p=").length = 3 := by decide
  unfold Sscanf
  rw [utf8Runes_ascii_append _ _ hascii, paramsFormat_eq]
  simp only [List.append_assoc]
  rw [doScanf_literals (str "m=") _ _ _ 0 (by decide) (by decide),
    doScanf_verb_FormatUint _ Arg.uint32 32 _ m _ _ rfl hm (by decide)
      (by rw [h2]; exact endsNumber_cons 44 _ (by decide)) (by decide),
    doScanf_literals (str ",t=") _ _ _ _ (by decide) (by omega),
    doScanf_verb_FormatUint _ Arg.uint32 32 _ t _ _ rfl ht (by decide)
      (endsNumber_utf8Runes tail htail) (by omega),
    doScanf_literalMismatch (str ",p=") _ _ tail _ (by decide) (by omega) h]

/-- An error of the parameter segment, after a version segment that reads 13, is the result of
NewWithHash. -/
theorem NewWithHash_params_error (hash s0 s1 s3 s4 s5 : List Nat) (e : Error)
    (hs : Split 36 hash = [s0, s1, str "v=13", s3, s4, s5])
    (hm : s1 = str "argon2i" ∨ s1 = str "argon2id")
    (h : Sscanf s3 (str "m=%d,t=%d,p=%d") [Arg.uint32, Arg.uint32, Arg.uint8] = .error e) :
    NewWithHash hash = .error e := by
  have hv : Sscanf (str "v=13") (str "v=%d") [Arg.int] = .ok [13] := by decide
  rw [NewWithHash_six hash _ _ _ _ _ _ hs, if_neg (not_not.mpr hm), hv]
  simp only [List.getD_cons_zero, ne_eq, not_true_eq_false, if_false, h]

theorem EncodeToString_length_mod (bs : List Nat) : (EncodeToString bs).length % 4 ≠ 1 := by
  rw [EncodeToString_length]
  omega

/-! ## The claims -/

/-- C1: a Config with a supported Mode, Version 13 and Salt and Key present (any bytes, any
length) encodes without error, and NewWithHash of the encoded string succeeds with the same
Mode, Version, Memory, Time, Parallelism, Salt and Key. -/
theorem encode_NewWithHash_round_trip (c : Config) (salt key : List Nat)
    (hmode : c.Mode = str "argon2i" ∨ c.Mode = str "argon2id") (hver : c.Version = 13)
    (hs : c.Salt = some salt) (hk : c.Key = some key) (hsb : isBytes salt) (hkb : isBytes key)
    (ht : c.Time < 2 ^ 32) (hm : c.Memory < 2 ^ 32) (hp : c.Parallelism < 2 ^ 8) :
    ∃ hash d, c.encode = .ok hash ∧ NewWithHash hash = .ok d ∧ d.Mode = c.Mode ∧
      d.Version = c.Version ∧ d.Memory = c.Memory ∧ d.Time = c.Time ∧
      d.Parallelism = c.Parallelism ∧ d.Salt = some salt ∧ d.Key = some key := by
  obtain ⟨hash, henc, hdec⟩ := NewWithHash_encode c salt key hmode hver hs hk hsb hkb ht hm hp
  exact ⟨hash, _, henc, hdec, rfl, hver.symm, rfl, rfl, rfl, rfl, rfl⟩

/-- C1, a closed instance: an argon2i Config with a salt of four bytes and a key of three. -/
theorem encode_NewWithHash_round_trip_witness :
    ∃ hash d,
      Config.encode
          { Time := 3, Memory := 4096, Parallelism := 1, SaltLength := 0, KeyLength := 0,
            Mode := str "argon2i", Version := 13, Salt := some [1, 2, 3, 4],
            Key := some [255, 0, 16] } = .ok hash ∧
        NewWithHash hash = .ok d ∧ d.Mode = str "argon2i" ∧ d.Version = 13 ∧ d.Memory = 4096 ∧
        d.Time = 3 ∧ d.Parallelism = 1 ∧ d.Salt = some [1, 2, 3, 4] ∧
        d.Key = some [255, 0, 16] :=
  encode_NewWithHash_round_trip
    { Time := 3, Memory := 4096, Parallelism := 1, SaltLength := 0, KeyLength := 0,
      Mode := str "argon2i", Version := 13, Salt := some [1, 2, 3, 4],
      Key := some [255, 0, 16] }
    [1, 2, 3, 4] [255, 0, 16] (Or.inl rfl) rfl rfl rfl (by decide) (by decide) (by decide)
    (by decide) (by decide)

/-- C2: with key-derivation functions that return exactly keyLen bytes, for a Config with a
supported Mode and Version 13, a hash returned by CreateHash for a password decodes with
NewWithHash, and Match of the decoded Config on the same password is true with no error. -/
theorem CreateHash_NewWithHash_Match {σ : Type} (argon2 : KDF) (rand : Rand σ) (c : Config)
    (p : List Nat) (st : σ) (h : List Nat)
    (hlen : ∀ pw s t m th n,
      (argon2.IDKey pw s t m th n).length = n ∧ (argon2.Key pw s t m th n).length = n)
    (hbytes : ∀ pw s t m th n,
      isBytes (argon2.IDKey pw s t m th n) ∧ isBytes (argon2.Key pw s t m th n))
    (hrand : ∀ st buf, isBytes (rand.Read st buf).1.1)
    (hc : c.wellTyped)
    (hmode : c.Mode = str "argon2i" ∨ c.Mode = str "argon2id") (hver : c.Version = 13)
    (hcreate : (c.CreateHash argon2 rand p st).1 = .ok h) :
    ∃ d, NewWithHash h = .ok d ∧ d.Match argon2 p = (true, none) := by
  obtain ⟨ht, hm, hp, -, hkl, -, -, -, hsalt, -⟩ := hc
  unfold Config.CreateHash at hcreate
  cases hS : c.Salt with
  | none =>
    rw [hS] at hcreate
    simp only at hcreate
    rcases hg : c.generateSalt rand st with ⟨⟨salt, err⟩, st1⟩
    rw [hg] at hcreate
    simp only at hcreate
    cases err with
    | some e => simp at hcreate
    | none =>
      simp only at hcreate
      have hsb : isBytes salt := by
        have := hrand st (List.replicate c.SaltLength 0)
        unfold Config.generateSalt at hg
        rw [hg] at this
        exact this
      exact derived_hash_matches argon2
        { c with Salt := some salt,
                 Key := some (Config.generateKey { c with Salt := some salt } argon2 p) }
        p salt h hlen hbytes hmode hver rfl rfl hsb ht hm hp hkl hcreate
  | some salt =>
    rw [hS] at hcreate
    simp only at hcreate
    exact derived_hash_matches argon2
      { c with Salt := some salt, Key := some (c.generateKey argon2 p) }
      p salt h hlen hbytes hmode hver rfl
      (by
        show some (c.generateKey argon2 p) = some (Config.generateKey _ argon2 p)
        unfold Config.generateKey
        simp only [hS])
      (hsalt salt hS) ht hm hp hkl hcreate

/-- C2, a closed instance: the default Config, the stand-in derivation function and random
source, and the password "foo". -/
theorem CreateHash_NewWithHash_Match_witness :
    (Default.CreateHash toyKDF toyRand (str "foo") 7).1 =
        .ok (str ("$argon2id$v=13$m=65536,t=1,p=2$BwcHBwcHBwcHBwcHBwcHBw$" ++
          "uLm6u7y9vr/AwcLDxMXGx8jJysvMzc7P0NHS09TV1tc")) ∧
      ∃ d, NewWithHash (str ("$argon2id$v=13$m=65536,t=1,p=2$BwcHBwcHBwcHBwcHBwcHBw$" ++
          "uLm6u7y9vr/AwcLDxMXGx8jJysvMzc7P0NHS09TV1tc")) = .ok d ∧
        d.Match toyKDF (str "foo") = (true, none) :=
  ⟨by decide,
    CreateHash_NewWithHash_Match toyKDF toyRand Default (str "foo") 7 _
      (fun pw s t m th n => ⟨toyKey_length 1 pw s t m th n, toyKey_length 2 pw s t m th n⟩)
      (fun pw s t m th n => ⟨toyKey_bytes 1 pw s t m th n, toyKey_bytes 2 pw s t m th n⟩)
      toyRand_bytes Default_wellTyped (Or.inr (by decide)) (by decide) (by decide)⟩

/-- C4: on a Config with Salt and Key present, encode returns exactly the canonical string of
the spec, dollar sign, Mode, "$v=", decimal Version, "$m=", decimal Memory, ",t=", decimal
Time, ",p=", decimal Parallelism, dollar sign, base64 of Salt, dollar sign, base64 of Key,
where the base64 text is made of characters of the standard alphabet only (so it holds no
padding character) and has the unpadded length; the string is ASCII whenever Mode is, and with
a supported Mode it is ASCII, holds exactly five dollar signs and splits into six segments, the
first of them empty. -/
theorem encode_exact_format (c : Config) (salt key : List Nat) (hs : c.Salt = some salt)
    (hk : c.Key = some key) :
    c.encode = .ok (canonicalHash c.Mode c.Version c.Memory c.Time c.Parallelism salt key) ∧
      ((∀ ch ∈ EncodeToString salt ++ EncodeToString key, ch ∈ encodeStd ∧ ch ≠ 61) ∧
        (EncodeToString salt).length = (4 * salt.length + 2) / 3 ∧
        (EncodeToString key).length = (4 * key.length + 2) / 3) ∧
      ((∀ b ∈ c.Mode, b < 128) →
        ∀ b ∈ canonicalHash c.Mode c.Version c.Memory c.Time c.Parallelism salt key,
          b < 128) ∧
      ((c.Mode = str "argon2i" ∨ c.Mode = str "argon2id") →
        (canonicalHash c.Mode c.Version c.Memory c.Time c.Parallelism salt key).count 36 = 5 ∧
        (∃ s1 s2 s3 s4 s5,
          Split 36 (canonicalHash c.Mode c.Version c.Memory c.Time c.Parallelism salt key) =
            [[], s1, s2, s3, s4, s5]) ∧
        ∀ b ∈ canonicalHash c.Mode c.Version c.Memory c.Time c.Parallelism salt key,
          b < 128) := by
  have h61 : ∀ ch ∈ encodeStd, ch ≠ 61 := by decide
  refine ⟨?_, ⟨?_, EncodeToString_length salt, EncodeToString_length key⟩,
    canonicalHash_ascii _ _ _ _ _ _ _, ?_⟩
  · rw [encode_eq c salt key hs hk, canonicalHash_eq]
    simp only [List.append_assoc]
  · intro ch hch
    rcases List.mem_append.mp hch with h | h
    · exact ⟨EncodeToString_mem _ ch h, h61 ch (EncodeToString_mem _ ch h)⟩
    · exact ⟨EncodeToString_mem _ ch h, h61 ch (EncodeToString_mem _ ch h)⟩
  · intro hmode
    have hsplit := Split_encoded c.Mode (FormatInt c.Version)
      (FormatUint c.Memory ++ str ",t=" ++ FormatUint c.Time ++ str ",p=" ++
        FormatUint c.Parallelism)
      (EncodeToString salt) (EncodeToString key) (supported_mode_chars _ hmode).1
      (FormatInt_no_dollar _) (params_no_dollar _ _ _) (EncodeToString_no_dollar _)
      (EncodeToString_no_dollar _)
    rw [← canonicalHash_eq] at hsplit
    refine ⟨?_, ⟨_, _, _, _, _, hsplit⟩, canonicalHash_ascii _ _ _ _ _ _ _
      (supported_mode_chars _ hmode).2⟩
    have hl := Split_length 36
      (canonicalHash c.Mode c.Version c.Memory c.Time c.Parallelism salt key)
    rw [hsplit] at hl
    simp only [List.length_cons, List.length_nil] at hl
    omega

/-- C4, a closed instance: the string encode writes for a small argon2i Config. -/
theorem encode_exact_format_witness :
    Config.encode
        { Time := 3, Memory := 4096, Parallelism := 1, SaltLength := 0, KeyLength := 0,
          Mode := str "argon2i", Version := 13, Salt := some [1, 2, 3, 4],
          Key := some [255, 0, 16] } =
      .ok (str "$argon2i$v=13$m=4096,t=3,p=1$AQIDBA$/wAQ") := by
  have h := (encode_exact_format
    { Time := 3, Memory := 4096, Parallelism := 1, SaltLength := 0, KeyLength := 0,
      Mode := str "argon2i", Version := 13, Salt := some [1, 2, 3, 4],
      Key := some [255, 0, 16] } [1, 2, 3, 4] [255, 0, 16] rfl rfl).1
  rw [h]
  decide

/-- C5: NewWithHash fails with ErrInvalidHash exactly when splitting the input on the dollar
sign does not give six segments, that is, when the input does not hold exactly five dollar
signs; a failure of any later step of decode is another error. -/
theorem NewWithHash_ErrInvalidHash_iff (hash : List Nat) :
    (NewWithHash hash = .error ErrInvalidHash ↔ (Split 36 hash).length ≠ 6) ∧
      ((Split 36 hash).length ≠ 6 ↔ hash.count 36 ≠ 5) := by
  constructor
  · constructor
    · intro h h6
      obtain ⟨s0, s1, s2, s3, s4, s5, hs⟩ := length_six _ h6
      rcases NewWithHash_six_error hash s0 s1 s2 s3 s4 s5 hs _ h with ⟨h1, _⟩ | ⟨_, h1 | h1⟩
      · cases h1
      · cases h1
      · exact h1
    · intro h
      unfold NewWithHash Config.decode
      simp only [SegmentsLength]
      rw [if_pos h]
  · rw [Split_length]
    omega

/-- C6: on an input of six segments NewWithHash fails with ErrInvalidMode exactly when segment 1
is neither "argon2i" nor "argon2id", whatever the other segments hold. -/
theorem NewWithHash_ErrInvalidMode_iff (hash : List Nat) (h6 : (Split 36 hash).length = 6) :
    NewWithHash hash = .error ErrInvalidMode ↔
      ((Split 36 hash).getD 1 [] ≠ str "argon2i" ∧ (Split 36 hash).getD 1 [] ≠ str "argon2id") := by
  obtain ⟨s0, s1, s2, s3, s4, s5, hs⟩ := length_six _ h6
  constructor
  · intro h
    rcases NewWithHash_six_error hash s0 s1 s2 s3 s4 s5 hs _ h with ⟨_, h1⟩ | ⟨_, h1 | h1⟩
    · rw [hs]
      simp only [List.getD_cons_succ, List.getD_cons_zero]
      exact ⟨fun h2 => h1 (Or.inl h2), fun h2 => h1 (Or.inr h2)⟩
    · cases h1
    · exact absurd h1 (by simp [isLibraryError])
  · rw [hs]
    simp only [List.getD_cons_succ, List.getD_cons_zero]
    rintro ⟨h1, h2⟩
    rw [NewWithHash_six hash s0 s1 s2 s3 s4 s5 hs, if_pos (by simp [h1, h2])]

/-- C6, a closed instance: the tag "unknown" of the repository's test is rejected with
ErrInvalidMode although the version segment is malformed too. -/
theorem NewWithHash_ErrInvalidMode_iff_witness :
    NewWithHash (str "$unknown$version=13$m=6528,t=1,p=2$dI54$Kq26") = .error ErrInvalidMode :=
  (NewWithHash_ErrInvalidMode_iff (str "$unknown$version=13$m=6528,t=1,p=2$dI54$Kq26")
    (by decide)).mpr (by decide)

/-- C7, as amended: on an input of six segments with a supported variant tag whose segment 2 is
"v=" followed by the decimal text of an integer n of 64 bits other than 13, NewWithHash fails
with ErrInvalidVersion, whatever the later segments hold; and a Config that NewWithHash returns
has Version 13. -/
theorem NewWithHash_ErrInvalidVersion (hash s0 s1 s3 s4 s5 : List Nat) (n : Int)
    (hs : Split 36 hash = [s0, s1, str "v=" ++ decimal n, s3, s4, s5])
    (hm : s1 = str "argon2i" ∨ s1 = str "argon2id")
    (hn : n ≠ 13) (h1 : -(2 ^ 63 : Int) ≤ n) (h2 : n < 2 ^ 63) :
    NewWithHash hash = .error ErrInvalidVersion ∧
      ∀ hash1 d, NewWithHash hash1 = .ok d → d.Version = 13 := by
  constructor
  · rw [NewWithHash_six hash _ _ _ _ _ _ hs, if_neg (not_not.mpr hm), ← FormatInt_eq_decimal,
      Sscanf_version n h1 h2]
    simp only [List.getD_cons_zero]
    rw [if_pos hn]
  · intro hash1 d hd
    obtain ⟨_, _, _, _, _, _, _, _, _, _, _, _, _, _, _, _, _, rfl⟩ := NewWithHash_ok hash1 d hd
    rfl

/-- C7, a closed instance: the version 10 of the repository's test. -/
theorem NewWithHash_ErrInvalidVersion_witness :
    NewWithHash (str "$argon2id$v=10$m=6528,t=1,p=2$dI54$Kq26") = .error ErrInvalidVersion :=
  (NewWithHash_ErrInvalidVersion (str "$argon2id$v=10$m=6528,t=1,p=2$dI54$Kq26") []
    (str "argon2id") (str "m=6528,t=1,p=2") (str "dI54") (str "Kq26") 10
    (by decide) (Or.inr rfl) (by decide) (by decide) (by decide)).1

/-- C7 as stated fails: segment 2 is "v=" followed by the decimal text of 2^63, an integer other
than 13, and NewWithHash fails with the range error of strconv.ParseInt, not with
ErrInvalidVersion. -/
theorem NewWithHash_version_out_of_range :
    str "v=9223372036854775808" = str "v=" ++ decimal (2 ^ 63) ∧ (2 ^ 63 : Int) ≠ 13 ∧
      Split 36 (str "$argon2id$v=9223372036854775808$m=6528,t=1,p=2$dI54$Kq26") =
        [[], str "argon2id", str "v=9223372036854775808", str "m=6528,t=1,p=2", str "dI54",
         str "Kq26"] ∧
      NewWithHash (str "$argon2id$v=9223372036854775808$m=6528,t=1,p=2$dI54$Kq26") =
        .error (NumError (str "ParseInt") (str "9223372036854775808") true) ∧
      NewWithHash (str "$argon2id$v=9223372036854775808$m=6528,t=1,p=2$dI54$Kq26") ≠
        .error ErrInvalidVersion := by
  decide

/-- C8, as amended: on an input of six segments with a supported variant tag, NewWithHash fails
with the format-mismatch error when segment 2 departs from the literal text "v=" (a byte of the
segment stands where "v=" has another one), and with io.ErrUnexpectedEOF when segment 2 is
empty or just "v"; when segment 2 is "v=", the decimal text of an integer of 64 bits and then
any text that does not start with a digit, the version read is that integer. -/
theorem NewWithHash_version_grammar (hash s0 s1 s2 s3 s4 s5 : List Nat)
    (hs : Split 36 hash = [s0, s1, s2, s3, s4, s5])
    (hm : s1 = str "argon2i" ∨ s1 = str "argon2id") :
    (literalMismatch (str "v=") s2 = true → NewWithHash hash = .error formatMismatch) ∧
      (s2 = [] ∨ s2 = str "v" → NewWithHash hash = .error ErrUnexpectedEOF) ∧
      ∀ (n : Int) (tail : List Nat), -(2 ^ 63 : Int) ≤ n → n < 2 ^ 63 → endsNumber tail →
        s2 = str "v=" ++ decimal n ++ tail → Sscanf s2 (str "v=%d") [Arg.int] = .ok [n] := by
  refine ⟨fun h => ?_, fun h => ?_, fun n tail h1 h2 ht hs2 => ?_⟩
  · exact NewWithHash_version_error hash _ _ _ _ _ _ _ hs hm (Sscanf_version_mismatch s2 h)
  · exact NewWithHash_version_error hash _ _ _ _ _ _ _ hs hm (Sscanf_version_short s2 h)
  · rw [hs2, ← FormatInt_eq_decimal]
    exact Sscanf_version_tail n tail h1 h2 ht

/-- C8, a closed instance: the segment "version=13" of the repository's test departs from "v="
at its second byte. -/
theorem NewWithHash_version_grammar_witness :
    NewWithHash (str "$argon2id$version=13$m=6528,t=1,p=2$dI54$Kq26") = .error formatMismatch :=
  (NewWithHash_version_grammar (str "$argon2id$version=13$m=6528,t=1,p=2$dI54$Kq26") []
    (str "argon2id") (str "version=13") (str "m=6528,t=1,p=2") (str "dI54") (str "Kq26")
    (by decide) (Or.inr rfl)).1 (by decide)

/-- C8 as stated fails: a version segment with text after the number, or with a blank before
it, is accepted, and a version segment that stops early or holds no number fails with another
error than the format mismatch. -/
theorem NewWithHash_version_not_strict :
    NewWithHash (str "$argon2id$v=13abc$m=6528,t=1,p=2$dI54$Kq26") =
        .ok { Time := 1, Memory := 6528, Parallelism := 2, SaltLength := 3, KeyLength := 3,
              Mode := str "argon2id", Version := 13, Salt := some [116, 142, 120],
              Key := some [42, 173, 186] } ∧
      NewWithHash (str "$argon2id$v= 13$m=6528,t=1,p=2$dI54$Kq26") =
        .ok { Time := 1, Memory := 6528, Parallelism := 2, SaltLength := 3, KeyLength := 3,
              Mode := str "argon2id", Version := 13, Salt := some [116, 142, 120],
              Key := some [42, 173, 186] } ∧
      NewWithHash (str "$argon2id$v$m=6528,t=1,p=2$dI54$Kq26") = .error ErrUnexpectedEOF ∧
      NewWithHash (str "$argon2id$v=$m=6528,t=1,p=2$dI54$Kq26") = .error EOF ∧
      NewWithHash (str "$argon2id$v=x$m=6528,t=1,p=2$dI54$Kq26") =
        .error (scanError (str "expected integer")) := by
  decide

/-- C9, as amended: on an input of six segments with a supported variant tag and segment 2
equal to "v=13", NewWithHash fails with the format-mismatch error when segment 3 departs from the
literal text of the pattern: from "m=" at its start, from ",t=" after "m=" and the decimal text
of a number below 2^32, or from ",p=" after "m=", a number, ",t=" and a second number below 2^32
(the text after a number not starting with a digit); and when segment 3 is exactly
m=M,t=T,p=P with M and T below 2^32 and P below 2^8 in decimal, the Config that NewWithHash
returns has Memory M, Time T and Parallelism P. -/
theorem NewWithHash_params_grammar (hash s0 s1 s3 s4 s5 : List Nat)
    (hs : Split 36 hash = [s0, s1, str "v=13", s3, s4, s5])
    (hm : s1 = str "argon2i" ∨ s1 = str "argon2id") :
    (literalMismatch (str "m=") s3 = true → NewWithHash hash = .error formatMismatch) ∧
      (∀ (m : Nat) (tail : List Nat), m < 2 ^ 32 → endsNumber tail →
        literalMismatch (str ",t=") tail = true → s3 = str "m=" ++ decimal m ++ tail →
        NewWithHash hash = .error formatMismatch) ∧
      (∀ (m t : Nat) (tail : List Nat), m < 2 ^ 32 → t < 2 ^ 32 → endsNumber tail →
        literalMismatch (str ",p=") tail = true →
        s3 = str "m=" ++ decimal m ++ str ",t=" ++ decimal t ++ tail →
        NewWithHash hash = .error formatMismatch) ∧
      ∀ (m t p : Nat) (d : Config), m < 2 ^ 32 → t < 2 ^ 32 → p < 2 ^ 8 →
        s3 = str "m=" ++ decimal m ++ str ",t=" ++ decimal t ++ str ",p=" ++ decimal p →
        NewWithHash hash = .ok d → d.Memory = m ∧ d.Time = t ∧ d.Parallelism = p := by
  refine ⟨fun h => ?_, fun m tail hm32 ht h hs3 => ?_, fun m t tail hm32 ht32 ht h hs3 => ?_,
    fun m t p d hm32 ht32 hp8 hs3 hd => ?_⟩
  · exact NewWithHash_params_error hash _ _ _ _ _ _ hs hm (Sscanf_params_mismatch_m s3 h)
  · rw [← FormatUint_eq_decimal] at hs3
    exact NewWithHash_params_error hash _ _ _ _ _ _ hs hm
      (hs3 ▸ Sscanf_params_mismatch_t m tail hm32 ht h)
  · rw [← FormatUint_eq_decimal, ← FormatUint_eq_decimal] at hs3
    exact NewWithHash_params_error hash _ _ _ _ _ _ hs hm
      (hs3 ▸ Sscanf_params_mismatch_p m t tail hm32 ht32 ht h)
  · rw [← FormatUint_eq_decimal, ← FormatUint_eq_decimal, ← FormatUint_eq_decimal] at hs3
    obtain ⟨t0, t1, t2, t3, t4, t5, vs, ws, salt, key, hs', -, -, -, hws, -, -, rfl⟩ :=
      NewWithHash_ok hash d hd
    rw [hs] at hs'
    simp only [List.cons.injEq, and_true] at hs'
    obtain ⟨-, -, -, h3, -, -⟩ := hs'
    rw [← h3, hs3, Sscanf_params m t p hm32 ht32 hp8] at hws
    simp only [Except.ok.injEq] at hws
    subst hws
    simp

/-- C9, a closed instance: the segment "t=1,p=2" of the repository's test, which lacks the
memory field, departs from "m=" at its first byte. -/
theorem NewWithHash_params_grammar_witness :
    NewWithHash (str "$argon2id$v=13$t=1,p=2$dI54$Kq26") = .error formatMismatch :=
  (NewWithHash_params_grammar (str "$argon2id$v=13$t=1,p=2$dI54$Kq26") []
    (str "argon2id") (str "t=1,p=2") (str "dI54") (str "Kq26")
    (by decide) (Or.inr rfl)).1 (by decide)

/-- C9 as stated fails: a parameter segment with text after the last number, or with a blank
before a number, is accepted; a parameter segment that stops early or holds no number where one
must start fails with another error than the format mismatch; and a segment of the exact form
whose number does not fit the field gives no Config. -/
theorem NewWithHash_params_not_strict :
    NewWithHash (str "$argon2id$v=13$m=6528,t=1,p=2abc$dI54$Kq26") =
        .ok { Time := 1, Memory := 6528, Parallelism := 2, SaltLength := 3, KeyLength := 3,
              Mode := str "argon2id", Version := 13, Salt := some [116, 142, 120],
              Key := some [42, 173, 186] } ∧
      NewWithHash (str "$argon2id$v=13$m= 6528,t= 1,p= 2$dI54$Kq26") =
        .ok { Time := 1, Memory := 6528, Parallelism := 2, SaltLength := 3, KeyLength := 3,
              Mode := str "argon2id", Version := 13, Salt := some [116, 142, 120],
              Key := some [42, 173, 186] } ∧
      NewWithHash (str "$argon2id$v=13$m=6528$dI54$Kq26") = .error ErrUnexpectedEOF ∧
      NewWithHash (str "$argon2id$v=13$m=6528,t=$dI54$Kq26") = .error EOF ∧
      NewWithHash (str "$argon2id$v=13$m=x,t=1,p=2$dI54$Kq26") =
        .error (scanError (str "expected integer")) ∧
      NewWithHash (str "$argon2id$v=13$m=4294967296,t=1,p=2$dI54$Kq26") =
        .error (scanError (str "unsigned integer overflow on token 4294967296")) := by
  decide

/-- C10, as amended: when NewWithHash succeeds, segment 4 without its CR and LF bytes is exactly
the unpadded standard base64 encoding of the returned Salt, and segment 5 without its CR and LF
bytes that of the returned Key; and an input of six segments whose variant tag, version segment
and parameter segment are accepted, but whose salt or key segment without CR and LF is not the
unpadded standard base64 encoding of any byte string, is rejected with a
base64.CorruptInputError. -/
theorem NewWithHash_canonical_base64 (hash : List Nat) :
    (∀ d, NewWithHash hash = .ok d →
      ∃ s0 s1 s2 s3 s4 s5 salt key, Split 36 hash = [s0, s1, s2, s3, s4, s5] ∧
        d.Salt = some salt ∧ d.Key = some key ∧ isBytes salt ∧ isBytes key ∧
        stripNewlines s4 = EncodeToString salt ∧ stripNewlines s5 = EncodeToString key) ∧
      ∀ s0 s1 s2 s3 s4 s5 ws, Split 36 hash = [s0, s1, s2, s3, s4, s5] →
        (s1 = str "argon2i" ∨ s1 = str "argon2id") →
        Sscanf s2 (str "v=%d") [Arg.int] = .ok [13] →
        Sscanf s3 (str "m=%d,t=%d,p=%d") [Arg.uint32, Arg.uint32, Arg.uint8] = .ok ws →
        ((¬ ∃ salt, isBytes salt ∧ stripNewlines s4 = EncodeToString salt) ∨
          ¬ ∃ key, isBytes key ∧ stripNewlines s5 = EncodeToString key) →
        ∃ off, NewWithHash hash = .error (CorruptInputError off) := by
  constructor
  · intro d hd
    obtain ⟨s0, s1, s2, s3, s4, s5, vs, ws, salt, key, hs, -, -, -, -, h4, h5, rfl⟩ :=
      NewWithHash_ok hash d hd
    have hsalt := DecodeString_sound s4 salt h4
    have hkey := DecodeString_sound s5 key h5
    exact ⟨s0, s1, s2, s3, s4, s5, salt, key, hs, rfl, rfl, hsalt.2, hkey.2, hsalt.1, hkey.1⟩
  · intro s0 s1 s2 s3 s4 s5 ws hs hm hv hp hbad
    rw [NewWithHash_six hash _ _ _ _ _ _ hs, if_neg (not_not.mpr hm), hv]
    simp only [List.getD_cons_zero, ne_eq, not_true_eq_false, if_false, hp]
    cases h4 : DecodeString s4 with
    | error e4 =>
      obtain ⟨off, rfl⟩ := DecodeString_error s4 e4 h4
      exact ⟨off, rfl⟩
    | ok salt =>
      have hsalt := DecodeString_sound s4 salt h4
      cases h5 : DecodeString s5 with
      | error e5 =>
        obtain ⟨off, rfl⟩ := DecodeString_error s5 e5 h5
        exact ⟨off, rfl⟩
      | ok key =>
        have hkey := DecodeString_sound s5 key h5
        rcases hbad with hbad | hbad
        · exact absurd ⟨salt, hsalt.2, hsalt.1⟩ hbad
        · exact absurd ⟨key, hkey.2, hkey.1⟩ hbad

/-- C10, a closed instance: a salt segment of five characters is the encoding of no byte string
and is rejected as corrupt input. -/
theorem NewWithHash_canonical_base64_witness :
    ∃ off, NewWithHash (str "$argon2id$v=13$m=6528,t=1,p=2$dI54H$Kq26") =
      .error (CorruptInputError off) :=
  (NewWithHash_canonical_base64 (str "$argon2id$v=13$m=6528,t=1,p=2$dI54H$Kq26")).2 []
    (str "argon2id") (str "v=13") (str "m=6528,t=1,p=2") (str "dI54H") (str "Kq26")
    [6528, 1, 2] (by decide) (Or.inr rfl) (by decide) (by decide)
    (Or.inl (fun ⟨salt, _, h⟩ =>
      EncodeToString_length_mod salt (by rw [← h]; decide)))

/-- C10 as stated fails: the salt segment "AA", LF, "AA" is accepted and gives the salt of three
zero bytes, whose unpadded standard base64 encoding is "AAAA", not the segment. -/
theorem NewWithHash_salt_with_newline :
    NewWithHash (str "$argon2id$v=13$m=6528,t=1,p=2$AA" ++ [10] ++ str "AA$Kq26") =
        .ok { Time := 1, Memory := 6528, Parallelism := 2, SaltLength := 3, KeyLength := 3,
              Mode := str "argon2id", Version := 13, Salt := some [0, 0, 0],
              Key := some [42, 173, 186] } ∧
      (Split 36 (str "$argon2id$v=13$m=6528,t=1,p=2$AA" ++ [10] ++ str "AA$Kq26")).getD 4 [] =
        [65, 65, 10, 65, 65] ∧
      EncodeToString [0, 0, 0] = [65, 65, 65, 65] ∧
      (Split 36 (str "$argon2id$v=13$m=6528,t=1,p=2$AA" ++ [10] ++ str "AA$Kq26")).getD 4 [] ≠
        EncodeToString [0, 0, 0] := by
  decide

/-! ## Decode reads segments 1 to 5 only -/

theorem NewWithHash_of_Split_tail (h1 h2 : List Nat) (a b : List Nat) (tail : List (List Nat))
    (hs1 : Split 36 h1 = a :: tail) (hs2 : Split 36 h2 = b :: tail) :
    NewWithHash h1 = NewWithHash h2 := by
  unfold NewWithHash Config.decode
  simp only [hs1, hs2, List.length_cons, List.getD_cons_succ]

/-- C11, as amended: NewWithHash does not read the text before the first dollar sign: with any
text free of dollar signs put in front of a string that begins with a dollar sign the result is
the same; and a string of six segments that begins with a dollar sign, once its leading dollar
sign is removed, is rejected with ErrInvalidHash. -/
theorem NewWithHash_segment0_not_read (pre rest : List Nat) (hpre : 36 ∉ pre) :
    NewWithHash (pre ++ 36 :: rest) = NewWithHash (36 :: rest) ∧
      ((Split 36 (36 :: rest)).length = 6 → NewWithHash rest = .error ErrInvalidHash) := by
  have h0 : Split 36 (36 :: rest) = [] :: Split 36 rest := Split_append_sep 36 [] rest (by simp)
  constructor
  · exact NewWithHash_of_Split_tail _ _ pre [] (Split 36 rest)
      (Split_append_sep 36 pre rest hpre) h0
  · intro h6
    rw [h0] at h6
    simp only [List.length_cons] at h6
    unfold NewWithHash Config.decode
    simp only [SegmentsLength]
    rw [if_pos (by omega)]

/-- C11, a closed instance: the hash of the repository's test without its leading dollar sign is
rejected with ErrInvalidHash, and with "x" in front of the dollar sign it decodes as without. -/
theorem NewWithHash_segment0_not_read_witness :
    NewWithHash ([120] ++ 36 :: str "argon2id$v=13$m=6528,t=1,p=2$dI54$Kq26") =
        NewWithHash (36 :: str "argon2id$v=13$m=6528,t=1,p=2$dI54$Kq26") ∧
      NewWithHash (str "argon2id$v=13$m=6528,t=1,p=2$dI54$Kq26") = .error ErrInvalidHash :=
  ⟨(NewWithHash_segment0_not_read [120] (str "argon2id$v=13$m=6528,t=1,p=2$dI54$Kq26")
      (by decide)).1,
    (NewWithHash_segment0_not_read [120] (str "argon2id$v=13$m=6528,t=1,p=2$dI54$Kq26")
      (by decide)).2 (by decide)⟩

/-- C11 as stated fails: an input that begins with "x" and not with a dollar sign is accepted,
and its segment 0 is not empty. -/
theorem NewWithHash_accepts_text_before_first_dollar :
    NewWithHash (str "x$argon2id$v=13$m=6528,t=1,p=2$dI54$Kq26") =
        .ok { Time := 1, Memory := 6528, Parallelism := 2, SaltLength := 3, KeyLength := 3,
              Mode := str "argon2id", Version := 13, Salt := some [116, 142, 120],
              Key := some [42, 173, 186] } ∧
      (str "x$argon2id$v=13$m=6528,t=1,p=2$dI54$Kq26").head? = some 120 ∧
      (Split 36 (str "x$argon2id$v=13$m=6528,t=1,p=2$dI54$Kq26")).head? = some [120] := by
  decide

/-- C13: encode fails with ErrSaltNotFound exactly when Salt is absent, fails with
ErrKeyNotFound exactly when Salt is present and Key is absent, and succeeds in every other case
whatever the other fields hold; the default Config fails with ErrSaltNotFound and the default
Config with only a salt assigned fails with ErrKeyNotFound. -/
theorem encode_preconditions (c : Config) :
    (c.encode = .error ErrSaltNotFound ↔ c.Salt = none) ∧
      (c.encode = .error ErrKeyNotFound ↔ c.Salt ≠ none ∧ c.Key = none) ∧
      ((∃ hash, c.encode = .ok hash) ↔ c.Salt ≠ none ∧ c.Key ≠ none) ∧
      Default.encode = .error ErrSaltNotFound ∧
      ∀ salt, Config.encode { Default with Salt := some salt } = .error ErrKeyNotFound := by
  refine ⟨?_, ?_, ?_, rfl, fun salt => rfl⟩
  · cases hs : c.Salt with
    | none => simp [Config.encode, hs]
    | some s =>
      cases hk : c.Key with
      | none => simp [Config.encode, hs, hk]
      | some k => simp [encode_eq c s k hs hk]
  · cases hs : c.Salt with
    | none => simp [Config.encode, hs]
    | some s =>
      cases hk : c.Key with
      | none => simp [Config.encode, hs, hk]
      | some k => simp [encode_eq c s k hs hk]
  · cases hs : c.Salt with
    | none => simp [Config.encode, hs]
    | some s =>
      cases hk : c.Key with
      | none => simp [Config.encode, hs, hk]
      | some k => simp [encode_eq c s k hs hk]

/-- C14: Match fails with ErrInvalidArgonConfig exactly when Salt or Key is absent; its boolean
is then false and the result does not depend on the key-derivation functions; the default Config
gives false and ErrInvalidArgonConfig on every password. -/
theorem Match_precondition (c : Config) (argon2 : KDF) (password : List Nat) :
    ((c.Match argon2 password).2 = some ErrInvalidArgonConfig ↔ c.Salt = none ∨ c.Key = none) ∧
      (c.Salt = none ∨ c.Key = none →
        ∀ other : KDF, c.Match other password = (false, some ErrInvalidArgonConfig)) ∧
      ∀ x, Default.Match argon2 x = (false, some ErrInvalidArgonConfig) := by
  refine ⟨?_, ?_, fun x => rfl⟩
  · unfold Config.Match
    by_cases h : c.Salt = none ∨ c.Key = none
    · simp [h]
    · simp [h]
  · intro h other
    unfold Config.Match
    rw [if_pos h]

/-- C19: Default returns Time 1, Memory 65536, Parallelism 2, SaltLength 16, KeyLength 32, Mode
"argon2id", Version 13 (thirteen, not 0x13), Salt absent and Key absent. -/
theorem Default_fields :
    Default.Time = 1 ∧ Default.Memory = 65536 ∧ Default.Parallelism = 2 ∧
      Default.SaltLength = 16 ∧ Default.KeyLength = 32 ∧ Default.Mode = str "argon2id" ∧
      Default.Version = 13 ∧ Default.Version ≠ 0x13 ∧ Default.Salt = none ∧
      Default.Key = none := by
  decide

/-! ## Hash creation -/

theorem CreateHash_salt_present {σ : Type} (c : Config) (argon2 : KDF) (rand : Rand σ)
    (password salt : List Nat) (st : σ) (hs : c.Salt = some salt) :
    c.CreateHash argon2 rand password st =
      (Config.encode { c with Key := some (c.generateKey argon2 password) },
        { c with Key := some (c.generateKey argon2 password) }, st) := by
  unfold Config.CreateHash
  rw [hs]

theorem CreateHash_salt_absent {σ : Type} (c : Config) (argon2 : KDF) (rand : Rand σ)
    (password : List Nat) (st : σ) (hs : c.Salt = none) :
    c.CreateHash argon2 rand password st =
      match (rand.Read st (List.replicate c.SaltLength 0)).1.2 with
      | some e =>
        (.error e, { c with Salt := some (rand.Read st (List.replicate c.SaltLength 0)).1.1 },
          (rand.Read st (List.replicate c.SaltLength 0)).2)
      | none =>
        Config.CreateHash { c with Salt := some (rand.Read st (List.replicate c.SaltLength 0)).1.1 }
          argon2 rand password (rand.Read st (List.replicate c.SaltLength 0)).2 := by
  unfold Config.CreateHash Config.generateSalt
  generalize rand.Read st (List.replicate c.SaltLength 0) = r
  obtain ⟨⟨salt, err⟩, st1⟩ := r
  cases err <;> rw [hs]

/-- C16: on a Config whose Salt is absent, CreateHash reads from the random source once, into a
buffer of exactly SaltLength bytes; when the read returns an error, CreateHash returns that
error and no hash, whatever the key-derivation functions are; when the read succeeds with bytes
s, the hash returned is the one CreateHash returns for the same Config with Salt s. -/
theorem CreateHash_without_salt {σ : Type} (c : Config) (argon2 : KDF) (rand : Rand σ)
    (password : List Nat) (st : σ) (hs : c.Salt = none) :
    (c.CreateHash argon2 rand password st).2.2 =
        (rand.Read st (List.replicate c.SaltLength 0)).2 ∧
      (List.replicate c.SaltLength 0).length = c.SaltLength ∧
      (∀ e, (rand.Read st (List.replicate c.SaltLength 0)).1.2 = some e →
        ∀ other : KDF, (c.CreateHash other rand password st).1 = .error e) ∧
      ((rand.Read st (List.replicate c.SaltLength 0)).1.2 = none →
        ∀ (τ : Type) (rand1 : Rand τ) (st1 : τ),
          (c.CreateHash argon2 rand password st).1 =
            (Config.CreateHash
              { c with Salt := some (rand.Read st (List.replicate c.SaltLength 0)).1.1 }
              argon2 rand1 password st1).1) := by
  refine ⟨?_, List.length_replicate _ _, fun e he other => ?_, fun hnone τ rand1 st1 => ?_⟩
  · rw [CreateHash_salt_absent c argon2 rand password st hs]
    cases he : (rand.Read st (List.replicate c.SaltLength 0)).1.2 with
    | some e => rfl
    | none =>
      simp only
      rw [CreateHash_salt_present _ argon2 rand password _ _ rfl]
  · rw [CreateHash_salt_absent c other rand password st hs, he]
  · rw [CreateHash_salt_absent c argon2 rand password st hs, hnone]
    simp only
    rw [CreateHash_salt_present _ argon2 rand password _ _ rfl,
      CreateHash_salt_present _ argon2 rand1 password _ _ rfl]

/-- C16, a closed instance: the default Config has no Salt; with a random source whose first
read fails CreateHash returns the error of the read, and with a source that fills the buffer
with sevens the hash is the one of the default Config with sixteen sevens as Salt. -/
theorem CreateHash_without_salt_witness :
    Default.Salt = none ∧
      (Default.CreateHash toyKDF flakyRand (str "foo") 0).1 = .error (randError 1) ∧
      (Default.CreateHash toyKDF toyRand (str "foo") 7).1 =
        (Config.CreateHash { Default with Salt := some (List.replicate 16 7) }
          toyKDF flakyRand (str "foo") 0).1 :=
  ⟨rfl,
    (CreateHash_without_salt Default toyKDF flakyRand (str "foo") 0 rfl).2.2.1
      (randError 1) rfl toyKDF,
    (CreateHash_without_salt Default toyKDF toyRand (str "foo") 7 rfl).2.2.2 rfl
      Nat flakyRand 0⟩

/-- C17, as amended: on an instance whose Salt is absent, a CreateHash call whose read from the
random source succeeds stores the bytes read as Salt; a CreateHash call that follows on the same
instance leaves the random source untouched and keeps that Salt, so the salt of the second hash
is the salt of the first call. -/
theorem second_CreateHash_keeps_salt {σ : Type} (c : Config) (argon2 : KDF) (rand : Rand σ)
    (p1 p2 : List Nat) (st : σ) (hs : c.Salt = none)
    (hread : (rand.Read st (List.replicate c.SaltLength 0)).1.2 = none) :
    (c.CreateHash argon2 rand p1 st).2.1.Salt =
        some (rand.Read st (List.replicate c.SaltLength 0)).1.1 ∧
      (Config.CreateHash (c.CreateHash argon2 rand p1 st).2.1 argon2 rand p2
          (c.CreateHash argon2 rand p1 st).2.2).2.2 = (c.CreateHash argon2 rand p1 st).2.2 ∧
      (Config.CreateHash (c.CreateHash argon2 rand p1 st).2.1 argon2 rand p2
          (c.CreateHash argon2 rand p1 st).2.2).2.1.Salt =
        some (rand.Read st (List.replicate c.SaltLength 0)).1.1 := by
  have h1 : (c.CreateHash argon2 rand p1 st).2.1.Salt =
      some (rand.Read st (List.replicate c.SaltLength 0)).1.1 := by
    rw [CreateHash_salt_absent c argon2 rand p1 st hs, hread]
    simp only
    rw [CreateHash_salt_present _ argon2 rand p1 _ _ rfl]
  refine ⟨h1, ?_, ?_⟩
  · rw [CreateHash_salt_present _ argon2 rand p2 _ _ h1]
  · rw [CreateHash_salt_present _ argon2 rand p2 _ _ h1]
    exact h1

/-- C17, a closed instance: the default Config and the stand-in random source at state 7. -/
theorem second_CreateHash_keeps_salt_witness :
    (Config.CreateHash (Default.CreateHash toyKDF toyRand (str "foo") 7).2.1 toyKDF toyRand
        (str "bar") (Default.CreateHash toyKDF toyRand (str "foo") 7).2.2).2.1.Salt =
      some (toyRand.Read 7 (List.replicate Default.SaltLength 0)).1.1 :=
  (second_CreateHash_keeps_salt Default toyKDF toyRand (str "foo") (str "bar") 7 rfl rfl).2.2

/-- C17 as stated fails: after two CreateHash calls on the default Config the random source has
been read once (its state went from 7 to 8), and the second hash carries the salt of sixteen
bytes 7 of the first call, not the sixteen bytes 8 that a second read would give. -/
theorem second_CreateHash_does_not_read_salt :
    run toyKDF toyRand [Op.CreateHash (str "foo"), Op.CreateHash (str "bar")] (Default, 7) =
        ({ Default with Salt := some (List.replicate 16 7),
                        Key := some (toyKey 1 (str "bar") (List.replicate 16 7) 1 65536 2 32) },
          8) ∧
      (toyRand.Read 8 (List.replicate 16 0)).1 = (List.replicate 16 8, none) ∧
      (Config.CreateHash (Default.CreateHash toyKDF toyRand (str "foo") 7).2.1 toyKDF toyRand
          (str "bar") 8).1 =
        .ok (str ("$argon2id$v=13$m=65536,t=1,p=2$BwcHBwcHBwcHBwcHBwcHBw$" ++
          "qaqrrK2ur7CxsrO0tba3uLm6u7y9vr/AwcLDxMXGx8g")) := by
  decide

/-- C20, the code at the failing input: on the default Config, a CreateHash call whose read from
the random source fails returns the error and leaves the buffer of sixteen zero bytes as Salt;
the next CreateHash call on the same instance leaves the random source untouched and returns a
hash made with that salt of zero bytes. -/
theorem CreateHash_failed_read_keeps_buffer :
    Default.CreateHash toyKDF flakyRand (str "foo") 0 =
        (.error (randError 1), { Default with Salt := some (List.replicate 16 0) }, 1) ∧
      (Default.CreateHash toyKDF flakyRand (str "foo") 0).2.1.Salt ≠ none ∧
      (Config.CreateHash { Default with Salt := some (List.replicate 16 0) } toyKDF flakyRand
          (str "foo") 1).2.2 = 1 ∧
      (Config.CreateHash { Default with Salt := some (List.replicate 16 0) } toyKDF flakyRand
          (str "foo") 1).1 =
        .ok (str ("$argon2id$v=13$m=65536,t=1,p=2$AAAAAAAAAAAAAAAAAAAAAA$" ++
          "SElKS0xNTk9QUVJTVFVWV1hZWltcXV5fYGFiY2RlZmc")) := by
  decide

/-- C12, as amended: a Config that NewWithHash returns has Salt and Key present, they are the
bytes decoded from segments 4 and 5, SaltLength is the number of salt bytes modulo 2^32 and
KeyLength the number of key bytes modulo 2^32 (the number itself when it is below 2^32); encode
on it succeeds, so it fails with neither ErrSaltNotFound nor ErrKeyNotFound, and Match on it
returns no error. -/
theorem NewWithHash_fully_populated (hash : List Nat) (d : Config)
    (h : NewWithHash hash = .ok d) :
    ∃ s0 s1 s2 s3 s4 s5 salt key,
      Split 36 hash = [s0, s1, s2, s3, s4, s5] ∧
      DecodeString s4 = .ok salt ∧ DecodeString s5 = .ok key ∧
      d.Salt = some salt ∧ d.Key = some key ∧
      d.SaltLength = salt.length % 2 ^ 32 ∧ d.KeyLength = key.length % 2 ^ 32 ∧
      (salt.length < 2 ^ 32 → d.SaltLength = salt.length) ∧
      (key.length < 2 ^ 32 → d.KeyLength = key.length) ∧
      (∃ out, d.encode = .ok out) ∧ d.encode ≠ .error ErrSaltNotFound ∧
      d.encode ≠ .error ErrKeyNotFound ∧
      ∀ (argon2 : KDF) (password : List Nat), (d.Match argon2 password).2 = none := by
  obtain ⟨s0, s1, s2, s3, s4, s5, vs, ws, salt, key, hs, -, -, -, -, h4, h5, rfl⟩ :=
    NewWithHash_ok hash d h
  refine ⟨s0, s1, s2, s3, s4, s5, salt, key, hs, h4, h5, rfl, rfl, rfl, rfl,
    fun hl => Nat.mod_eq_of_lt hl, fun hl => Nat.mod_eq_of_lt hl, ⟨_, encode_eq _ salt key rfl rfl⟩, ?_, ?_,
    fun argon2 password => ?_⟩
  · rw [encode_eq _ salt key rfl rfl]
    exact fun hh => by cases hh
  · rw [encode_eq _ salt key rfl rfl]
    exact fun hh => by cases hh
  · unfold Config.Match
    rw [if_neg (by simp)]

/-- C12, a closed instance: empty salt and key segments give a Salt and a Key that are present
and empty, and encode succeeds on the result. -/
theorem NewWithHash_fully_populated_witness :
    NewWithHash (str "$argon2id$v=13$m=6528,t=1,p=2$$") =
        .ok { Time := 1, Memory := 6528, Parallelism := 2, SaltLength := 0, KeyLength := 0,
              Mode := str "argon2id", Version := 13, Salt := some [], Key := some [] } ∧
      ∃ out, Config.encode
          { Time := 1, Memory := 6528, Parallelism := 2, SaltLength := 0, KeyLength := 0,
            Mode := str "argon2id", Version := 13, Salt := some [], Key := some [] } =
        .ok out := by
  have h : NewWithHash (str "$argon2id$v=13$m=6528,t=1,p=2$$") =
      .ok { Time := 1, Memory := 6528, Parallelism := 2, SaltLength := 0, KeyLength := 0,
            Mode := str "argon2id", Version := 13, Salt := some [], Key := some [] } := by
    decide
  obtain ⟨_, _, _, _, _, _, _, _, _, _, _, _, _, _, _, _, _, henc, _⟩ :=
    NewWithHash_fully_populated _ _ h
  exact ⟨h, henc⟩

theorem isBytes_replicate_zero (n : Nat) : isBytes (List.replicate n 0) := by
  intro b hb
  rw [List.eq_of_mem_replicate hb]
  decide

theorem replicate_length_wraps : (List.replicate (2 ^ 32) 0).length % 2 ^ 32 = 0 := by
  rw [List.length_replicate, Nat.mod_self]

/-- C12 as stated fails: the hash that encode writes for a Config whose salt has 2^32 bytes is
accepted by NewWithHash, the returned Salt has 2^32 bytes, and the returned SaltLength is 0. -/
theorem NewWithHash_SaltLength_wraps :
    ∃ hash, bigSaltConfig.encode = .ok hash ∧
      NewWithHash hash =
        .ok { Time := 1, Memory := 1, Parallelism := 1, SaltLength := 0, KeyLength := 0,
              Mode := str "argon2id", Version := 13,
              Salt := some (List.replicate (2 ^ 32) 0), Key := some [] } ∧
      (List.replicate (2 ^ 32) 0).length = 2 ^ 32 := by
  obtain ⟨hash, henc, hdec⟩ := NewWithHash_encode bigSaltConfig (List.replicate (2 ^ 32) 0) []
    (Or.inr rfl) rfl rfl rfl (isBytes_replicate_zero _) (by intro b hb; cases hb)
    (by decide) (by decide) (by decide)
  rw [replicate_length_wraps] at hdec
  exact ⟨hash, henc, hdec, List.length_replicate _ _⟩

/-! ## Sequences of calls: what stays -/

theorem CreateHash_Salt_of_present {σ : Type} (c : Config) (argon2 : KDF) (rand : Rand σ)
    (p salt : List Nat) (st : σ) (hs : c.Salt = some salt) :
    (c.CreateHash argon2 rand p st).2.1.Salt = some salt := by
  rw [CreateHash_salt_present c argon2 rand p salt st hs]
  exact hs

theorem step_Salt {σ : Type} (argon2 : KDF) (rand : Rand σ) (op : Op) (c : Config) (st : σ)
    (salt : List Nat) (hs : c.Salt = some salt) :
    (step argon2 rand op (c, st)).1.Salt = some salt := by
  cases op with
  | CreateHash p => exact CreateHash_Salt_of_present c argon2 rand p salt st hs
  | _ => exact hs

theorem run_Salt {σ : Type} (argon2 : KDF) (rand : Rand σ) (ops : List Op) (c : Config)
    (st : σ) (salt : List Nat) (hs : c.Salt = some salt) :
    (run argon2 rand ops (c, st)).1.Salt = some salt := by
  induction ops generalizing c st with
  | nil => exact hs
  | cons op ops ih =>
    rw [run]
    exact ih _ _ (step_Salt argon2 rand op c st salt hs)

theorem CreateHash_lengthsAgree {σ : Type} (c : Config) (argon2 : KDF) (rand : Rand σ)
    (p : List Nat) (st : σ)
    (hlen : ∀ pw s t m th n,
      (argon2.IDKey pw s t m th n).length = n ∧ (argon2.Key pw s t m th n).length = n)
    (hrand : ∀ st buf, (rand.Read st buf).1.1.length = buf.length)
    (h : lengthsAgree c) : lengthsAgree (c.CreateHash argon2 rand p st).2.1 := by
  have hpresent : ∀ (c1 : Config) (salt : List Nat) (st1 : σ), c1.Salt = some salt →
      lengthsAgree c1 → lengthsAgree (c1.CreateHash argon2 rand p st1).2.1 := by
    intro c1 salt st1 hs h1
    rw [CreateHash_salt_present c1 argon2 rand p salt st1 hs]
    refine ⟨fun s hs1 => h1.1 s hs1, fun k hk => ?_⟩
    simp only [Option.some.injEq] at hk
    rw [← hk]
    exact generateKey_length c1 argon2 p hlen
  cases hs : c.Salt with
  | some salt => exact hpresent c salt st hs h
  | none =>
    have hbuf : (rand.Read st (List.replicate c.SaltLength 0)).1.1.length = c.SaltLength := by
      rw [hrand, List.length_replicate]
    have hset : lengthsAgree
        { c with Salt := some (rand.Read st (List.replicate c.SaltLength 0)).1.1 } := by
      refine ⟨fun s hs1 => ?_, fun k hk => h.2 k hk⟩
      simp only [Option.some.injEq] at hs1
      rw [← hs1]
      exact hbuf
    rw [CreateHash_salt_absent c argon2 rand p st hs]
    cases he : (rand.Read st (List.replicate c.SaltLength 0)).1.2 with
    | some e => exact hset
    | none => exact hpresent _ _ _ rfl hset

theorem step_lengthsAgree {σ : Type} (argon2 : KDF) (rand : Rand σ) (op : Op) (c : Config)
    (st : σ)
    (hlen : ∀ pw s t m th n,
      (argon2.IDKey pw s t m th n).length = n ∧ (argon2.Key pw s t m th n).length = n)
    (hrand : ∀ st buf, (rand.Read st buf).1.1.length = buf.length)
    (h : lengthsAgree c) (hk : keepsLengths op c) :
    lengthsAgree (step argon2 rand op (c, st)).1 := by
  cases op with
  | CreateHash p => exact CreateHash_lengthsAgree c argon2 rand p st hlen hrand h
  | SetSaltLength n =>
    refine ⟨fun s hs => ?_, h.2⟩
    have hnone : c.Salt = none := hk
    have hs' : c.Salt = some s := hs
    rw [hnone] at hs'
    cases hs'
  | SetKeyLength n =>
    refine ⟨h.1, fun k hkey => ?_⟩
    have hnone : c.Key = none := hk
    have hk' : c.Key = some k := hkey
    rw [hnone] at hk'
    cases hk'
  | _ => exact h

theorem run_lengthsAgree {σ : Type} (argon2 : KDF) (rand : Rand σ) (ops : List Op)
    (c : Config) (st : σ)
    (hlen : ∀ pw s t m th n,
      (argon2.IDKey pw s t m th n).length = n ∧ (argon2.Key pw s t m th n).length = n)
    (hrand : ∀ st buf, (rand.Read st buf).1.1.length = buf.length)
    (h : lengthsAgree c) (hk : runKeepsLengths argon2 rand ops (c, st)) :
    lengthsAgree (run argon2 rand ops (c, st)).1 := by
  induction ops generalizing c st with
  | nil => exact h
  | cons op ops ih =>
    rw [run]
    obtain ⟨hk1, hk2⟩ := hk
    exact ih _ _ (step_lengthsAgree argon2 rand op c st hlen hrand h hk1) hk2

theorem toyRand_length (st : Nat) (buf : List Nat) :
    (toyRand.Read st buf).1.1.length = buf.length := by
  simp [toyRand]

/-- C18, as amended: assuming that a read from the random source leaves the buffer at its length
and that the key-derivation functions return exactly keyLen bytes, in every Config reached from
a Config in which a present Salt has length SaltLength and a present Key has length KeyLength,
by a sequence of setter, CreateHash and Match calls in which SetSaltLength is called only while
Salt is absent and SetKeyLength only while Key is absent, a present Salt has length SaltLength
and a present Key has length KeyLength; the default Config is such a start, and so is a Config
returned by NewWithHash whose salt and key are shorter than 2^32 bytes; and under any sequence
of calls a Salt once set does not change. -/
theorem reachable_lengths_agree {σ : Type} (argon2 : KDF) (rand : Rand σ) (ops : List Op)
    (c : Config) (st : σ)
    (hlen : ∀ pw s t m th n,
      (argon2.IDKey pw s t m th n).length = n ∧ (argon2.Key pw s t m th n).length = n)
    (hrand : ∀ st buf, (rand.Read st buf).1.1.length = buf.length) :
    (lengthsAgree c → runKeepsLengths argon2 rand ops (c, st) →
        lengthsAgree (run argon2 rand ops (c, st)).1) ∧
      (∀ salt, c.Salt = some salt → (run argon2 rand ops (c, st)).1.Salt = some salt) ∧
      lengthsAgree Default ∧
      ∀ hash d salt key, NewWithHash hash = .ok d → d.Salt = some salt → d.Key = some key →
        salt.length < 2 ^ 32 → key.length < 2 ^ 32 → lengthsAgree d := by
  refine ⟨fun h hk => run_lengthsAgree argon2 rand ops c st hlen hrand h hk,
    fun salt hs => run_Salt argon2 rand ops c st salt hs,
    ⟨fun s hs => (by cases hs), fun k hk => (by cases hk)⟩, ?_⟩
  intro hash d salt key hd hs hk hsl hkl
  obtain ⟨_, _, _, _, _, _, _, _, salt1, key1, _, _, _, _, _, _, _, rfl⟩ := NewWithHash_ok hash d hd
  simp only [Option.some.injEq] at hs hk
  subst hs hk
  refine ⟨fun s hs1 => ?_, fun k hk1 => ?_⟩
  · simp only [Option.some.injEq] at hs1
    subst hs1
    exact (Nat.mod_eq_of_lt hsl).symm
  · simp only [Option.some.injEq] at hk1
    subst hk1
    exact (Nat.mod_eq_of_lt hkl).symm

/-- C18, a closed instance: from the default Config, setting SaltLength to 8 before the first
CreateHash and then creating two hashes keeps the lengths in agreement. -/
theorem reachable_lengths_agree_witness :
    lengthsAgree (run toyKDF toyRand
      [Op.SetSaltLength 8, Op.CreateHash (str "foo"), Op.Match (str "foo"), Op.SetTime 3,
       Op.CreateHash (str "bar")] (Default, 7)).1 :=
  (reachable_lengths_agree toyKDF toyRand
    [Op.SetSaltLength 8, Op.CreateHash (str "foo"), Op.Match (str "foo"), Op.SetTime 3,
     Op.CreateHash (str "bar")] Default 7
    (fun pw s t m th n => ⟨toyKey_length 1 pw s t m th n, toyKey_length 2 pw s t m th n⟩)
    toyRand_length).1
    ⟨fun s hs => (by cases hs), fun k hk => (by cases hk)⟩
    ⟨rfl, trivial, trivial, trivial, trivial, trivial⟩

/-- C18 as stated fails: with a random source and key-derivation functions that return exactly
the bytes asked for, the default Config after CreateHash and SetSaltLength 8 has a Salt of
sixteen bytes and SaltLength 8; and a second CreateHash replaces the Key that the first one
set. -/
theorem reachable_lengths_disagree :
    (∀ st buf, (toyRand.Read st buf).1.1.length = buf.length) ∧
      (∀ pw s t m th n,
        (toyKDF.IDKey pw s t m th n).length = n ∧ (toyKDF.Key pw s t m th n).length = n) ∧
      (run toyKDF toyRand [Op.CreateHash (str "foo"), Op.SetSaltLength 8] (Default, 7)).1.Salt =
        some (List.replicate 16 7) ∧
      (run toyKDF toyRand [Op.CreateHash (str "foo"), Op.SetSaltLength 8]
        (Default, 7)).1.SaltLength = 8 ∧
      ¬ lengthsAgree (run toyKDF toyRand [Op.CreateHash (str "foo"), Op.SetSaltLength 8]
        (Default, 7)).1 ∧
      (run toyKDF toyRand [Op.CreateHash (str "foo")] (Default, 7)).1.Key ≠ none ∧
      (run toyKDF toyRand [Op.CreateHash (str "foo"), Op.CreateHash (str "bar")]
          (Default, 7)).1.Key ≠
        (run toyKDF toyRand [Op.CreateHash (str "foo")] (Default, 7)).1.Key := by
  refine ⟨toyRand_length,
    fun pw s t m th n => ⟨toyKey_length 1 pw s t m th n, toyKey_length 2 pw s t m th n⟩,
    by decide, by decide, ?_, by decide, by decide⟩
  intro h
  have h1 := h.1 (List.replicate 16 7) (by decide)
  revert h1
  decide

/-! ## The key derivation returns or panics -/

theorem deriveKey_ok (f : List Nat → List Nat → Nat → Nat → Nat → Nat → List Nat)
    (password salt : List Nat) (time memory threads keyLen : Nat) (ht : 1 ≤ time)
    (hth : 1 ≤ threads) (hn : 1 ≤ keyLen) :
    deriveKey f password salt time memory threads keyLen =
      .ok (f password salt time memory threads keyLen) := by
  unfold deriveKey
  rw [if_neg (by omega), if_neg (by omega), if_neg (by omega)]

theorem generateKeyRun_ok (c : Config) (argon2 : KDF) (password : List Nat) (ht : 1 ≤ c.Time)
    (hth : 1 ≤ c.Parallelism) (hn : 1 ≤ c.KeyLength) :
    c.generateKeyRun argon2 password = .ok (c.generateKey argon2 password) := by
  unfold Config.generateKeyRun Config.generateKey
  by_cases hm : c.Mode = Argon2.Mode Argon2id
  · rw [if_pos hm, if_pos hm]
    exact deriveKey_ok _ _ _ _ _ _ _ ht hth hn
  · rw [if_neg hm, if_neg hm]
    exact deriveKey_ok _ _ _ _ _ _ _ ht hth hn

theorem deriveKey_rounds (f : List Nat → List Nat → Nat → Nat → Nat → Nat → List Nat)
    (password salt : List Nat) (time memory threads keyLen : Nat) (ht : time < 1) :
    deriveKey f password salt time memory threads keyLen = .error Panic.roundsTooSmall := by
  unfold deriveKey
  rw [if_pos ht]

theorem deriveKey_parallelism (f : List Nat → List Nat → Nat → Nat → Nat → Nat → List Nat)
    (password salt : List Nat) (time memory threads keyLen : Nat) (ht : 1 ≤ time)
    (hth : threads < 1) :
    deriveKey f password salt time memory threads keyLen = .error Panic.parallelismTooLow := by
  unfold deriveKey
  rw [if_neg (by omega), if_pos hth]

theorem deriveKey_keyLen (f : List Nat → List Nat → Nat → Nat → Nat → Nat → List Nat)
    (password salt : List Nat) (time memory threads keyLen : Nat) (ht : 1 ≤ time)
    (hth : 1 ≤ threads) (hn : keyLen = 0) :
    deriveKey f password salt time memory threads keyLen = .error Panic.nilHash := by
  unfold deriveKey
  rw [if_neg (by omega), if_neg (by omega), if_pos hn]

theorem generateKeyRun_rounds (c : Config) (argon2 : KDF) (password : List Nat)
    (ht : c.Time < 1) : c.generateKeyRun argon2 password = .error Panic.roundsTooSmall := by
  unfold Config.generateKeyRun
  by_cases hm : c.Mode = Argon2.Mode Argon2id
  · rw [if_pos hm]
    exact deriveKey_rounds _ _ _ _ _ _ _ ht
  · rw [if_neg hm]
    exact deriveKey_rounds _ _ _ _ _ _ _ ht

theorem generateKeyRun_parallelism (c : Config) (argon2 : KDF) (password : List Nat)
    (ht : 1 ≤ c.Time) (hth : c.Parallelism < 1) :
    c.generateKeyRun argon2 password = .error Panic.parallelismTooLow := by
  unfold Config.generateKeyRun
  by_cases hm : c.Mode = Argon2.Mode Argon2id
  · rw [if_pos hm]
    exact deriveKey_parallelism _ _ _ _ _ _ _ ht hth
  · rw [if_neg hm]
    exact deriveKey_parallelism _ _ _ _ _ _ _ ht hth

theorem generateKeyRun_keyLen (c : Config) (argon2 : KDF) (password : List Nat)
    (ht : 1 ≤ c.Time) (hth : 1 ≤ c.Parallelism) (hn : c.KeyLength = 0) :
    c.generateKeyRun argon2 password = .error Panic.nilHash := by
  unfold Config.generateKeyRun
  by_cases hm : c.Mode = Argon2.Mode Argon2id
  · rw [if_pos hm]
    exact deriveKey_keyLen _ _ _ _ _ _ _ ht hth hn
  · rw [if_neg hm]
    exact deriveKey_keyLen _ _ _ _ _ _ _ ht hth hn

theorem generateKey_eq (c : Config) (argon2 : KDF) (password salt : List Nat)
    (hs : c.Salt = some salt) :
    c.generateKey argon2 password =
      (if c.Mode = str "argon2id" then
        argon2.IDKey password salt c.Time c.Memory c.Parallelism c.KeyLength
      else argon2.Key password salt c.Time c.Memory c.Parallelism c.KeyLength) := by
  have hm2 : Argon2.Mode Argon2id = str "argon2id" := by decide
  unfold Config.generateKey
  rw [hs, hm2]
  rfl

theorem MatchRun_present (c : Config) (argon2 : KDF) (password salt key : List Nat)
    (hs : c.Salt = some salt) (hk : c.Key = some key) :
    c.MatchRun argon2 password =
      match c.generateKeyRun argon2 password with
      | .error p => .error p
      | .ok k => .ok (decide (ConstantTimeCompare key k = 1), none) := by
  unfold Config.MatchRun
  rw [if_neg (by rw [hs, hk]; simp), hk]
  rfl

theorem CreateHashRun_salt_present {σ : Type} (c : Config) (argon2 : KDF) (rand : Rand σ)
    (password salt : List Nat) (st : σ) (hs : c.Salt = some salt) :
    c.CreateHashRun argon2 rand password st =
      match c.generateKeyRun argon2 password with
      | .error p => (.error p, c, st)
      | .ok key =>
        (.ok (Config.encode { c with Key := some key }), { c with Key := some key }, st) := by
  unfold Config.CreateHashRun
  rw [hs]

theorem deriveKey_returns (f : List Nat → List Nat → Nat → Nat → Nat → Nat → List Nat)
    (password salt : List Nat) (time memory threads keyLen : Nat) (k : List Nat)
    (h : deriveKey f password salt time memory threads keyLen = .ok k) :
    k = f password salt time memory threads keyLen ∧ 1 ≤ time ∧ 1 ≤ threads ∧ 1 ≤ keyLen := by
  unfold deriveKey at h
  by_cases ht : time < 1
  · rw [if_pos ht] at h
    cases h
  · rw [if_neg ht] at h
    by_cases hth : threads < 1
    · rw [if_pos hth] at h
      cases h
    · rw [if_neg hth] at h
      by_cases hn : keyLen = 0
      · rw [if_pos hn] at h
        cases h
      · rw [if_neg hn] at h
        simp only [Except.ok.injEq] at h
        exact ⟨h.symm, by omega, by omega, by omega⟩

/-- When the key derivation returns, generateKey returns the bytes of `Config.generateKey`. -/
theorem generateKeyRun_returns (c : Config) (argon2 : KDF) (password k : List Nat)
    (h : c.generateKeyRun argon2 password = .ok k) :
    k = c.generateKey argon2 password ∧ 1 ≤ c.Time ∧ 1 ≤ c.Parallelism ∧ 1 ≤ c.KeyLength := by
  unfold Config.generateKeyRun at h
  unfold Config.generateKey
  by_cases hm : c.Mode = Argon2.Mode Argon2id
  · rw [if_pos hm] at h
    rw [if_pos hm]
    exact deriveKey_returns _ _ _ _ _ _ _ k h
  · rw [if_neg hm] at h
    rw [if_neg hm]
    exact deriveKey_returns _ _ _ _ _ _ _ k h

/-- When Match returns, it returns the pair of `Config.Match`. -/
theorem MatchRun_returns (c : Config) (argon2 : KDF) (password : List Nat)
    (r : Bool × Option Error) (h : c.MatchRun argon2 password = .ok r) :
    r = c.Match argon2 password := by
  unfold Config.MatchRun at h
  unfold Config.Match
  by_cases hg : c.Salt = none ∨ c.Key = none
  · rw [if_pos hg] at h
    rw [if_pos hg]
    simp only [Except.ok.injEq] at h
    exact h.symm
  · rw [if_neg hg] at h
    rw [if_neg hg]
    cases hk : c.generateKeyRun argon2 password with
    | error p =>
      rw [hk] at h
      cases h
    | ok k =>
      rw [hk] at h
      simp only [Except.ok.injEq] at h
      rw [← (generateKeyRun_returns c argon2 password k hk).1]
      exact h.symm

/-- When CreateHash returns, its result, the Config it leaves and the state of the random
source are those of `Config.CreateHash`. -/
theorem CreateHashRun_returns {σ : Type} (c : Config) (argon2 : KDF) (rand : Rand σ)
    (password : List Nat) (st : σ) (r : Except Error (List Nat))
    (h : (c.CreateHashRun argon2 rand password st).1 = .ok r) :
    c.CreateHash argon2 rand password st =
      (r, (c.CreateHashRun argon2 rand password st).2.1,
        (c.CreateHashRun argon2 rand password st).2.2) := by
  have hpresent : ∀ (c1 : Config) (salt : List Nat) (st1 : σ) (r1 : Except Error (List Nat)),
      c1.Salt = some salt → (c1.CreateHashRun argon2 rand password st1).1 = .ok r1 →
      c1.CreateHash argon2 rand password st1 =
        (r1, (c1.CreateHashRun argon2 rand password st1).2.1,
          (c1.CreateHashRun argon2 rand password st1).2.2) := by
    intro c1 salt st1 r1 hs h1
    rw [CreateHashRun_salt_present c1 argon2 rand password salt st1 hs] at h1 ⊢
    rw [CreateHash_salt_present c1 argon2 rand password salt st1 hs]
    cases hk : c1.generateKeyRun argon2 password with
    | error p =>
      rw [hk] at h1
      cases h1
    | ok k =>
      rw [hk] at h1
      simp only [Except.ok.injEq] at h1
      rw [← (generateKeyRun_returns c1 argon2 password k hk).1, ← h1]
  cases hs : c.Salt with
  | some salt => exact hpresent c salt st r hs h
  | none =>
    have hrun : c.CreateHashRun argon2 rand password st =
        match (rand.Read st (List.replicate c.SaltLength 0)).1.2 with
        | some e =>
          (.ok (.error e),
            { c with Salt := some (rand.Read st (List.replicate c.SaltLength 0)).1.1 },
            (rand.Read st (List.replicate c.SaltLength 0)).2)
        | none =>
          Config.CreateHashRun
            { c with Salt := some (rand.Read st (List.replicate c.SaltLength 0)).1.1 }
            argon2 rand password (rand.Read st (List.replicate c.SaltLength 0)).2 := by
      unfold Config.CreateHashRun Config.generateSalt
      generalize rand.Read st (List.replicate c.SaltLength 0) = rd
      obtain ⟨⟨salt, err⟩, st1⟩ := rd
      cases err <;> rw [hs]
    rw [CreateHash_salt_absent c argon2 rand password st hs]
    rw [hrun] at h ⊢
    cases he : (rand.Read st (List.replicate c.SaltLength 0)).1.2 with
    | some e =>
      rw [he] at h
      simp only [Except.ok.injEq] at h
      rw [← h]
    | none =>
      rw [he] at h
      exact hpresent _ _ _ r rfl h

/-- C3, as amended: on a Config whose Salt and Key are present and whose Time, Parallelism and
KeyLength are at least 1, Match returns no error, and its boolean is true exactly when the key
derived again from the password, the Salt, Time, Memory, Parallelism and KeyLength (by IDKey
when Mode is "argon2id", by Key otherwise) equals the stored Key byte for byte; a derived key
of another length gives false and no error. With Time 0, Parallelism 0 or KeyLength 0 the key
derivation panics and Match returns nothing. Whenever Match returns on such a Config, its error
is nil. -/
theorem MatchRun_true_iff_rederived_key_eq (c : Config) (argon2 : KDF)
    (password salt key : List Nat) (hs : c.Salt = some salt) (hk : c.Key = some key)
    (hkey : isBytes key)
    (hkdf : ∀ pw s t m th n,
      isBytes (argon2.IDKey pw s t m th n) ∧ isBytes (argon2.Key pw s t m th n)) :
    (1 ≤ c.Time → 1 ≤ c.Parallelism → 1 ≤ c.KeyLength →
        ∃ derived,
          derived = (if c.Mode = str "argon2id" then
              argon2.IDKey password salt c.Time c.Memory c.Parallelism c.KeyLength
            else argon2.Key password salt c.Time c.Memory c.Parallelism c.KeyLength) ∧
          c.generateKeyRun argon2 password = .ok derived ∧
          c.MatchRun argon2 password = .ok (decide (derived = key), none) ∧
          (derived.length ≠ key.length → c.MatchRun argon2 password = .ok (false, none))) ∧
      (c.Time < 1 → c.MatchRun argon2 password = .error Panic.roundsTooSmall) ∧
      (1 ≤ c.Time → c.Parallelism < 1 →
        c.MatchRun argon2 password = .error Panic.parallelismTooLow) ∧
      (1 ≤ c.Time → 1 ≤ c.Parallelism → c.KeyLength = 0 →
        c.MatchRun argon2 password = .error Panic.nilHash) ∧
      ∀ b e, c.MatchRun argon2 password = .ok (b, e) → e = none := by
  have hrun := MatchRun_present c argon2 password salt key hs hk
  have hgen := generateKey_eq c argon2 password salt hs
  refine ⟨fun ht hth hn => ?_, fun ht => ?_, fun ht hth => ?_, fun ht hth hn => ?_,
    fun b e hbe => ?_⟩
  · have hok := generateKeyRun_ok c argon2 password ht hth hn
    rw [hgen] at hok
    have hbytes : isBytes (if c.Mode = str "argon2id" then
        argon2.IDKey password salt c.Time c.Memory c.Parallelism c.KeyLength
      else argon2.Key password salt c.Time c.Memory c.Parallelism c.KeyLength) := by
      by_cases hm : c.Mode = str "argon2id"
      · rw [if_pos hm]
        exact (hkdf _ _ _ _ _ _).1
      · rw [if_neg hm]
        exact (hkdf _ _ _ _ _ _).2
    rw [hok] at hrun
    have hmatch : c.MatchRun argon2 password = .ok (decide
        ((if c.Mode = str "argon2id" then
          argon2.IDKey password salt c.Time c.Memory c.Parallelism c.KeyLength
        else argon2.Key password salt c.Time c.Memory c.Parallelism c.KeyLength) = key),
        none) := by
      rw [hrun]
      simp only [Except.ok.injEq, Prod.mk.injEq, and_true]
      rw [decide_eq_decide, ConstantTimeCompare_eq_one _ _ hkey hbytes]
      exact eq_comm
    refine ⟨_, rfl, hok, hmatch, fun hlen => ?_⟩
    rw [hmatch]
    have hne : (if c.Mode = str "argon2id" then
        argon2.IDKey password salt c.Time c.Memory c.Parallelism c.KeyLength
      else argon2.Key password salt c.Time c.Memory c.Parallelism c.KeyLength) ≠ key :=
      fun h => hlen (congrArg List.length h)
    rw [decide_eq_false hne]
  · rw [hrun, generateKeyRun_rounds c argon2 password ht]
  · rw [hrun, generateKeyRun_parallelism c argon2 password ht hth]
  · rw [hrun, generateKeyRun_keyLen c argon2 password ht hth hn]
  · rw [hrun] at hbe
    cases hg : c.generateKeyRun argon2 password with
    | error p =>
      rw [hg] at hbe
      cases hbe
    | ok k =>
      rw [hg] at hbe
      simp only [Except.ok.injEq, Prod.mk.injEq] at hbe
      exact hbe.2.symm

/-- C3, a closed instance: with the stand-in derivation function and Time 1, Parallelism 2 and
KeyLength 4, a stored key that was derived from the password "foo" matches "foo" and does not
match "bar", in both cases without error. -/
theorem MatchRun_true_iff_rederived_key_eq_witness :
    Config.MatchRun
        { Time := 1, Memory := 64, Parallelism := 2, SaltLength := 2, KeyLength := 4,
          Mode := str "argon2id", Version := 13, Salt := some [1, 2],
          Key := some (toyKey 1 (str "foo") [1, 2] 1 64 2 4) }
        toyKDF (str "foo") = .ok (true, none) ∧
      Config.MatchRun
        { Time := 1, Memory := 64, Parallelism := 2, SaltLength := 2, KeyLength := 4,
          Mode := str "argon2id", Version := 13, Salt := some [1, 2],
          Key := some (toyKey 1 (str "foo") [1, 2] 1 64 2 4) }
        toyKDF (str "bar") = .ok (false, none) := by
  obtain ⟨d1, hd1, -, hm1, -⟩ := (MatchRun_true_iff_rederived_key_eq
    { Time := 1, Memory := 64, Parallelism := 2, SaltLength := 2, KeyLength := 4,
      Mode := str "argon2id", Version := 13, Salt := some [1, 2],
      Key := some (toyKey 1 (str "foo") [1, 2] 1 64 2 4) }
    toyKDF (str "foo") [1, 2] (toyKey 1 (str "foo") [1, 2] 1 64 2 4) rfl rfl (by decide)
    (fun pw s t m th n => ⟨toyKey_bytes 1 pw s t m th n, toyKey_bytes 2 pw s t m th n⟩)).1
    (by decide) (by decide) (by decide)
  obtain ⟨d2, hd2, -, hm2, -⟩ := (MatchRun_true_iff_rederived_key_eq
    { Time := 1, Memory := 64, Parallelism := 2, SaltLength := 2, KeyLength := 4,
      Mode := str "argon2id", Version := 13, Salt := some [1, 2],
      Key := some (toyKey 1 (str "foo") [1, 2] 1 64 2 4) }
    toyKDF (str "bar") [1, 2] (toyKey 1 (str "foo") [1, 2] 1 64 2 4) rfl rfl (by decide)
    (fun pw s t m th n => ⟨toyKey_bytes 1 pw s t m th n, toyKey_bytes 2 pw s t m th n⟩)).1
    (by decide) (by decide) (by decide)
  subst hd1 hd2
  rw [hm1, hm2]
  decide

/-- C3 as stated fails: the hash "$argon2id$v=13$m=64,t=0,p=2$dI54$Kq26" decodes to a Config
with Salt and Key present and Time 0, on which the key derivation panics, so that Match returns
neither a boolean nor an error; so does Match on a Config with Salt and Key present and
Parallelism 0 or KeyLength 0. -/
theorem MatchRun_panics_on_zero_time :
    NewWithHash (str "$argon2id$v=13$m=64,t=0,p=2$dI54$Kq26") =
        .ok { Time := 0, Memory := 64, Parallelism := 2, SaltLength := 3, KeyLength := 3,
              Mode := str "argon2id", Version := 13, Salt := some [116, 142, 120],
              Key := some [42, 173, 186] } ∧
      Config.MatchRun
        { Time := 0, Memory := 64, Parallelism := 2, SaltLength := 3, KeyLength := 3,
          Mode := str "argon2id", Version := 13, Salt := some [116, 142, 120],
          Key := some [42, 173, 186] }
        toyKDF (str "foo") = .error Panic.roundsTooSmall ∧
      NewWithHash (str "$argon2i$v=13$m=64,t=1,p=0$dI54$Kq26") =
        .ok { Time := 1, Memory := 64, Parallelism := 0, SaltLength := 3, KeyLength := 3,
              Mode := str "argon2i", Version := 13, Salt := some [116, 142, 120],
              Key := some [42, 173, 186] } ∧
      Config.MatchRun
        { Time := 1, Memory := 64, Parallelism := 0, SaltLength := 3, KeyLength := 3,
          Mode := str "argon2i", Version := 13, Salt := some [116, 142, 120],
          Key := some [42, 173, 186] }
        toyKDF (str "foo") = .error Panic.parallelismTooLow ∧
      NewWithHash (str "$argon2id$v=13$m=64,t=1,p=2$dI54$") =
        .ok { Time := 1, Memory := 64, Parallelism := 2, SaltLength := 3, KeyLength := 0,
              Mode := str "argon2id", Version := 13, Salt := some [116, 142, 120],
              Key := some [] } ∧
      Config.MatchRun
        { Time := 1, Memory := 64, Parallelism := 2, SaltLength := 3, KeyLength := 0,
          Mode := str "argon2id", Version := 13, Salt := some [116, 142, 120],
          Key := some [] }
        toyKDF (str "foo") = .error Panic.nilHash := by
  decide

/-- C15, as amended: on a Config whose Salt is present, CreateHash leaves the random source
untouched and does not depend on it. When Time, Parallelism and KeyLength are at least 1 it
changes no field but Key, sets Key to the output of IDKey when Mode is "argon2id" and of Key
for every other Mode, on the password, Salt, Time, Memory, Parallelism and KeyLength, and
returns encode of the Config so changed, which is not an error. With Time 0, Parallelism 0 or
KeyLength 0 the key derivation panics: CreateHash returns nothing and leaves the Config as it
was. -/
theorem CreateHashRun_with_salt {σ : Type} (c : Config) (argon2 : KDF) (rand : Rand σ)
    (password salt : List Nat) (st : σ) (hs : c.Salt = some salt) :
    (c.CreateHashRun argon2 rand password st).2.2 = st ∧
      (∀ (τ : Type) (rand1 : Rand τ) (st1 : τ),
        (c.CreateHashRun argon2 rand1 password st1).1 =
            (c.CreateHashRun argon2 rand password st).1 ∧
          (c.CreateHashRun argon2 rand1 password st1).2.1 =
            (c.CreateHashRun argon2 rand password st).2.1) ∧
      (1 ≤ c.Time → 1 ≤ c.Parallelism → 1 ≤ c.KeyLength →
        (c.CreateHashRun argon2 rand password st).2.1 =
            { c with Key := some (if c.Mode = str "argon2id" then
                argon2.IDKey password salt c.Time c.Memory c.Parallelism c.KeyLength
              else argon2.Key password salt c.Time c.Memory c.Parallelism c.KeyLength) } ∧
          (c.CreateHashRun argon2 rand password st).1 =
            .ok (c.CreateHashRun argon2 rand password st).2.1.encode ∧
          ∃ hash, (c.CreateHashRun argon2 rand password st).1 = .ok (.ok hash)) ∧
      (c.Time < 1 →
        c.CreateHashRun argon2 rand password st = (.error Panic.roundsTooSmall, c, st)) ∧
      (1 ≤ c.Time → c.Parallelism < 1 →
        c.CreateHashRun argon2 rand password st = (.error Panic.parallelismTooLow, c, st)) ∧
      (1 ≤ c.Time → 1 ≤ c.Parallelism → c.KeyLength = 0 →
        c.CreateHashRun argon2 rand password st = (.error Panic.nilHash, c, st)) := by
  have hrun := CreateHashRun_salt_present c argon2 rand password salt st hs
  have hgen := generateKey_eq c argon2 password salt hs
  refine ⟨?_, fun τ rand1 st1 => ?_, fun ht hth hn => ?_, fun ht => ?_, fun ht hth => ?_,
    fun ht hth hn => ?_⟩
  · rw [hrun]
    cases c.generateKeyRun argon2 password <;> rfl
  · rw [hrun, CreateHashRun_salt_present c argon2 rand1 password salt st1 hs]
    cases c.generateKeyRun argon2 password <;> exact ⟨rfl, rfl⟩
  · have hok := generateKeyRun_ok c argon2 password ht hth hn
    rw [hgen] at hok
    rw [hrun, hok]
    exact ⟨rfl, rfl, _, congrArg Except.ok (encode_eq _ salt _ hs rfl)⟩
  · rw [hrun, generateKeyRun_rounds c argon2 password ht]
  · rw [hrun, generateKeyRun_parallelism c argon2 password ht hth]
  · rw [hrun, generateKeyRun_keyLen c argon2 password ht hth hn]

/-- C15, a closed instance: a Config with a salt, Time 1, Parallelism 1, KeyLength 3 and the
unsupported Mode "x" derives its key with Key, the Argon2i function, reads nothing from the
random source and returns the encoding of the Config with that key. -/
theorem CreateHashRun_with_salt_witness :
    Config.CreateHashRun
        { Time := 1, Memory := 8, Parallelism := 1, SaltLength := 16, KeyLength := 3,
          Mode := str "x", Version := 13, Salt := some [1, 2, 3], Key := none }
        toyKDF toyRand (str "foo") 7 =
      (.ok (.ok (str "$x$v=13$m=8,t=1,p=1$AQID$VldY")),
        { Time := 1, Memory := 8, Parallelism := 1, SaltLength := 16, KeyLength := 3,
          Mode := str "x", Version := 13, Salt := some [1, 2, 3],
          Key := some (toyKey 2 (str "foo") [1, 2, 3] 1 8 1 3) }, 7) := by
  have h := CreateHashRun_with_salt
    { Time := 1, Memory := 8, Parallelism := 1, SaltLength := 16, KeyLength := 3,
      Mode := str "x", Version := 13, Salt := some [1, 2, 3], Key := none }
    toyKDF toyRand (str "foo") [1, 2, 3] 7 rfl
  obtain ⟨hst, -, hret, -⟩ := h
  obtain ⟨hc, hhash, -⟩ := hret (by decide) (by decide) (by decide)
  refine Prod.ext ?_ (Prod.ext ?_ hst)
  · rw [hhash, hc]
    decide
  · rw [hc]
    decide

/-- C15 as stated fails: on the zero Config given a Salt, whose Time is 0, the key derivation
panics, so that CreateHash sets no Key and returns no hash; so it does on the default Config
given a Salt and Parallelism 0, or KeyLength 0. -/
theorem CreateHashRun_with_salt_panics :
    Config.CreateHashRun { Config.zero with Salt := some [1, 2, 3] } toyKDF toyRand
        (str "foo") 7 =
      (.error Panic.roundsTooSmall, { Config.zero with Salt := some [1, 2, 3] }, 7) ∧
      ({ Config.zero with Salt := some [1, 2, 3] } : Config).Key = none ∧
      Config.CreateHashRun { Default.SetParallelism 0 with Salt := some [1, 2, 3] } toyKDF
        toyRand (str "foo") 7 =
      (.error Panic.parallelismTooLow,
        { Default.SetParallelism 0 with Salt := some [1, 2, 3] }, 7) ∧
      Config.CreateHashRun { Default.SetKeyLength 0 with Salt := some [1, 2, 3] } toyKDF
        toyRand (str "foo") 7 =
      (.error Panic.nilHash, { Default.SetKeyLength 0 with Salt := some [1, 2, 3] }, 7) := by
  decide

end Argon2
